import Mathlib

/-!
Verification development for the VK→Telegram republishing bot
(`bot/pipeline.py`, `bot/state.py`, `bot/main.py`, `bot/config.py`).

Text is modelled as `List Char` (Python `str` under `len`, slicing and
per-code-point operations).  Python dicts are modelled as association
lists with unique keys; JSON persistence (`StateStore.save`) always
succeeds and is therefore the identity on the modelled state.  External
HTTP collaborators (Telegram client, VK client, site scraper) are
modelled by an environment of response streams.
-/

set_option maxHeartbeats 1600000

/-- Python `str` text, one entry per code point. -/
abbrev Str := List Char

/-- Literal helper: the character list of a Lean string literal. -/
def str (s : String) : Str := s.data

/-- Python whitespace for `str.strip` / `str.isspace` / `\s`
(ASCII subset, which is all the pipeline ever handles). -/
def pyIsSpace (c : Char) : Bool :=
  c = ' ' || c = '\t' || c = '\n' || c = '\r' || c = '\x0b' || c = '\x0c'

/-- Python `str.lstrip()`. -/
def lstrip (s : Str) : Str := s.dropWhile pyIsSpace

/-- Python `str.rstrip()`. -/
def rstrip (s : Str) : Str := (s.reverse.dropWhile pyIsSpace).reverse

/-- Python `str.strip()`. -/
def strip (s : Str) : Str := rstrip (lstrip s)

/-- Python `str.lower()` (ASCII homologue plus the Cyrillic range the
pipeline's markers use). -/
def lowerChar (c : Char) : Char :=
  if 'A' ≤ c ∧ c ≤ 'Z' then Char.ofNat (c.toNat + 32)
  else if 'А' ≤ c ∧ c ≤ 'Я' then Char.ofNat (c.toNat + 32)
  else if c = 'Ё' then 'ё'
  else c

/-- Python `str.lower()` on a whole string. -/
def lower (s : Str) : Str := s.map lowerChar

/-- Python `a.startswith(b)`. -/
def startswith (s pre : Str) : Bool := pre.isPrefixOf s

/-- Python `a.endswith(b)`. -/
def endswith (s suf : Str) : Bool := suf.isSuffixOf s

/-- Python `needle in hay` / `str.find` support: first index of `needle`
inside `hay`, `none` when absent (`str.find` returns `-1` there). -/
def findSub (needle : Str) : Str → Option Nat
  | [] => if needle.isEmpty then some 0 else none
  | c :: rest =>
    if needle.isPrefixOf (c :: rest) then some 0
    else (findSub needle rest).map (· + 1)

/-- Python `needle in hay` for strings. -/
def containsSub (hay needle : Str) : Bool := (findSub needle hay).isSome

/-- Python `str.split(sep)` with a literal non-empty separator. -/
def splitOnSep (sep : Str) : Str → List Str
  | [] => [[]]
  | c :: rest =>
    if h : ¬sep.isEmpty ∧ sep.isPrefixOf (c :: rest) then
      [] :: splitOnSep sep ((c :: rest).drop sep.length)
    else
      match splitOnSep sep rest with
      | [] => [[c]]
      | h :: t => (c :: h) :: t
  termination_by l => l.length
  decreasing_by
    · simp only [List.length_drop, List.length_cons]
      have hlen : 0 < sep.length := by
        cases sep with
        | nil => simp at h
        | cons a b => simp
      omega
    · simp

/-- Python set-based order-preserving de-duplication
(`if line in seen: continue`). -/
def dedupPreserve (l : List Str) : List Str :=
  (l.foldl (fun (acc : List Str) x => if x ∈ acc then acc else acc ++ [x]) [])

/-- `str(int)`: decimal rendering of an integer, as used for dict keys. -/
def intStr (n : Int) : Str := (toString n).data

/-- Association-list lookup (Python `dict.get`). -/
def alookup {κ α : Type} [DecidableEq κ] : List (κ × α) → κ → Option α
  | [], _ => none
  | (k, v) :: rest, key => if k = key then some v else alookup rest key

/-- Association-list store (Python `dict[k] = v`): updates the existing
binding in place or appends a new one. -/
def aset {κ α : Type} [DecidableEq κ] : List (κ × α) → κ → α → List (κ × α)
  | [], key, v => [(key, v)]
  | (k, w) :: rest, key, v =>
    if k = key then (k, v) :: rest else (k, w) :: aset rest key v

/-- Association-list removal (Python `dict.pop(k, None)`; keys are
unique in a dict, so removing every binding of the key is the same
operation and keeps lookups simple). -/
def aerase {κ α : Type} [DecidableEq κ] (m : List (κ × α)) (key : κ) : List (κ × α) :=
  m.filter (fun kv => kv.1 ≠ key)

/-! ### Chunker (`pipeline.chunk_text` and helpers) -/

/-- The maximal same-class runs produced by `re.findall(r"\S+|\s+", text)`. -/
def tokenize : Str → List Str
  | [] => []
  | c :: rest =>
    (c :: rest.takeWhile (fun d => pyIsSpace d = pyIsSpace c))
      :: tokenize (rest.dropWhile (fun d => pyIsSpace d = pyIsSpace c))
  termination_by l => l.length
  decreasing_by
    have h2 : List.Sublist (List.dropWhile (fun d => pyIsSpace d = pyIsSpace c) rest) rest :=
      List.dropWhile_sublist _
    have := h2.length_le
    simp only [List.length_cons]
    omega

/-- The successive `token[start:start+limit]` slices of the hard-split
`while` loop in `_split_block_by_words`. -/
def sliceChunks (t : Str) (limit : Nat) : List Str :=
  if h : t.isEmpty ∨ limit = 0 then []
  else t.take limit :: sliceChunks (t.drop limit) limit
  termination_by t.length
  decreasing_by
    simp only [List.length_drop]
    push_neg at h
    obtain ⟨h1, h2⟩ := h
    have ht : t ≠ [] := by simpa [List.isEmpty_iff] using h1
    have : 0 < t.length := List.length_pos.mpr ht
    omega

/-- One iteration of the `for token in tokens` loop of
`_split_block_by_words`; the state is `(parts, current)`. -/
def splitStep (limit : Nat) (st : List Str × Str) (token : Str) : List Str × Str :=
  let parts := st.1
  let current := st.2
  if limit < token.length then
    -- over-long token: flush `current` if it has substance, then
    -- hard-split the token into `limit`-sized pieces; full pieces are
    -- appended rstripped, a final short piece becomes `current`.
    let flushed :=
      if (strip current).isEmpty then (parts, current) else (parts ++ [rstrip current], [])
    (sliceChunks token limit).foldl
      (fun st piece =>
        if piece.length = limit then (st.1 ++ [rstrip piece], st.2) else (st.1, piece))
      flushed
  else if current.length + token.length ≤ limit then
    (parts, current ++ token)
  else
    let parts := if (strip current).isEmpty then parts else parts ++ [rstrip current]
    (parts, if token.all pyIsSpace then lstrip token else token)

/-- `pipeline._split_block_by_words(text, limit)`. -/
def split_block_by_words (text : Str) (limit : Nat) : List Str :=
  if text.isEmpty then []
  else if text.length ≤ limit then [text]
  else
    let final := (tokenize text).foldl (splitStep limit) ([], [])
    if (strip final.2).isEmpty then final.1 else final.1 ++ [rstrip final.2]

/-- One iteration of the `for paragraph in paragraphs` loop of
`chunk_text`; the state is `(chunks, current)`. -/
def chunkStep (limit : Nat) (st : List Str × Str) (paragraph : Str) : List Str × Str :=
  let chunks := st.1
  let current := st.2
  let candidate := if current.isEmpty then paragraph else current ++ str "\n\n" ++ paragraph
  if candidate.length ≤ limit then (chunks, candidate)
  else
    let chunks := if current.isEmpty then chunks else chunks ++ [current]
    if paragraph.length ≤ limit then (chunks, paragraph)
    else
      match split_block_by_words paragraph limit with
      | [] => (chunks, [])
      | p :: ps => (chunks ++ (p :: ps).dropLast, (p :: ps).getLast (by simp))

/-- `pipeline.chunk_text(text, limit)`. -/
def chunk_text (text : Str) (limit : Nat) : List Str :=
  let cleaned := strip text
  if cleaned.isEmpty then [[]]
  else if cleaned.length ≤ limit then [cleaned]
  else
    let paragraphs := ((splitOnSep (str "\n\n") cleaned).map strip).filter (fun p => ¬p.isEmpty)
    if paragraphs.isEmpty then split_block_by_words cleaned limit
    else
      let final := paragraphs.foldl (chunkStep limit) ([], [])
      let chunks := if final.2.isEmpty then final.1 else final.1 ++ [final.2]
      if chunks.isEmpty then [cleaned] else chunks

/-! ### SHA-256 (`hashlib.sha256(...).hexdigest()`), over byte lists -/

/-- 32-bit right rotation (values kept below `2 ^ 32`). -/
def rotr32 (x n : Nat) : Nat := ((x >>> n) ||| (x <<< (32 - n))) % 4294967296

/-- The SHA-256 round constants. -/
def shaK : List Nat :=
  [1116352408, 1899447441, 3049323471, 3921009573, 961987163, 1508970993,
   2453635748, 2870763221, 3624381080, 310598401, 607225278, 1426881987,
   1925078388, 2162078206, 2614888103, 3248222580, 3835390401, 4022224774,
   264347078, 604807628, 770255983, 1249150122, 1555081692, 1996064986,
   2554220882, 2821834349, 2952996808, 3210313671, 3336571891, 3584528711,
   113926993, 338241895, 666307205, 773529912, 1294757372, 1396182291,
   1695183700, 1986661051, 2177026350, 2456956037, 2730485921, 2820302411,
   3259730800, 3345764771, 3516065817, 3600352804, 4094571909, 275423344,
   430227734, 506948616, 659060556, 883997877, 958139571, 1322822218,
   1537002063, 1747873779, 1955562222, 2024104815, 2227730452, 2361852424,
   2428436474, 2756734187, 3204031479, 3329325298]

/-- Message padding: append `0x80`, zero bytes, and the 64-bit big-endian
bit length, reaching a multiple of 64 bytes. -/
def shaPad (msg : List Nat) : List Nat :=
  let len := msg.length
  let padZeros := (119 - len % 64) % 64
  msg ++ [0x80] ++ List.replicate padZeros 0
      ++ (List.range 8).map (fun i => (len * 8) >>> ((7 - i) * 8) % 256)

/-- Split a list into consecutive pieces of `n` elements. -/
def chunkList (n : Nat) (l : List Nat) : List (List Nat) :=
  if h : l.isEmpty ∨ n = 0 then []
  else l.take n :: chunkList n (l.drop n)
  termination_by l.length
  decreasing_by
    simp only [List.length_drop]
    push_neg at h
    obtain ⟨h1, h2⟩ := h
    have ht : l ≠ [] := by simpa [List.isEmpty_iff] using h1
    have : 0 < l.length := List.length_pos.mpr ht
    omega

/-- The 16 initial 32-bit words of one 64-byte block. -/
def shaWords (block : List Nat) : List Nat :=
  (List.range 16).map (fun i =>
    block.getD (4 * i) 0 * 16777216 + block.getD (4 * i + 1) 0 * 65536
      + block.getD (4 * i + 2) 0 * 256 + block.getD (4 * i + 3) 0)

/-- Message-schedule extension from 16 to 64 words. -/
def shaSchedule (w : List Nat) : List Nat :=
  (List.range 48).foldl
    (fun ws _ =>
      let i := ws.length
      let w15 := ws.getD (i - 15) 0
      let w2 := ws.getD (i - 2) 0
      let s0 := (rotr32 w15 7) ^^^ (rotr32 w15 18) ^^^ (w15 >>> 3)
      let s1 := (rotr32 w2 17) ^^^ (rotr32 w2 19) ^^^ (w2 >>> 10)
      ws ++ [(ws.getD (i - 16) 0 + s0 + ws.getD (i - 7) 0 + s1) % 4294967296])
    w

/-- One SHA-256 compression step over a 64-byte block. -/
def shaCompress (hs : List Nat) (block : List Nat) : List Nat :=
  let w := shaSchedule (shaWords block)
  let final := (List.range 64).foldl
    (fun (v : List Nat) i =>
      let a := v.getD 0 0
      let b := v.getD 1 0
      let c := v.getD 2 0
      let d := v.getD 3 0
      let e := v.getD 4 0
      let f := v.getD 5 0
      let g := v.getD 6 0
      let hh := v.getD 7 0
      let s1 := (rotr32 e 6) ^^^ (rotr32 e 11) ^^^ (rotr32 e 25)
      let ch := (e &&& f) ^^^ ((4294967295 - e) &&& g)
      let t1 := (hh + s1 + ch + shaK.getD i 0 + w.getD i 0) % 4294967296
      let s0 := (rotr32 a 2) ^^^ (rotr32 a 13) ^^^ (rotr32 a 22)
      let mj := (a &&& b) ^^^ (a &&& c) ^^^ (b &&& c)
      let t2 := (s0 + mj) % 4294967296
      [(t1 + t2) % 4294967296, a, b, c, (d + t1) % 4294967296, e, f, g])
    hs
  (List.range 8).map (fun i => (hs.getD i 0 + final.getD i 0) % 4294967296)

/-- SHA-256 initial state. -/
def shaInit : List Nat :=
  [1779033703, 3144134277, 1013904242, 2773480762,
   1359893119, 2600822924, 528734635, 1541459225]

/-- Lowercase hexadecimal digit. -/
def hexLower (n : Nat) : Char :=
  if n < 10 then Char.ofNat (48 + n) else Char.ofNat (87 + n % 16)

/-- 8 lowercase hex characters of one 32-bit word. -/
def hexWord (w : Nat) : Str :=
  (List.range 8).map (fun i => hexLower (w >>> ((7 - i) * 4) % 16))

/-- `hashlib.sha256(bytes).hexdigest()`. -/
def sha256hex (msg : List Nat) : Str :=
  (((chunkList 64 (shaPad msg)).foldl shaCompress shaInit).map hexWord).flatten

/-! ### `json.dumps(..., sort_keys=True, ensure_ascii=True)` -/

/-- Four lowercase hex characters. -/
def hex4 (n : Nat) : Str :=
  [hexLower (n / 4096 % 16), hexLower (n / 256 % 16),
   hexLower (n / 16 % 16), hexLower (n % 16)]

/-- One character of a JSON string under `ensure_ascii=True`: printable
ASCII passes through, everything else is escaped. -/
def jsonEscapeChar (c : Char) : Str :=
  if c = '"' then ['\\', '"']
  else if c = '\\' then ['\\', '\\']
  else if c = '\n' then ['\\', 'n']
  else if c = '\r' then ['\\', 'r']
  else if c = '\t' then ['\\', 't']
  else if c.toNat = 8 then ['\\', 'b']
  else if c.toNat = 12 then ['\\', 'f']
  else if 0x20 ≤ c.toNat ∧ c.toNat ≤ 0x7e then [c]
  else if c.toNat < 0x10000 then '\\' :: 'u' :: hex4 c.toNat
  else
    ('\\' :: 'u' :: hex4 (0xd800 + (c.toNat - 0x10000) / 1024))
      ++ ('\\' :: 'u' :: hex4 (0xdc00 + (c.toNat - 0x10000) % 1024))

/-- JSON string literal. -/
def jsonStr (s : Str) : Str := '"' :: (s.map jsonEscapeChar).flatten ++ ['"']

/-- JSON boolean. -/
def jsonBool (b : Bool) : Str := if b then str "true" else str "false"

/-- JSON array with the default `json.dumps` item separator. -/
def jsonList (elems : List Str) : Str :=
  '[' :: List.intercalate (str ", ") elems ++ [']']

/-- JSON object from already-serialized key/value pairs, with the default
`json.dumps` separators; the caller lists keys in sorted order. -/
def jsonObj (fields : List (Str × Str)) : Str :=
  Char.ofNat 123
    :: List.intercalate (str ", ")
        (fields.map (fun f => jsonStr f.1 ++ str ": " ++ f.2))
    ++ [Char.ofNat 125]

/-! ### Data model (canonical payloads, store records, configuration) -/

/-- A poll extracted from a VK attachment (`_parse_attachments`). -/
structure Poll where
  question : Str
  options : List Str
  is_anonymous : Bool
deriving DecidableEq, Repr

/-- One canonical media reference (`{"type": "photo", "url": ...}`). -/
structure MediaItem where
  ty : Str
  url : Str
deriving DecidableEq, Repr

/-- The canonical wall-post payload returned by `_normalize_post`. -/
structure PostPayload where
  post_id : Int
  owner_id : Int
  text : Str
  media : List MediaItem
  poll : Option Poll
  vk_url : Str
deriving DecidableEq, Repr

/-- The canonical site-news payload built by `handle_news`. -/
structure NewsPayload where
  url : Str
  title : Str
  date : Str
  text : Str
  images : List Str
  is_event : Bool
  is_digest : Bool
deriving DecidableEq, Repr

/-- `json.dumps` of a media item (keys sorted: type, url). -/
def dumpMediaItem (m : MediaItem) : Str :=
  jsonObj [(str "type", jsonStr m.ty), (str "url", jsonStr m.url)]

/-- `json.dumps` of an optional poll (keys sorted). -/
def dumpPoll : Option Poll → Str
  | none => str "null"
  | some p =>
    jsonObj [(str "is_anonymous", jsonBool p.is_anonymous),
             (str "options", jsonList (p.options.map jsonStr)),
             (str "question", jsonStr p.question)]

/-- `json.dumps(payload, sort_keys=True, ensure_ascii=True)` for a wall
post payload (keys sorted: media, owner_id, poll, post_id, text, vk_url). -/
def dumpPostPayload (p : PostPayload) : Str :=
  jsonObj [(str "media", jsonList (p.media.map dumpMediaItem)),
           (str "owner_id", intStr p.owner_id),
           (str "poll", dumpPoll p.poll),
           (str "post_id", intStr p.post_id),
           (str "text", jsonStr p.text),
           (str "vk_url", jsonStr p.vk_url)]

/-- `json.dumps(payload, sort_keys=True, ensure_ascii=True)` for a news
payload (keys sorted: date, images, is_digest, is_event, text, title, url). -/
def dumpNewsPayload (p : NewsPayload) : Str :=
  jsonObj [(str "date", jsonStr p.date),
           (str "images", jsonList (p.images.map jsonStr)),
           (str "is_digest", jsonBool p.is_digest),
           (str "is_event", jsonBool p.is_event),
           (str "text", jsonStr p.text),
           (str "title", jsonStr p.title),
           (str "url", jsonStr p.url)]

/-- `Pipeline._hash_payload` on a wall-post payload: SHA-256 hex digest of
the stably-serialized payload (ASCII bytes, since `ensure_ascii=True`). -/
def hash_payload (p : PostPayload) : Str :=
  sha256hex ((dumpPostPayload p).map Char.toNat)

/-- `Pipeline._hash_payload` applied to a news payload. -/
def hash_news_payload (p : NewsPayload) : Str :=
  sha256hex ((dumpNewsPayload p).map Char.toNat)

/-- One record of `state["posts"]`.  Keys that may be absent in the JSON
snapshot are modelled as `Option`; `moderation_message_ids` is the
per-chat prompt-message map (see `set_moderation_message_ids`). -/
structure PostRecord where
  hash : Str
  status : Str
  token : Option Str
  tg_message_ids : List Int
  updated_at : Nat
  payload : PostPayload
  moderation_message_ids : List (Int × List Int)
deriving DecidableEq, Repr

/-- One record of `state["news"]`. -/
structure NewsRecord where
  hash : Str
  status : Str
  token : Option Str
  tg_message_ids : List Int
  updated_at : Nat
  payload : NewsPayload
  published_to : Option Str
  vk_post_id : Option Int
  moderation_message_ids : List (Int × List Int)
deriving DecidableEq, Repr

/-- The empty payload used when `mark_published` has to create a record
from `{}` (all keys absent → defaults). -/
def emptyPostPayload : PostPayload :=
  { post_id := 0, owner_id := 0, text := [], media := [], poll := none, vk_url := [] }

/-- The record corresponding to Python's empty dict `{}` in
`mark_published` (`posts.get(...) or {}`). -/
def emptyPostRecord : PostRecord :=
  { hash := [], status := [], token := none, tg_message_ids := [],
    updated_at := 0, payload := emptyPostPayload, moderation_message_ids := [] }

/-- The empty news payload (all keys absent → defaults). -/
def emptyNewsPayload : NewsPayload :=
  { url := [], title := [], date := [], text := [], images := [],
    is_event := false, is_digest := false }

/-- The record corresponding to `news.get(url) or {}` in
`mark_news_published`. -/
def emptyNewsRecord : NewsRecord :=
  { hash := [], status := [], token := none, tg_message_ids := [],
    updated_at := 0, payload := emptyNewsPayload, published_to := none,
    vk_post_id := none, moderation_message_ids := [] }

/-- `StateStore._data`: the whole persisted snapshot. -/
structure StoreData where
  last_ts : Option Str
  last_post_id : Option Int
  processed_ids : List Int
  posts : List (Str × PostRecord)
  moderation_tokens : List (Str × Int)
  news : List (Str × NewsRecord)
  news_tokens : List (Str × Str)
  news_seen : List Str
deriving DecidableEq, Repr

/-- The initial (or corrupt-recovery) store contents. -/
def emptyStore : StoreData :=
  { last_ts := none, last_post_id := none, processed_ids := [], posts := [],
    moderation_tokens := [], news := [], news_tokens := [], news_seen := [] }

/-- `StateStore(path).max_processed` default. -/
def max_processed : Nat := 300

/-- `config.Config` (the fields the pipeline reads). -/
structure Config where
  vk_group_id : Int
  tg_channel_id : Str
  owner_id : Int
  moderator_ids : List Int
  moderation_mode : Str
  dry_run : Bool
deriving DecidableEq, Repr

/-- `Config.moderation_required`. -/
def Config.moderation_required (c : Config) : Bool :=
  lower c.moderation_mode = str "required"

/-- `Config.all_moderator_ids`: owner first, then the moderator list, with
zero entries and duplicates dropped. -/
def Config.all_moderator_ids (c : Config) : List Int :=
  (c.owner_id :: c.moderator_ids).foldl
    (fun acc uid => if uid = 0 ∨ uid ∈ acc then acc else acc ++ [uid]) []

/-- `Config.is_owner` (`bool(user_id) and int(user_id) == owner_id`). -/
def Config.is_owner (c : Config) : Option Int → Bool
  | none => false
  | some uid => uid ≠ 0 ∧ uid = c.owner_id

/-- `Config.is_moderator`. -/
def Config.is_moderator (c : Config) : Option Int → Bool
  | none => false
  | some uid => uid ≠ 0 ∧ uid ∈ c.all_moderator_ids

/-! ### StateStore operations (`bot/state.py`)

Each `async` method runs under the store lock and ends in `save()`,
which we model as always succeeding, so the methods are pure functions
`StoreData → StoreData`.  `now` stands for `int(time.time())`. -/

/-- Truthiness of an optional string (`if existing.get("token")`). -/
def optStrTruthy : Option Str → Bool
  | none => false
  | some s => ¬s.isEmpty

/-- `StateStore.should_skip(post_id, content_hash)`. -/
def should_skip (s : StoreData) (post_id : Int) (content_hash : Str) : Bool :=
  match alookup s.posts (intStr post_id) with
  | none => false
  | some post =>
    post.hash = content_hash ∧
      (post.status = str "pending" ∨ post.status = str "approved" ∨
       post.status = str "published" ∨ post.status = str "rejected")

/-- `StateStore._append_processed`. -/
def append_processed (s : StoreData) (post_id : Int) : StoreData :=
  if post_id ∈ s.processed_ids then s
  else
    let processed := s.processed_ids ++ [post_id]
    { s with processed_ids :=
        if max_processed < processed.length then
          processed.drop (processed.length - max_processed)
        else processed }

/-- `StateStore.mark_pending(post_id, content_hash, token, payload)`. -/
def mark_pending (now : Nat) (s : StoreData) (post_id : Int)
    (content_hash : Str) (token : Option Str) (payload : PostPayload) : StoreData :=
  let key := intStr post_id
  let s :=
    match alookup s.posts key with
    | some existing =>
      if optStrTruthy existing.token then
        { s with moderation_tokens :=
            aerase s.moderation_tokens (existing.token.getD []) }
      else s
    | none => s
  let post : PostRecord :=
    { hash := content_hash,
      status := if optStrTruthy token then str "pending" else str "auto",
      token := token, tg_message_ids := [], updated_at := now,
      payload := payload, moderation_message_ids := [] }
  let s := { s with posts := aset s.posts key post }
  let s :=
    match token with
    | some t => if ¬t.isEmpty then
        { s with moderation_tokens := aset s.moderation_tokens t post_id }
      else s
    | none => s
  append_processed { s with last_post_id := some post_id } post_id

/-- `StateStore.mark_rejected(post_id)`. -/
def mark_rejected (now : Nat) (s : StoreData) (post_id : Int) : StoreData :=
  match alookup s.posts (intStr post_id) with
  | none => s
  | some post =>
    let upd := { post with status := str "rejected", updated_at := now }
    let s := { s with posts := aset s.posts (intStr post_id) upd }
    if optStrTruthy post.token then
      { s with moderation_tokens := aerase s.moderation_tokens (post.token.getD []) }
    else s

/-- `StateStore.mark_approved(post_id)`. -/
def mark_approved (now : Nat) (s : StoreData) (post_id : Int) : StoreData :=
  match alookup s.posts (intStr post_id) with
  | none => s
  | some post =>
    let upd := { post with status := str "approved", updated_at := now }
    let s := { s with posts := aset s.posts (intStr post_id) upd }
    if optStrTruthy post.token then
      { s with moderation_tokens := aerase s.moderation_tokens (post.token.getD []) }
    else s

/-- `StateStore.mark_published(post_id, tg_message_ids)`. -/
def mark_published (now : Nat) (s : StoreData) (post_id : Int)
    (tg_message_ids : List Int) : StoreData :=
  let key := intStr post_id
  let base := (alookup s.posts key).getD emptyPostRecord
  let post := { base with status := str "published", tg_message_ids := tg_message_ids, updated_at := now }
  append_processed { s with posts := aset s.posts key post } post_id

/-- `StateStore.get_post_by_token(token)`. -/
def get_post_by_token (s : StoreData) (token : Str) : Option Int :=
  alookup s.moderation_tokens token

/-- `StateStore.invalidate_token(token)`. -/
def invalidate_token (s : StoreData) (token : Str) : StoreData :=
  { s with moderation_tokens := aerase s.moderation_tokens token }

/-- `StateStore.get_post_record(post_id)`. -/
def get_post_record (s : StoreData) (post_id : Int) : Option PostRecord :=
  alookup s.posts (intStr post_id)

/-- `StateStore.get_payload(post_id)`. -/
def get_payload (s : StoreData) (post_id : Int) : Option PostPayload :=
  (alookup s.posts (intStr post_id)).map (·.payload)

/-- `StateStore.news_should_skip(url, content_hash)`. -/
def news_should_skip (s : StoreData) (url : Str) (content_hash : Str) : Bool :=
  match alookup s.news url with
  | none => false
  | some news =>
    news.hash = content_hash ∧
      (news.status = str "pending" ∨ news.status = str "approved" ∨
       news.status = str "rejected" ∨ startswith news.status (str "published"))

/-- Bounded append to `news_seen` (shared tail of `mark_news_pending`
and `mark_news_published`). -/
def append_news_seen (s : StoreData) (url : Str) : StoreData :=
  if url ∈ s.news_seen then s
  else
    let seen := s.news_seen ++ [url]
    { s with news_seen :=
        if max_processed < seen.length then
          seen.drop (seen.length - max_processed)
        else seen }

/-- `StateStore.mark_news_pending(url, content_hash, token, payload)`. -/
def mark_news_pending (now : Nat) (s : StoreData) (url : Str)
    (content_hash : Str) (token : Option Str) (payload : NewsPayload) : StoreData :=
  let s :=
    match alookup s.news url with
    | some existing =>
      if optStrTruthy existing.token then
        { s with news_tokens := aerase s.news_tokens (existing.token.getD []) }
      else s
    | none => s
  let entry : NewsRecord :=
    { hash := content_hash,
      status := if optStrTruthy token then str "pending" else str "auto",
      token := token, tg_message_ids := [], updated_at := now,
      payload := payload, published_to := none, vk_post_id := none,
      moderation_message_ids := [] }
  let s := { s with news := aset s.news url entry }
  let s :=
    match token with
    | some t => if ¬t.isEmpty then
        { s with news_tokens := aset s.news_tokens t url }
      else s
    | none => s
  append_news_seen s url

/-- `StateStore.mark_news_rejected(url)`. -/
def mark_news_rejected (now : Nat) (s : StoreData) (url : Str) : StoreData :=
  match alookup s.news url with
  | none => s
  | some news =>
    let upd := { news with status := str "rejected", updated_at := now }
    let s := { s with news := aset s.news url upd }
    if optStrTruthy news.token then
      { s with news_tokens := aerase s.news_tokens (news.token.getD []) }
    else s

/-- `StateStore.mark_news_approved(url)`. -/
def mark_news_approved (now : Nat) (s : StoreData) (url : Str) : StoreData :=
  match alookup s.news url with
  | none => s
  | some news =>
    let upd := { news with status := str "approved", updated_at := now }
    let s := { s with news := aset s.news url upd }
    if optStrTruthy news.token then
      { s with news_tokens := aerase s.news_tokens (news.token.getD []) }
    else s

/-- `StateStore.mark_news_published(url, tg_message_ids, vk_post_id,
published_to)`. -/
def mark_news_published (now : Nat) (s : StoreData) (url : Str)
    (tg_message_ids : Option (List Int)) (vk_post_id : Option Int)
    (published_to : Option Str) : StoreData :=
  let base := (alookup s.news url).getD emptyNewsRecord
  let entry :=
    match published_to with
    | some target =>
      { base with status := str "published_" ++ target, published_to := some target }
    | none => { base with status := str "published" }
  let entry :=
    match tg_message_ids with
    | some ids => { entry with tg_message_ids := ids }
    | none => entry
  let entry :=
    match vk_post_id with
    | some vp => { entry with vk_post_id := some vp }
    | none => entry
  let upd := { entry with updated_at := now }
  append_news_seen { s with news := aset s.news url upd } url

/-- `StateStore.get_news_by_token(token)`. -/
def get_news_by_token (s : StoreData) (token : Str) : Option Str :=
  alookup s.news_tokens token

/-- `StateStore.invalidate_news_token(token)`. -/
def invalidate_news_token (s : StoreData) (token : Str) : StoreData :=
  { s with news_tokens := aerase s.news_tokens token }

/-- `StateStore.get_news_payload(url)`. -/
def get_news_payload (s : StoreData) (url : Str) : Option NewsPayload :=
  (alookup s.news url).map (·.payload)

/-- `StateStore.get_news_record(url)`. -/
def get_news_record (s : StoreData) (url : Str) : Option NewsRecord :=
  alookup s.news url

/-- Modelled from the spec: `setModerationMessageIds(id, mapping)`.
`pipeline._send_for_moderation` calls
`state.set_moderation_message_ids(post_id, message_ids_by_chat)` but the
method is missing from `src/bot/state.py`; per spec §4.2/§3 it records,
on the item's persisted record, the mapping from target-chat id to the
ordered outbound moderation-message ids. -/
def set_moderation_message_ids (s : StoreData) (post_id : Int)
    (mapping : List (Int × List Int)) : StoreData :=
  match alookup s.posts (intStr post_id) with
  | none => s
  | some post =>
    let upd := { post with moderation_message_ids := mapping }
    { s with posts := aset s.posts (intStr post_id) upd }

/-- Modelled from the spec: the read side used by
`pipeline._delete_post_moderation_messages`
(`state.get_moderation_message_id_map`), also missing from
`src/bot/state.py`: returns the stored per-chat mapping, empty when none
was recorded. -/
def get_moderation_message_id_map (s : StoreData) (post_id : Int) :
    List (Int × List Int) :=
  ((alookup s.posts (intStr post_id)).map (·.moderation_message_ids)).getD []

/-- Modelled from the spec: `clearModerationMessageIds(id)`
(`state.clear_moderation_message_ids`, missing from `src/bot/state.py`):
empties the stored per-chat mapping so the prompt messages are forgotten
once deleted. -/
def clear_moderation_message_ids (s : StoreData) (post_id : Int) : StoreData :=
  match alookup s.posts (intStr post_id) with
  | none => s
  | some post =>
    let upd := { post with moderation_message_ids := ([] : List (Int × List Int)) }
    { s with posts := aset s.posts (intStr post_id) upd }

/-- Modelled from the spec: the news-side analogue
`state.set_news_moderation_message_ids(url, mapping)` called from
`pipeline._send_news_for_moderation` but missing from `src/bot/state.py`. -/
def set_news_moderation_message_ids (s : StoreData) (url : Str)
    (mapping : List (Int × List Int)) : StoreData :=
  match alookup s.news url with
  | none => s
  | some news =>
    let upd := { news with moderation_message_ids := mapping }
    { s with news := aset s.news url upd }

/-- Modelled from the spec: `state.get_news_moderation_message_id_map(url)`
(missing from `src/bot/state.py`). -/
def get_news_moderation_message_id_map (s : StoreData) (url : Str) :
    List (Int × List Int) :=
  ((alookup s.news url).map (·.moderation_message_ids)).getD []

/-- Modelled from the spec: `state.clear_news_moderation_message_ids(url)`
(missing from `src/bot/state.py`). -/
def clear_news_moderation_message_ids (s : StoreData) (url : Str) : StoreData :=
  match alookup s.news url with
  | none => s
  | some news =>
    let upd := { news with moderation_message_ids := ([] : List (Int × List Int)) }
    { s with news := aset s.news url upd }

/-! ### Normalizer (`pipeline._normalize_post` and helpers) -/

/-- `pipeline.escape_html`, character-wise.  The source chains
`.replace("&", "&amp;").replace("<", "&lt;").replace(">", "&gt;")
.replace('"', "&quot;")`; since the later replacements never introduce
`&`, `<`, `>` or `"` that an earlier pass would have rewritten, this is
the same function. -/
def escapeHtmlChar (c : Char) : Str :=
  if c = '&' then str "&amp;"
  else if c = '<' then str "&lt;"
  else if c = '>' then str "&gt;"
  else if c = '"' then str "&quot;"
  else [c]

/-- `pipeline.escape_html`. -/
def escape_html (t : Str) : Str := (t.map escapeHtmlChar).flatten

/-- `normalize_vk_markup.looks_like_url`. -/
def looks_like_url (v : Str) : Bool :=
  startswith v (str "http://") || startswith v (str "https://")
    || startswith v (str "www.")

/-- `normalize_vk_markup.normalize_url`. -/
def normalize_url (v : Str) : Str :=
  if startswith v (str "www.") then str "https://" ++ v else v

/-- `normalize_vk_markup.repl`: replacement for one matched
`[alias|label|url?]` group. -/
def vk_link_repl (alia label : Str) (url : Option Str) : Str :=
  let urlTruthy : Bool :=
    match url with
    | some u => ¬u.isEmpty && looks_like_url u
    | none => false
  if urlTruthy then normalize_url (url.getD [])
  else if looks_like_url alia then normalize_url alia
  else if looks_like_url label then normalize_url label
  else label

/-- Attempt to match the regex `\[([^|\]]+)\|([^|\]]+)(?:\|([^\]]+))?\]`
just after an opening `[`: returns the replacement text and the number of
consumed characters (after the `[`). -/
def parseVkLink (l : Str) : Option (Str × Nat) :=
  let alia := l.takeWhile (fun c => c ≠ '|' ∧ c ≠ ']')
  if alia.isEmpty then none
  else
    match l.drop alia.length with
    | '|' :: l2 =>
      let label := l2.takeWhile (fun c => c ≠ '|' ∧ c ≠ ']')
      if label.isEmpty then none
      else
        match l2.drop label.length with
        | ']' :: _ =>
          some (vk_link_repl alia label none, alia.length + 1 + label.length + 1)
        | '|' :: l4 =>
          let url := l4.takeWhile (fun c => c ≠ ']')
          if url.isEmpty then none
          else
            match l4.drop url.length with
            | ']' :: _ =>
              some (vk_link_repl alia label (some url),
                alia.length + 1 + label.length + 1 + url.length + 1)
            | _ => none
        | _ => none
    | _ => none

/-- The left-to-right scan of `re.sub` in `normalize_vk_markup`. -/
def nvmGo : Str → Str
  | [] => []
  | c :: tl =>
    if c = '[' then
      match parseVkLink tl with
      | some (repl, k) => repl ++ nvmGo (tl.drop k)
      | none => c :: nvmGo tl
    else c :: nvmGo tl
  termination_by l => l.length
  decreasing_by
    all_goals simp only [List.length_cons, List.length_drop]
    all_goals omega

/-- `pipeline.normalize_vk_markup(text)`. -/
def normalize_vk_markup (t : Str) : Str := nvmGo t

/-- One entry of a VK photo `sizes` array. -/
structure PhotoSize where
  url : Option Str
  src : Option Str
  width : Int
  height : Int
  ty : Option Str
deriving DecidableEq, Repr

/-- The `orig_photo` sub-object of a VK photo. -/
structure OrigPhoto where
  url : Option Str
  width : Int
  height : Int
deriving DecidableEq, Repr

/-- A VK photo object as read by `_extract_best_photo_url`: the `sizes`
list, the optional `orig_photo`, the flat URL keys, and the legacy
`photo_<N>` string fields in dict order. -/
structure PhotoObj where
  sizes : List PhotoSize
  orig_photo : Option OrigPhoto
  src_xxbig : Option Str
  src_xbig : Option Str
  src_big : Option Str
  src : Option Str
  url : Option Str
  photo_keys : List (Nat × Str)
deriving DecidableEq, Repr

/-- First truthy of `a or b or ""` for optional strings. -/
def pyOrStr2 (a b : Option Str) : Str :=
  match a with
  | some s => if ¬s.isEmpty then s else (b.getD [])
  | none => b.getD []

/-- The `size_type_rank` table of `_extract_best_photo_url`. -/
def size_type_rank : List (Str × Int) :=
  [(str "w", 12), (str "z", 11), (str "y", 10), (str "x", 9), (str "r", 8),
   (str "q", 7), (str "p", 6), (str "o", 5), (str "m", 4), (str "s", 3)]

/-- `_extract_best_photo_url(photo_obj)`: highest-resolution variant via
pixel count, falling back to the size-class rank table, the flat URL
keys, and `photo_<N>` fields. -/
def extract_best_photo_url (p : PhotoObj) : Option Str :=
  let best0 : Int × Option Str := (-1, none)
  let best1 := p.sizes.foldl
    (fun b sz =>
      let u := strip (pyOrStr2 sz.url sz.src)
      if u.isEmpty then b
      else
        let score0 : Int := sz.width * sz.height
        let score :=
          if score0 ≤ 0 then
            (alookup size_type_rank (lower (sz.ty.getD []))).getD 0
          else score0
        if b.1 < score then (score, some u) else b)
    best0
  let best2 :=
    match p.orig_photo with
    | none => best1
    | some op =>
      let u := strip (op.url.getD [])
      if u.isEmpty then best1
      else
        let score : Int :=
          if op.width ≠ 0 ∧ op.height ≠ 0 then op.width * op.height else 10000000
        if best1.1 < score then (score, some u) else best1
  let flat : List (Option Str × Int) :=
    [(p.src_xxbig, 9500000), (p.src_xbig, 9400000), (p.src_big, 9300000),
     (p.src, 9200000), (p.url, 9100000)]
  let best3 := flat.foldl
    (fun b kv =>
      let u := strip (kv.1.getD [])
      if ¬u.isEmpty ∧ b.1 < kv.2 then (kv.2, some u) else b)
    best2
  let best4 := p.photo_keys.foldl
    (fun b kv =>
      let u := strip kv.2
      if u.isEmpty then b
      else if b.1 < (kv.1 : Int) then ((kv.1 : Int), some u) else b)
    best3
  best4.2

/-- `_append_photo`: append the best variant unless absent or already
present. -/
def append_photo (media : List MediaItem) (p : PhotoObj) : List MediaItem :=
  match extract_best_photo_url p with
  | none => media
  | some best =>
    if media.any (fun m => m.url = best) then media
    else media ++ [{ ty := str "photo", url := best }]

/-- One VK attachment as read by `_parse_attachments`. -/
inductive Attachment where
  | photo (p : PhotoObj)
  | video (owner_id : Option Int) (vid : Option Int)
  | link (url : Option Str) (photo : Option PhotoObj)
  | posted_photo (p : PhotoObj)
  | doc (url : Option Str) (preview_photo : Option PhotoObj)
  | poll (question : Str) (answers : List Str) (anonymous : Bool)
  | other (ty : Str) (url : Option Str) (title : Option Str)
deriving DecidableEq, Repr

/-- The accumulator threaded through `_parse_attachments`
(`parsed_media`, `extra_lines`, `poll_obj`). -/
structure ParseSt where
  media : List MediaItem
  lines : List Str
  poll : Option Poll
deriving DecidableEq, Repr

/-- One iteration of the `for att in raw_attachments` loop. -/
def parse_attachment (st : ParseSt) (att : Attachment) : ParseSt :=
  match att with
  | .photo p => { st with media := append_photo st.media p }
  | .video o v =>
    match o, v with
    | some ow, some vd =>
      let line := str "Видео: https://vk.com/video" ++ intStr ow ++ str "_" ++ intStr vd
      { st with lines := st.lines ++ [line] }
    | _, _ => st
  | .link url ph =>
    let st :=
      match ph with
      | some p => { st with media := append_photo st.media p }
      | none => st
    (match url with
     | some u =>
       if ¬u.isEmpty then { st with lines := st.lines ++ [str "Ссылка: " ++ u] }
       else st
     | none => st)
  | .posted_photo p => { st with media := append_photo st.media p }
  | .doc url ph =>
    let st :=
      match ph with
      | some p => { st with media := append_photo st.media p }
      | none => st
    (match url with
     | some u =>
       if ¬u.isEmpty then { st with lines := st.lines ++ [str "Документ: " ++ u] }
       else st
     | none => st)
  | .poll q answers anon =>
    let pl : Poll := { question := q.take 255, options := answers.map (·.take 255), is_anonymous := anon }
    { st with poll := some pl }
  | .other ty url title =>
    match url with
    | some u =>
      if ¬u.isEmpty then
        let label := match title with
          | some t => if ¬t.isEmpty then t else ty
          | none => ty
        { st with lines := st.lines ++ [label ++ str ": " ++ u] }
      else st
    | none => st

/-- One level of `copy_history` (a reposted wall post). -/
structure Repost where
  text : Option Str
  attachments : List Attachment
deriving DecidableEq, Repr

/-- A raw VK wall post as consumed by `handle_post` / `_normalize_post`. -/
structure RawPost where
  id : Option Int
  post_id : Option Int
  owner_id : Option Int
  text : Option Str
  post_type : Option Str
  attachments : List Attachment
  copy_history : List Repost
deriving DecidableEq, Repr

/-- `post.get("id") or post.get("post_id") or 0` (Python truthiness). -/
def pyOrInt (a b : Option Int) : Int :=
  match a with
  | some n => if n = 0 then b.getD 0 else n
  | none => b.getD 0

/-- `post.get("id") or post.get("post_id")` as used by `handle_post`
(`None` when neither key yields a truthy value and `post_id` is absent). -/
def post_effective_id (p : RawPost) : Option Int :=
  match p.id with
  | some n => if n = 0 then p.post_id else some n
  | none => p.post_id

/-- `Pipeline._normalize_post(post)`. -/
def normalize_post (post : RawPost) : PostPayload :=
  let text := post.text.getD []
  let owner_id := post.owner_id.getD 0
  let pid := pyOrInt post.id post.post_id
  let vk_url := str "https://vk.com/wall" ++ intStr owner_id ++ str "_" ++ intStr pid
  let st1 := post.attachments.foldl parse_attachment
    { media := [], lines := [], poll := none }
  let step := fun (acc : Str × ParseSt) (iv : Nat × Repost) =>
    let src_text := iv.2.text.getD []
    let txt :=
      if ¬src_text.isEmpty then
        let pre :=
          if iv.1 = 0 then str "[Перепост]:"
          else str "[Перепост #" ++ intStr (iv.1 + 1) ++ str "]:"
        if ¬acc.1.isEmpty then acc.1 ++ str "\n\n" ++ pre ++ str "\n" ++ src_text
        else pre ++ str "\n" ++ src_text
      else acc.1
    (txt, iv.2.attachments.foldl parse_attachment acc.2)
  let res := (post.copy_history.enum).foldl step (text, st1)
  let text := res.1
  let stF := res.2
  let text :=
    if ¬stF.lines.isEmpty then
      let extra := List.intercalate (str "\n") (dedupPreserve stF.lines)
      if ¬text.isEmpty then text ++ str "\n\n" ++ extra else extra
    else text
  let text := normalize_vk_markup (strip text)
  { post_id := pid, owner_id := owner_id, text := strip text,
    media := stF.media, poll := stF.poll, vk_url := vk_url }

/-! ### MORE-marker chunkers and news text helpers -/

/-- Match `[MORE:<url>]]` (the part of the marker after its first `[`):
returns the captured url and the consumed length. -/
def parseMoreAfterBracket (l : Str) : Option (Str × Nat) :=
  if startswith l (str "[MORE:") then
    let u := (l.drop 6).takeWhile (fun c => c ≠ ']')
    if u.isEmpty then none
    else
      match (l.drop 6).drop u.length with
      | ']' :: ']' :: _ => some (u, 6 + u.length + 2)
      | _ => none
  else none

/-- Match the full marker `\[\[MORE:[^\]]+\]\]` at the start of `l`:
captured url plus total consumed length. -/
def parseMoreMarker (l : Str) : Option (Str × Nat) :=
  match l with
  | '[' :: tl => (parseMoreAfterBracket tl).map (fun r => (r.1, r.2 + 1))
  | _ => none

/-- `re.fullmatch(r"\[\[MORE:[^\]]+\]\]", line)`. -/
def isMoreMarkerLine (l : Str) : Bool :=
  match parseMoreMarker l with
  | some (_, k) => k = l.length
  | none => false

/-- Atom building of `_split_block_with_more_markers`: every marker line
glues onto the preceding atom (or opens one when none exists). -/
def buildMoreAtoms (lines : List Str) : List Str :=
  lines.foldl
    (fun atoms ln =>
      if isMoreMarkerLine ln then
        match atoms.getLast? with
        | some lastAtom => atoms.dropLast ++ [lastAtom ++ str "\n" ++ ln]
        | none => [ln]
      else atoms ++ [ln])
    []

/-- One iteration of the `for atom in atoms` packing loop of
`_split_block_with_more_markers` (joiner `"\n"`). -/
def moreAtomStep (limit : Nat) (st : List Str × Str) (atom : Str) : List Str × Str :=
  let parts := st.1
  let current := st.2
  let candidate := if current.isEmpty then atom else current ++ str "\n" ++ atom
  if candidate.length ≤ limit then (parts, candidate)
  else
    let parts := if current.isEmpty then parts else parts ++ [current]
    if atom.length ≤ limit then (parts, atom)
    else
      match split_block_by_words atom limit with
      | [] => (parts, [])
      | p :: ps => (parts ++ (p :: ps).dropLast, (p :: ps).getLast (by simp))

/-- `pipeline._split_block_with_more_markers(text, limit)`.  Lines come
from `str.splitlines()`, modelled as splitting on `"\n"` (the only line
separator the pipeline produces). -/
def split_block_with_more_markers (text : Str) (limit : Nat) : List Str :=
  let lines := ((splitOnSep (str "\n") text).map strip).filter (fun l => ¬l.isEmpty)
  if lines.isEmpty then []
  else
    let final := (buildMoreAtoms lines).foldl (moreAtomStep limit) ([], [])
    if final.2.isEmpty then final.1 else final.1 ++ [final.2]

/-- The `(?s)(.*?)(\[\[MORE:[^\]]+\]\])` scan: earliest marker occurrence
as `(text before, whole marker, text after)`. -/
def findMoreSplit : Str → Option (Str × Str × Str)
  | [] => none
  | c :: tl =>
    match parseMoreMarker (c :: tl) with
    | some (u, k) => some ([], str "[[MORE:" ++ u ++ str "]]", (c :: tl).drop k)
    | none => (findMoreSplit tl).map (fun r => (c :: r.1, r.2.1, r.2.2))

/-- A successful `parseMoreAfterBracket` consumes at least one character. -/
theorem parseMoreAfterBracket_pos {l : Str} {u : Str} {k : Nat}
    (h : parseMoreAfterBracket l = some (u, k)) : 1 ≤ k := by
  simp only [parseMoreAfterBracket] at h
  split at h
  · split at h
    · exact absurd h (by simp)
    · split at h
      · simp only [Option.some.injEq, Prod.mk.injEq] at h
        omega
      · exact absurd h (by simp)
  · exact absurd h (by simp)

/-- A successful `parseMoreMarker` consumes at least one character. -/
theorem parseMoreMarker_pos {l : Str} {u : Str} {k : Nat}
    (h : parseMoreMarker l = some (u, k)) : 1 ≤ k := by
  unfold parseMoreMarker at h
  split at h
  · cases hq : parseMoreAfterBracket _ with
    | some s =>
      rw [hq] at h
      simp at h
      omega
    | none => rw [hq] at h; simp at h
  · simp at h

/-- A successful `findMoreSplit` strictly shrinks the remaining text. -/
theorem findMoreSplit_length : ∀ {t : Str} {b m a : Str},
    findMoreSplit t = some (b, m, a) → a.length < t.length := by
  intro t
  induction t with
  | nil => intro b m a h; simp [findMoreSplit] at h
  | cons c tl ih =>
    intro b m a h
    unfold findMoreSplit at h
    cases hp : parseMoreMarker (c :: tl) with
    | some r =>
      rw [hp] at h
      simp only [Option.some.injEq, Prod.mk.injEq] at h
      obtain ⟨_, _, ha⟩ := h
      have hk : 1 ≤ r.2 :=
        @parseMoreMarker_pos (c :: tl) r.1 r.2 (by simpa using hp)
      subst ha
      simp only [List.length_drop, List.length_cons]
      omega
    | none =>
      rw [hp] at h
      rw [Option.map_eq_some'] at h
      obtain ⟨r, hf, hr⟩ := h
      have hlt := ih hf
      have ha : a = r.2.2 := congrArg (fun p => p.2.2) hr.symm
      subst ha
      simp only [List.length_cons]
      exact Nat.lt_succ_of_lt hlt

/-- The `for match in pair_re.finditer(cleaned)` block-collection loop of
`chunk_text_preserving_more_markers`; returns the collected blocks and
the final tail (`cleaned[pos:]`). -/
def collectMoreBlocksGo (blocks : List Str) (t : Str) : List Str × Str :=
  match h : findMoreSplit t with
  | none => (blocks, t)
  | some r =>
    let before := strip r.1
    let marker := strip r.2.1
    let blocks :=
      if ¬before.isEmpty then blocks ++ [before ++ str "\n" ++ marker]
      else if ¬marker.isEmpty then
        match blocks.getLast? with
        | some lastB => blocks.dropLast ++ [lastB ++ str "\n" ++ marker]
        | none => [marker]
      else blocks
    collectMoreBlocksGo blocks r.2.2
  termination_by t.length
  decreasing_by exact findMoreSplit_length h

/-- One iteration of the `for block in blocks` packing loop of
`chunk_text_preserving_more_markers` (joiner `"\n\n"`; over-long blocks
split marker-aware when they still contain a marker). -/
def moreBlockStep (limit : Nat) (st : List Str × Str) (block : Str) : List Str × Str :=
  let chunks := st.1
  let current := st.2
  let candidate := if current.isEmpty then block else current ++ str "\n\n" ++ block
  if candidate.length ≤ limit then (chunks, candidate)
  else
    let chunks := if current.isEmpty then chunks else chunks ++ [current]
    if block.length ≤ limit then (chunks, block)
    else
      let split_block :=
        if containsSub block (str "[[MORE:") then split_block_with_more_markers block limit
        else split_block_by_words block limit
      match split_block with
      | [] => (chunks, [])
      | p :: ps => (chunks ++ (p :: ps).dropLast, (p :: ps).getLast (by simp))

/-- `pipeline.chunk_text_preserving_more_markers(text, limit)`. -/
def chunk_text_preserving_more_markers (text : Str) (limit : Nat) : List Str :=
  let cleaned := strip text
  if cleaned.isEmpty then [[]]
  else if ¬containsSub cleaned (str "[[MORE:") then chunk_text cleaned limit
  else
    let res := collectMoreBlocksGo [] cleaned
    let tail := strip res.2
    let blocks := if ¬tail.isEmpty then res.1 ++ [tail] else res.1
    if blocks.isEmpty then chunk_text cleaned limit
    else
      let final := blocks.foldl (moreBlockStep limit) ([], [])
      let chunks := if ¬final.2.isEmpty then final.1 ++ [final.2] else final.1
      if chunks.isEmpty then [cleaned] else chunks

/-- `pipeline.chunk_news_text(text, limit)`. -/
def chunk_news_text (text : Str) (limit : Nat) : List Str :=
  chunk_text_preserving_more_markers text limit

/-- `pipeline.truncate_text_without_word_cut(text, limit)`. -/
def truncate_text_without_word_cut (text : Str) (limit : Nat) : Str :=
  let cleaned := strip text
  if cleaned.length ≤ limit then cleaned
  else
    match split_block_by_words cleaned limit with
    | [] => rstrip (cleaned.take limit) ++ str "…"
    | p :: _ => rstrip p ++ str "…"

/-! ### Digest / event classification and news formatting -/

/-- `Pipeline._is_digest_payload(payload)`. -/
def is_digest_payload (p : NewsPayload) : Bool :=
  if p.is_digest then true
  else
    let url_l := lower p.url
    let title_l := lower p.title
    let text_l := lower p.text
    if containsSub url_l (str "/digest/") || containsSub title_l (str "дайджест")
        || containsSub title_l (str "digest") then true
    else
      containsSub text_l (str "юбилейные встречи выпускников")
        || containsSub text_l (str "ef msu alumni")
        || containsSub text_l (str "alumni@econ.msu.ru")
        || containsSub text_l (str "группы для нашего общения")

/-- `Pipeline._is_digest_news(url, payload)`. -/
def is_digest_news (url : Str) (payload : Option NewsPayload) : Bool :=
  let p := payload.getD emptyNewsPayload
  if is_digest_payload p then true
  else
    containsSub (lower url) (str "/digest/")
      || containsSub (lower p.url) (str "/digest/")
      || containsSub (lower p.title) (str "дайджест")
      || containsSub (lower p.title) (str "digest")

/-- `Pipeline._is_events_news(url, payload)`. -/
def is_events_news (url : Str) (payload : Option NewsPayload) : Bool :=
  let p := payload.getD emptyNewsPayload
  if p.is_event then true
  else
    containsSub (lower url) (str "/events.") || containsSub (lower url) (str "/events/")
      || containsSub (lower p.url) (str "/events.")
      || containsSub (lower p.url) (str "/events/")

/-- `Pipeline._trim_digest_footer_text(text)`: cut just before the first
(case-insensitive) occurrence of the digest footer marker. -/
def trim_digest_footer_text (t : Str) : Str :=
  if t.isEmpty then []
  else
    match findSub (str "юбилейные встречи") (lower t) with
    | some idx => rstrip (t.take idx)
    | none => strip t

/-- `re.fullmatch(r"0\s*auto;?", cleaned.lower())`. -/
def matchesZeroAuto (l : Str) : Bool :=
  match l with
  | '0' :: rest =>
    let rest2 := rest.dropWhile pyIsSpace
    rest2 = str "auto" ∨ rest2 = str "auto;"
  | _ => false

/-- `Pipeline._sanitize_news_date(date)`. -/
def sanitize_news_date (d : Str) : Str :=
  let cleaned := strip (d.map (fun c => if c = '\xa0' then ' ' else c))
  if matchesZeroAuto (lower cleaned) then [] else cleaned

/-- `Pipeline._news_url_variants(url)` (the Python set is modelled in
insertion order). -/
def news_url_variants (url : Str) : List Str :=
  let base := strip url
  if base.isEmpty then []
  else
    let other :=
      if endswith base (str "/") then (base.reverse.dropWhile (· = '/')).reverse
      else base ++ str "/"
    let variants := if other = base then [base] else [base, other]
    variants.filter (fun v => ¬v.isEmpty)

/-- `Pipeline._moderation_target_ids()`. -/
def moderation_target_ids (cfg : Config) : List Int :=
  let targets := cfg.all_moderator_ids
  if ¬targets.isEmpty then targets
  else if cfg.owner_id ≠ 0 then [cfg.owner_id]
  else []

/-- The `from` user of a Telegram callback/message. -/
structure TgUser where
  id : Option Int
  username : Option Str
  first_name : Option Str
  last_name : Option Str
deriving DecidableEq, Repr

/-- `Pipeline._format_telegram_actor(user)`. -/
def format_telegram_actor (user : TgUser) : Str :=
  let username := strip (user.username.getD [])
  let first_name := strip (user.first_name.getD [])
  let last_name := strip (user.last_name.getD [])
  let label :=
    if ¬username.isEmpty then str "@" ++ username
    else
      let full_name :=
        strip (List.intercalate (str " ")
          (([first_name, last_name]).filter (fun p => ¬p.isEmpty)))
      if ¬full_name.isEmpty then full_name else str "неизвестный пользователь"
  match user.id with
  | some uid =>
    if uid ≠ 0 then label ++ str " (id=" ++ intStr uid ++ str ")" else label
  | none => label

/-- Replacement for one `[[MORE:url]]` in `_render_digest_more_links`. -/
def renderMoreRepl (u : Str) (html : Bool) : Str :=
  let url := strip u
  if url.isEmpty then []
  else if html then str "<a href=\"" ++ url ++ str "\">&gt;&gt;</a>"
  else str ">> " ++ url

/-- The `re.sub(r"\[\[MORE:([^\]]+)\]\]", repl, text)` scan. -/
def renderMoreGo (html : Bool) : Str → Str
  | [] => []
  | c :: tl =>
    if c = '[' then
      match parseMoreAfterBracket tl with
      | some (u, k) => renderMoreRepl u html ++ renderMoreGo html (tl.drop k)
      | none => c :: renderMoreGo html tl
    else c :: renderMoreGo html tl
  termination_by l => l.length
  decreasing_by
    all_goals simp only [List.length_cons, List.length_drop]
    all_goals omega

/-- `re.sub(r"[ \t]+\n", "\n", ...)`: drop space/tab runs that directly
precede a newline. -/
def stripSpacesBeforeNewline (t : Str) : Str :=
  t.foldr
    (fun c acc =>
      if (c = ' ' ∨ c = '\t') ∧ acc.head? = some '\n' then acc else c :: acc)
    []

/-- `re.sub(r"\n{3,}", "\n\n", ...)`: collapse runs of three or more
newlines to exactly two. -/
def collapseNewlines (t : Str) : Str :=
  t.foldr
    (fun c acc =>
      if c = '\n' ∧ acc.take 2 = str "\n\n" then acc else c :: acc)
    []

/-- `Pipeline._render_digest_more_links(text, html)`. -/
def render_digest_more_links (t : Str) (html : Bool) : Str :=
  if t.isEmpty then []
  else strip (collapseNewlines (stripSpacesBeforeNewline (renderMoreGo html t)))

/-- The event field labels of `_bold_event_fields_html`. -/
def eventLabels : List Str :=
  [str "целевая аудитория", str "начало", str "окончание", str "спикеры"]

/-- Case-insensitive label match at the start of `l`: the matched original
text and the remainder. -/
def matchEventLabel (l : Str) : Option (Str × Str) :=
  (eventLabels.filter (fun lab => startswith (lower l) lab)).head?.map
    (fun lab => (l.take lab.length, l.drop lab.length))

/-- `\s*:?\s*` as a full match. -/
def wsColonWs (b : Str) : Bool :=
  let b1 := b.dropWhile pyIsSpace
  match b1 with
  | ':' :: b2 => b2.all pyIsSpace
  | _ => b1.isEmpty

/-- First `_bold_event_fields_html` pass on one line:
`^(\s*)label(\s*:?\s*)$`. -/
def boldPass1 (l : Str) : Str :=
  let a := l.takeWhile pyIsSpace
  match matchEventLabel (l.drop a.length) with
  | some (w, b) =>
    if wsColonWs b then a ++ str "<b>" ++ w ++ str "</b>" ++ b else l
  | none => l

/-- Second pass on one line: `^(\s*)label(\s*[:\-]\s*)(?=\S)`. -/
def boldPass2 (l : Str) : Str :=
  let a := l.takeWhile pyIsSpace
  match matchEventLabel (l.drop a.length) with
  | some (w, b) =>
    let ws1 := b.takeWhile pyIsSpace
    (match b.drop ws1.length with
     | c :: b3 =>
       if c = ':' ∨ c = '-' then
         let ws2 := b3.takeWhile pyIsSpace
         let b4 := b3.drop ws2.length
         if ¬b4.isEmpty then
           a ++ str "<b>" ++ w ++ str "</b>" ++ ws1 ++ [c] ++ ws2 ++ b4
         else l
       else l
     | [] => l)
  | none => l

/-- Third pass on one line: `^(\s*)label(\s+)(?=\S)`. -/
def boldPass3 (l : Str) : Str :=
  let a := l.takeWhile pyIsSpace
  match matchEventLabel (l.drop a.length) with
  | some (w, b) =>
    let ws1 := b.takeWhile pyIsSpace
    let b2 := b.drop ws1.length
    if ¬ws1.isEmpty ∧ ¬b2.isEmpty then
      a ++ str "<b>" ++ w ++ str "</b>" ++ ws1 ++ b2
    else l
  | none => l

/-- Apply a per-line rewrite to every `\n`-separated line. -/
def mapLines (f : Str → Str) (t : Str) : Str :=
  List.intercalate (str "\n") ((splitOnSep (str "\n") t).map f)

/-- `Pipeline._bold_event_fields_html(text)`: the three anchored
`(?im)` substitutions, applied line-wise in order. -/
def bold_event_fields_html (t : Str) : Str :=
  if t.isEmpty then []
  else mapLines boldPass3 (mapLines boldPass2 (mapLines boldPass1 t))

/-- `Pipeline._format_news_text(payload, html, include_body)`. -/
def format_news_text (payload : NewsPayload) (html include_body : Bool) : Str :=
  let title := payload.title
  let date := payload.date
  let link := payload.url
  let body := payload.text
  let (title, date, link, body) :=
    if html then
      let b := escape_html body
      let b := if is_events_news [] (some payload) then bold_event_fields_html b else b
      (escape_html title, escape_html date, escape_html link, b)
    else
      (title, date, link, render_digest_more_links body false)
  let lines := ([title, date, link]).filter (fun l => ¬l.isEmpty)
  let full_text := List.intercalate (str "\n") lines
  if include_body ∧ ¬body.isEmpty then
    strip (if ¬full_text.isEmpty then full_text ++ str "\n\n" ++ body else body)
  else strip full_text

/-! ### External-collaborator model (Telegram / VK clients)

The HTTP clients are external collaborators (spec §1): each outbound call
is recorded in an effect log and answered from an environment stream.
An `EnvAns.err` answer models a raised transport/API exception. -/

/-- A Telegram `chat_id`, which Python types as `int | str`. -/
inductive Chat where
  | num (n : Int)
  | name (v : Str)
deriving DecidableEq, Repr

/-- An inline keyboard: rows of `(text, callback_data)` buttons. -/
abbrev Keyboard := List (List (Str × Str))

/-- One entry of a `sendMediaGroup` payload (`parse_mode` is constantly
`"HTML"` whenever a caption is present and is omitted). -/
structure MediaGroupItem where
  ty : Str
  media : Str
  caption : Option Str
deriving DecidableEq, Repr

/-- One outbound collaborator request. -/
inductive TgReq where
  | sendMessage (chat : Chat) (text : Str) (kb : Option Keyboard)
  | sendPhoto (chat : Chat) (photo : Str) (caption : Option Str)
  | sendMediaGroup (chat : Chat) (media : List MediaGroupItem)
  | sendPoll (chat : Chat) (question : Str) (options : List Str) (anonymous : Bool)
  | deleteMessage (chat : Chat) (message_id : Int)
  | answerCallback (cb_id : Str) (text : Option Str)
  | vkWallPost (message : Str) (attachments : List Str)
  | vkUploadPhotos (urls : List Str) (max_images : Nat)
deriving DecidableEq, Repr

/-- One collaborator answer: an exception, message ids, or strings
(VK attachment references). -/
inductive EnvAns where
  | err (msg : Str)
  | ids (l : List Int)
  | strs (l : List Str)
deriving DecidableEq, Repr

/-- The environment: collaborator responses by call index, the `uuid4`
stream, the news-detail fetch stream, and `int(time.time())`. -/
structure NewsDetail where
  text : Str
  images : List Str
  is_digest : Bool
  title : Str
  date : Str
  canonical_url : Str
  is_event : Bool
deriving DecidableEq, Repr

/-- The detail dict `{"text": "", "images": []}` used when no site client
is configured (all other keys absent → falsy defaults). -/
def defaultNewsDetail : NewsDetail :=
  { text := [], images := [], is_digest := false, title := [], date := [],
    canonical_url := [], is_event := false }

/-- The nondeterministic environment of one pipeline call. -/
structure Env where
  resp : Nat → EnvAns
  uuid : Nat → Str
  detail : Nat → Except Str NewsDetail
  now : Nat

/-- Communication-side state: response cursor, uuid cursor, fetch cursor
and the outbound-request log. -/
structure CommSt where
  calls : Nat
  uuids : Nat
  fetches : Nat
  out : List TgReq
deriving DecidableEq, Repr

/-- The in-memory pipeline state: the persisted store plus the two
pending-payload caches and the communication state. -/
structure PipeState where
  store : StoreData
  pending_cache : List (Int × PostPayload)
  pending_news : List (Str × NewsPayload)
  comm : CommSt
deriving DecidableEq, Repr

/-- Issue one collaborator request and consume one environment answer. -/
def tgCall (env : Env) (c : CommSt) (req : TgReq) : CommSt × EnvAns :=
  ({ c with calls := c.calls + 1, out := c.out ++ [req] }, env.resp c.calls)

/-- Python truthiness of an optional message id (`if first_id:`). -/
def idTruthy : Option Int → Bool
  | none => false
  | some n => n ≠ 0

/-- `TelegramClient.send_message` (returns `result.message_id`, `None`
in dry-run or when the response carries no id). -/
def tg_send_message (cfg : Config) (env : Env) (c : CommSt) (chat : Chat)
    (text : Str) (kb : Option Keyboard) : CommSt × Except Str (Option Int) :=
  if cfg.dry_run then (c, .ok none)
  else
    match tgCall env c (.sendMessage chat text kb) with
    | (c, .err m) => (c, .error m)
    | (c, .ids l) => (c, .ok l.head?)
    | (c, .strs _) => (c, .ok none)

/-- `TelegramClient.send_photo`. -/
def tg_send_photo (cfg : Config) (env : Env) (c : CommSt) (chat : Chat)
    (photo : Str) (caption : Option Str) : CommSt × Except Str (Option Int) :=
  if cfg.dry_run then (c, .ok none)
  else
    match tgCall env c (.sendPhoto chat photo caption) with
    | (c, .err m) => (c, .error m)
    | (c, .ids l) => (c, .ok l.head?)
    | (c, .strs _) => (c, .ok none)

/-- `TelegramClient.send_poll`. -/
def tg_send_poll (cfg : Config) (env : Env) (c : CommSt) (chat : Chat)
    (question : Str) (options : List Str) (anonymous : Bool) :
    CommSt × Except Str (Option Int) :=
  if cfg.dry_run then (c, .ok none)
  else
    match tgCall env c (.sendPoll chat question options anonymous) with
    | (c, .err m) => (c, .error m)
    | (c, .ids l) => (c, .ok l.head?)
    | (c, .strs _) => (c, .ok none)

/-- `TelegramClient.send_media_group` (empty list in dry-run or when the
response has no `result`). -/
def tg_send_media_group (cfg : Config) (env : Env) (c : CommSt) (chat : Chat)
    (media : List MediaGroupItem) : CommSt × Except Str (List Int) :=
  if cfg.dry_run then (c, .ok [])
  else
    match tgCall env c (.sendMediaGroup chat media) with
    | (c, .err m) => (c, .error m)
    | (c, .ids l) => (c, .ok l)
    | (c, .strs _) => (c, .ok [])

/-- `TelegramClient.answer_callback_query`. -/
def tg_answer_callback (cfg : Config) (env : Env) (c : CommSt)
    (cb_id : Str) (text : Option Str) : CommSt × Except Str Unit :=
  if cfg.dry_run then (c, .ok ())
  else
    match tgCall env c (.answerCallback cb_id text) with
    | (c, .err m) => (c, .error m)
    | (c, _) => (c, .ok ())

/-- `TelegramClient.delete_message` (the response's `ok` flag is modelled
by a non-empty answer). -/
def tg_delete_message (cfg : Config) (env : Env) (c : CommSt) (chat : Chat)
    (message_id : Int) : CommSt × Except Str Bool :=
  if cfg.dry_run then (c, .ok true)
  else
    match tgCall env c (.deleteMessage chat message_id) with
    | (c, .err m) => (c, .error m)
    | (c, .ids l) => (c, .ok (¬l.isEmpty))
    | (c, .strs _) => (c, .ok false)

/-- `TelegramClient.delete_messages`: sequential deletes counting
successes; a raised exception aborts the remaining deletes. -/
def tg_delete_messages (cfg : Config) (env : Env) (c : CommSt) (chat : Chat)
    (message_ids : List Int) : CommSt × Except Str Int :=
  message_ids.foldl
    (fun acc mid =>
      match acc with
      | (c, .error m) => (c, .error m)
      | (c, .ok n) =>
        match tg_delete_message cfg env c chat mid with
        | (c, .error m) => (c, .error m)
        | (c, .ok b) => (c, .ok (if b then n + 1 else n)))
    (c, .ok 0)

/-- `TelegramClient.notify_owner`. -/
def tg_notify_owner (cfg : Config) (env : Env) (c : CommSt) (text : Str) :
    CommSt × Except Str Unit :=
  match tg_send_message cfg env c (.num cfg.owner_id) text none with
  | (c, .error m) => (c, .error m)
  | (c, .ok _) => (c, .ok ())

/-- `VKClient.wall_post` (external collaborator; returns the response's
`post_id`). -/
def vk_wall_post (env : Env) (c : CommSt) (message : Str)
    (attachments : List Str) : CommSt × Except Str (Option Int) :=
  match tgCall env c (.vkWallPost message attachments) with
  | (c, .err m) => (c, .error m)
  | (c, .ids l) => (c, .ok l.head?)
  | (c, .strs _) => (c, .ok none)

/-- `VKClient.upload_wall_photos` (external collaborator; per-URL errors
are swallowed inside the client, so the answer is the attachment list). -/
def vk_upload_wall_photos (env : Env) (c : CommSt) (urls : List Str)
    (max_images : Nat) : CommSt × Except Str (List Str) :=
  match tgCall env c (.vkUploadPhotos urls max_images) with
  | (c, .err m) => (c, .error m)
  | (c, .ids _) => (c, .ok [])
  | (c, .strs l) => (c, .ok l)

/-! ### Moderation prompts and post publishing (`pipeline.Pipeline`) -/

/-- `f"...{token}"` on an `Optional[str]` (Python renders `None`). -/
def pyStrOpt : Option Str → Str
  | some t => t
  | none => str "None"

/-- The extended post-moderation keyboard (`post:*` callbacks). -/
def extended_post_keyboard (token : Str) : Keyboard :=
  [[(str "📢 ВК", str "post:vk:" ++ token), (str "✈️ TG", str "post:tg:" ++ token)],
   [(str "📢+✈️ ВК+TG", str "post:both:" ++ token),
    (str "🚫 Отклонить", str "post:reject:" ++ token)]]

/-- The simple post-moderation keyboard (`approve:`/`reject:` callbacks). -/
def simple_post_keyboard (token : Str) : Keyboard :=
  [[(str "✅ Опубликовать в TG", str "approve:" ++ token),
    (str "🚫 Отклонить", str "reject:" ++ token)]]

/-- The news-moderation keyboard (`news:*` callbacks). -/
def news_keyboard (token : Str) : Keyboard :=
  [[(str "📢 ВК", str "news:vk:" ++ token), (str "✈️ TG", str "news:tg:" ++ token)],
   [(str "📢+✈️ ВК+TG", str "news:both:" ++ token),
    (str "🚫 Отклонить", str "news:reject:" ++ token)]]

/-- Send a list of plain text messages, appending each truthy resulting
message id (the `for extra in parts[1:]` loops). -/
def send_texts (cfg : Config) (env : Env) (c : CommSt) (chat : Chat)
    (texts : List Str) (acc : List Int) : CommSt × Except Str (List Int) :=
  texts.foldl
    (fun st t =>
      match st with
      | (c, .error m) => (c, .error m)
      | (c, .ok ids) =>
        match tg_send_message cfg env c chat t none with
        | (c, .error m) => (c, .error m)
        | (c, .ok mid) =>
          (c, .ok (if idTruthy mid then ids ++ [mid.getD 0] else ids)))
    (c, .ok acc)

/-- The `try` body of `_send_for_moderation` for one moderator chat. -/
def send_post_preview_to (cfg : Config) (env : Env) (c : CommSt)
    (chat_id : Int) (parts : List Str) (kb : Keyboard)
    (media : List MediaItem) (poll : Option Poll) :
    CommSt × Except Str (List Int) :=
  let chat := Chat.num chat_id
  match tg_send_message cfg env c chat (parts.headD []) (some kb) with
  | (c, .error m) => (c, .error m)
  | (c, .ok first_id) =>
    let ids0 := if idTruthy first_id then [first_id.getD 0] else []
    match send_texts cfg env c chat parts.tail ids0 with
    | (c, .error m) => (c, .error m)
    | (c, .ok ids) =>
      let afterMedia : CommSt × Except Str (List Int) :=
        if media.length = 1 then
          let m := media.headD { ty := [], url := [] }
          if m.ty = str "photo" then
            match tg_send_photo cfg env c chat m.url none with
            | (c, .error e) => (c, .error e)
            | (c, .ok mid) =>
              (c, .ok (if idTruthy mid then ids ++ [mid.getD 0] else ids))
          else (c, .ok ids)
        else if 1 < media.length then
          let group := (media.filter (fun m => ¬m.url.isEmpty)).map
            (fun m => ({ ty := m.ty, media := m.url, caption := none } : MediaGroupItem))
          if ¬group.isEmpty then
            match tg_send_media_group cfg env c chat group with
            | (c, .error e) => (c, .error e)
            | (c, .ok mids) => (c, .ok (ids ++ mids))
          else (c, .ok ids)
        else (c, .ok ids)
      match afterMedia with
      | (c, .error e) => (c, .error e)
      | (c, .ok ids) =>
        match poll with
        | some pl =>
          match tg_send_poll cfg env c chat pl.question pl.options pl.is_anonymous with
          | (c, .error e) => (c, .error e)
          | (c, .ok mid) =>
            (c, .ok (if idTruthy mid then ids ++ [mid.getD 0] else ids))
        | none => (c, .ok ids)

/-- The `for moderator_id in self._moderation_target_ids()` loop of
`_send_for_moderation`: per-moderator exceptions are logged and skipped;
chats with a non-empty id list are recorded. -/
def send_for_moderation_loop (cfg : Config) (env : Env) (c : CommSt)
    (targets : List Int) (parts : List Str) (kb : Keyboard)
    (media : List MediaItem) (poll : Option Poll) :
    CommSt × List (Int × List Int) :=
  targets.foldl
    (fun acc mid =>
      match send_post_preview_to cfg env acc.1 mid parts kb media poll with
      | (c, .error _) => (c, acc.2)
      | (c, .ok ids) => (c, if ¬ids.isEmpty then aset acc.2 mid ids else acc.2))
    (c, [])

/-- `Pipeline._send_for_moderation(post_id, payload, token,
use_extended_actions, warn_duplicate)`. -/
def send_for_moderation (cfg : Config) (env : Env) (st : PipeState)
    (post_id : Int) (payload : PostPayload) (token : Option Str)
    (use_extended_actions warn_duplicate : Bool) : PipeState :=
  let text :=
    if ¬payload.text.isEmpty then escape_html payload.text else str "(без текста)"
  let vk_link := escape_html payload.vk_url
  let header := str "Новый пост #" ++ intStr post_id ++ str " из ВК:\n" ++ vk_link
  let header :=
    if warn_duplicate then
      header ++ str "\n⚠️ Найден дубликат, уверены ли вы, что хотите продолжить?"
    else header
  let full_text := if ¬text.isEmpty then header ++ str "\n\n" ++ text else header
  let kb :=
    if use_extended_actions then extended_post_keyboard (pyStrOpt token)
    else simple_post_keyboard (pyStrOpt token)
  let parts := chunk_text full_text 1000
  let res := send_for_moderation_loop cfg env st.comm (moderation_target_ids cfg)
    parts kb payload.media payload.poll
  { st with comm := res.1, store := set_moderation_message_ids st.store post_id res.2 }

/-- `Pipeline._split_photo_caption_and_chunks(chunks, caption_limit,
body_limit, preserve_more_markers, fill_caption_from_body)`. -/
def split_photo_caption_and_chunks (chunks : List Str)
    (caption_limit body_limit : Nat) (preserve_more_markers : Bool)
    (fill_caption_from_body : Bool) : Option Str × List Str :=
  match chunks with
  | [] => (none, [])
  | first :: restChunks =>
    if first.isEmpty then (none, restChunks.filter (fun p => ¬p.isEmpty))
    else
      let chunker :=
        if preserve_more_markers then chunk_text_preserving_more_markers else chunk_text
      let caption_parts0 := chunker first caption_limit
      let caption_parts :=
        if caption_parts0.isEmpty then
          match split_block_by_words first caption_limit with
          | [] => [first.take caption_limit]
          | parts => parts
        else caption_parts0
      let caption := caption_parts.headD []
      let tail :=
        if startswith first caption then lstrip (first.drop caption.length)
        else if 1 < caption_parts.length then
          strip (List.intercalate (str "\n\n")
            (caption_parts.tail.filter (fun p => ¬p.isEmpty)))
        else []
      let remainder_blocks :=
        (if ¬tail.isEmpty then [tail] else []) ++ restChunks.filter (fun p => ¬p.isEmpty)
      let (caption, remainder_blocks) :=
        if fill_caption_from_body ∧ ¬caption.isEmpty ∧ caption.length < caption_limit
            ∧ ¬remainder_blocks.isEmpty
            ∧ ¬(preserve_more_markers
                  ∧ containsSub (remainder_blocks.headD []) (str "[[MORE:")) then
          let sep := if ¬caption.isEmpty then str "\n\n" else []
          let available := caption_limit - caption.length - sep.length
          if 40 < available then
            let first_block := remainder_blocks.headD []
            let donor :=
              match split_block_by_words first_block available with
              | [] => []
              | p :: _ => strip p
            if ¬donor.isEmpty then
              let caption := if ¬caption.isEmpty then caption ++ sep ++ donor else donor
              let first_rest :=
                if startswith first_block donor then lstrip (first_block.drop donor.length)
                else []
              if ¬first_rest.isEmpty then
                (caption, first_rest :: remainder_blocks.tail)
              else (caption, remainder_blocks.tail)
            else (caption, remainder_blocks)
          else (caption, remainder_blocks)
        else (caption, remainder_blocks)
      let remainder_text :=
        List.intercalate (str "\n\n")
          (remainder_blocks.filter (fun b => ¬(strip b).isEmpty))
      let extras :=
        if ¬remainder_text.isEmpty then chunker remainder_text body_limit else []
      (if ¬caption.isEmpty then some caption else none, extras)

/-- `Pipeline._send_media_group_safe(chat_id, group)`: fall back to
individual photo sends when the media-group call returned fewer ids than
items. -/
def send_media_group_safe (cfg : Config) (env : Env) (c : CommSt)
    (chat : Chat) (group : List MediaGroupItem) : CommSt × Except Str (List Int) :=
  if group.isEmpty then (c, .ok [])
  else
    match tg_send_media_group cfg env c chat group with
    | (c, .error e) => (c, .error e)
    | (c, .ok mids) =>
      if mids.length = group.length then (c, .ok mids)
      else
        group.foldl
          (fun st item =>
            match st with
            | (c, .error e) => (c, .error e)
            | (c, .ok ids) =>
              match tg_send_photo cfg env c chat item.media item.caption with
              | (c, .error e) => (c, .error e)
              | (c, .ok mid) =>
                (c, .ok (if idTruthy mid then ids ++ [mid.getD 0] else ids)))
          (c, .ok [])

/-- `Pipeline._build_tg_message_link(message_ids)`. -/
def build_tg_message_link (cfg : Config) (message_ids : List Int) : Option Str :=
  match message_ids with
  | [] => none
  | message_id :: _ =>
    let chat := strip cfg.tg_channel_id
    if startswith chat (str "https://t.me/") then
      some ((chat.reverse.dropWhile (· = '/')).reverse ++ str "/" ++ intStr message_id)
    else if startswith chat (str "@") then
      let username := chat.drop 1
      if ¬username.isEmpty then
        some (str "https://t.me/" ++ username ++ str "/" ++ intStr message_id)
      else none
    else if startswith chat (str "-100") ∧ ¬(chat.drop 4).isEmpty
        ∧ (chat.drop 4).all Char.isDigit then
      some (str "https://t.me/c/" ++ chat.drop 4 ++ str "/" ++ intStr message_id)
    else if ¬chat.isEmpty ∧ ¬startswith chat (str "-") then
      some (str "https://t.me/" ++ chat ++ str "/" ++ intStr message_id)
    else none

/-- `Pipeline._build_vk_post_link(vk_post_id)`. -/
def build_vk_post_link (cfg : Config) (vk_post_id : Option Int) : Option Str :=
  match vk_post_id with
  | none => none
  | some vid =>
    if vid = 0 then none
    else
      some (str "https://vk.com/wall-" ++ intStr (Int.ofNat cfg.vk_group_id.natAbs)
        ++ str "_" ++ intStr vid)

/-- `Pipeline._owner_menu_keyboard()`. -/
def owner_menu_keyboard : Keyboard :=
  [[(str "🔄 Обновить посты", str "refresh_posts")],
   [(str "📌 Крайний пост VK", str "latest_vk")],
   [(str "📰 Крайняя новость сайта", str "latest_site")],
   [(str "🔗 Новость по ссылке", str "news_by_link")]]

/-- `Pipeline._notify_owner_with_menu(text)`. -/
def notify_owner_with_menu (cfg : Config) (env : Env) (c : CommSt)
    (text : Str) : CommSt × Except Str Unit :=
  match tg_send_message cfg env c (.num cfg.owner_id) text (some owner_menu_keyboard) with
  | (c, .error m) => (c, .error m)
  | (c, .ok _) => (c, .ok ())

/-- `Pipeline._notify_publish_error(text, actor)` (failures swallowed). -/
def notify_publish_error (cfg : Config) (env : Env) (c : CommSt)
    (text : Str) (actor : Option Str) : CommSt :=
  let text :=
    if optStrTruthy actor then text ++ str "\nДействие модератора: " ++ actor.getD []
    else text
  (notify_owner_with_menu cfg env c text).1

/-- `Pipeline._notify_post_result(...)` (failures swallowed). -/
def notify_post_result (cfg : Config) (env : Env) (c : CommSt)
    (published : Bool) (source_link : Str) (publish_tg : Bool)
    (tg_message_ids : List Int) (publish_vk : Bool) (vk_link : Option Str)
    (actor : Option Str) : CommSt :=
  let tg_link := if publish_tg then build_tg_message_link cfg tg_message_ids else none
  let lines :=
    if published then
      let published_links :=
        (if optStrTruthy tg_link then [str "TG: " ++ tg_link.getD []] else [])
          ++ (if publish_vk ∧ optStrTruthy vk_link then
                [str "ВК: " ++ vk_link.getD []] else [])
      [str "Пост опубликован."]
        ++ (if ¬published_links.isEmpty then
              [str "Публикация: " ++ List.intercalate (str ", ") published_links]
            else [])
    else [str "Публикация поста отклонена."]
  let lines := lines ++ [str "Исходный пост ВК: " ++ source_link]
  let lines :=
    lines ++ (if optStrTruthy actor then
                [str "Действие модератора: " ++ actor.getD []] else [])
  (notify_owner_with_menu cfg env c (List.intercalate (str "\n") lines)).1

/-- `Pipeline._notify_news_result(...)` (failures swallowed). -/
def notify_news_result (cfg : Config) (env : Env) (c : CommSt)
    (published : Bool) (source_link : Str) (publish_tg : Bool)
    (tg_message_ids : List Int) (publish_vk : Bool) (vk_post_id : Option Int)
    (is_digest : Bool) (actor : Option Str) : CommSt :=
  let tg_link := if publish_tg then build_tg_message_link cfg tg_message_ids else none
  let vk_link := if publish_vk then build_vk_post_link cfg vk_post_id else none
  let lines :=
    if published then
      let published_links :=
        (if optStrTruthy tg_link then [str "TG: " ++ tg_link.getD []] else [])
          ++ (if optStrTruthy vk_link then [str "ВК: " ++ vk_link.getD []] else [])
      [if is_digest then str "Дайджест опубликован." else str "Новость опубликована."]
        ++ (if ¬published_links.isEmpty then
              [str "Публикация: " ++ List.intercalate (str ", ") published_links]
            else [])
    else
      [if is_digest then str "Публикация дайджеста отклонена."
       else str "Публикация новости отклонена."]
  let lines := lines ++ [str "Исходная новость: " ++ source_link]
  let lines :=
    lines ++ (if optStrTruthy actor then
                [str "Действие модератора: " ++ actor.getD []] else [])
  (notify_owner_with_menu cfg env c (List.intercalate (str "\n") lines)).1

/-- The message-sending phase of `Pipeline._publish` (text chunks, the
single-photo or media-group rendering, then the optional poll),
returning the collected message ids. -/
def publish_send_phase (cfg : Config) (env : Env) (c0 : CommSt)
    (payload : PostPayload) : CommSt × Except Str (List Int) :=
  let chan := Chat.name cfg.tg_channel_id
  let chunks := chunk_text (escape_html payload.text) 3500
  let media := payload.media
  let sends : CommSt × Except Str (List Int) :=
    if ¬media.isEmpty then
      if media.length = 1 then
        let m := media.headD { ty := [], url := [] }
        let split := split_photo_caption_and_chunks chunks 1000 3500 false false
        match tg_send_photo cfg env c0 chan m.url split.1 with
        | (c, .error e) => (c, .error e)
        | (c, .ok mid) =>
          let ids := if idTruthy mid then [mid.getD 0] else []
          send_texts cfg env c chan split.2 ids
      else
        let split := split_photo_caption_and_chunks chunks 1000 3500 false false
        let group := media.enum.map
          (fun iv =>
            ({ ty := iv.2.ty, media := iv.2.url,
               caption := if iv.1 = 0 ∧ optStrTruthy split.1 then split.1 else none }
              : MediaGroupItem))
        match send_media_group_safe cfg env c0 chan group with
        | (c, .error e) => (c, .error e)
        | (c, .ok mids) => send_texts cfg env c chan split.2 mids
    else
      send_texts cfg env c0 chan chunks []
  match sends with
  | (c, .error e) => (c, .error e)
  | (c, .ok ids) =>
    match payload.poll with
    | some pl =>
      match tg_send_poll cfg env c chan pl.question pl.options pl.is_anonymous with
      | (c, .error e) => (c, .error e)
      | (c, .ok mid) => (c, .ok (if idTruthy mid then ids ++ [mid.getD 0] else ids))
    | none => (c, .ok ids)

/-- `Pipeline._publish(post_id, payload, notify_owner)`: render and send
to the Telegram channel, fail on zero sent messages, else mark published
and optionally notify the owner. -/
def publish (cfg : Config) (env : Env) (st : PipeState) (post_id : Int)
    (payload : PostPayload) (notify_owner : Bool) : PipeState × Except Str (List Int) :=
  match publish_send_phase cfg env st.comm payload with
  | (c, .error e) => ({ st with comm := c }, .error e)
  | (c, .ok message_ids) =>
    if message_ids.isEmpty then
      ({ st with comm := c },
       .error (str "Telegram publish failed: no messages sent. Check TG_CHANNEL_ID and bot rights in target chat/channel."))
    else
      let st := { st with comm := c, store := mark_published env.now st.store post_id message_ids }
      let st :=
        if notify_owner ∧ ¬cfg.dry_run then
          let lines := [str "Пост " ++ intStr post_id ++ str " опубликован в канал, сообщений: " ++ intStr (message_ids.length : Int) ++ str "."]
          let tg_link := build_tg_message_link cfg message_ids
          let lines := lines ++ (if optStrTruthy tg_link then [str "Ссылка TG: " ++ tg_link.getD []] else [])
          let lines := lines ++ (if ¬payload.vk_url.isEmpty then [str "Исходный пост ВК: " ++ payload.vk_url] else [])
          { st with comm := (tg_notify_owner cfg env st.comm (List.intercalate (str "\n") lines)).1 }
        else st
      (st, .ok message_ids)

/-- `Pipeline._delete_post_moderation_messages(post_id)`: delete every
recorded prompt message per chat, then clear the stored map (a raised
delete exception propagates and the map is left in place). -/
def delete_post_moderation_messages (cfg : Config) (env : Env)
    (st : PipeState) (post_id : Int) : PipeState × Except Str Unit :=
  let message_map := get_moderation_message_id_map st.store post_id
  if message_map.isEmpty then (st, .ok ())
  else
    let res := message_map.foldl
      (fun (acc : CommSt × Except Str Unit) kv =>
        match acc with
        | (c, .error e) => (c, .error e)
        | (c, .ok _) =>
          if kv.2.isEmpty then (c, .ok ())
          else
            match tg_delete_messages cfg env c (.num kv.1) kv.2 with
            | (c, .error e) => (c, .error e)
            | (c, .ok _) => (c, .ok ()))
      (st.comm, .ok ())
    match res with
    | (c, .error e) => ({ st with comm := c }, .error e)
    | (c, .ok _) =>
      ({ st with comm := c, store := clear_moderation_message_ids st.store post_id }, .ok ())

/-- `Pipeline.handle_post(post, source, force)`. -/
def handle_post (cfg : Config) (env : Env) (st : PipeState) (post : RawPost)
    (source : Str) (force : Bool) : PipeState × Except Str Unit :=
  match post_effective_id post with
  | none => (st, .ok ())
  | some post_id =>
    let ptype := post.post_type.getD (str "post")
    if ptype = str "suggest" ∨ ptype = str "postpone" then (st, .ok ())
    else
      let normalized := normalize_post post
      let content_hash := hash_payload normalized
      let existing := get_post_record st.store post_id
      let existing_hash := existing.map (·.hash)
      let status := existing.map (·.status)
      let already_published :=
        match status with
        | some s => startswith s (str "published")
        | none => false
      let del :=
        if force then delete_post_moderation_messages cfg env st post_id
        else (st, .ok ())
      match del with
      | (st, .error e) => (st, .error e)
      | (st, .ok _) =>
        if ¬force ∧ existing_hash = some content_hash then (st, .ok ())
        else if ¬force ∧ status = some (str "published") then (st, .ok ())
        else if ¬force ∧ should_skip st.store post_id content_hash then (st, .ok ())
        else
          let tok :=
            if cfg.moderation_required then
              (some (env.uuid st.comm.uuids), { st.comm with uuids := st.comm.uuids + 1 })
            else (none, st.comm)
          let token := tok.1
          let st := { st with comm := tok.2 }
          let st := { st with store := mark_pending env.now st.store post_id content_hash token normalized }
          let st := { st with pending_cache := aset st.pending_cache post_id normalized }
          if cfg.moderation_required then
            let use_extended : Bool := ¬(force && source = str "manual-refresh")
            let warn : Bool := force && source = str "manual-refresh" && already_published
            (send_for_moderation cfg env st post_id normalized token use_extended warn, .ok ())
          else
            match publish cfg env st post_id normalized true with
            | (st, .error e) => (st, .error e)
            | (st, .ok _) => (st, .ok ())

/-- A raw post with every key absent (`update.get("object") or {}`). -/
def emptyRawPost : RawPost :=
  { id := none, post_id := none, owner_id := none, text := none,
    post_type := none, attachments := [], copy_history := [] }

/-- One VK long-poll update as consumed by `handle_vk_update`. -/
structure VkUpdate where
  ty : Str
  object : Option RawPost
deriving DecidableEq, Repr

/-- `Pipeline.handle_vk_update(update)`. -/
def handle_vk_update (cfg : Config) (env : Env) (st : PipeState)
    (upd : VkUpdate) : PipeState × Except Str Unit :=
  if upd.ty = str "wall_post_new" then
    handle_post cfg env st (upd.object.getD emptyRawPost) (str "longpoll") false
  else if upd.ty = str "wall_post_edit" then
    handle_post cfg env st (upd.object.getD emptyRawPost) (str "edit") false
  else (st, .ok ())

/-! ### News pipeline (`handle_news`, `_publish_news*`,
`_send_news_for_moderation`, `_delete_news_moderation_messages`) -/

/-- Insertion sort for `sorted(...)` on ints. -/
def insertSorted (x : Int) : List Int → List Int
  | [] => [x]
  | y :: rest => if x ≤ y then x :: y :: rest else y :: insertSorted x rest

/-- `sorted(set(ids))`. -/
def sortedUnique (l : List Int) : List Int :=
  (l.foldl (fun acc x => if x ∈ acc then acc else acc ++ [x]) []).foldr insertSorted []

/-- `Pipeline._publish_news_tg(payload)` (communication-side only). -/
def publish_news_tg (cfg : Config) (env : Env) (c : CommSt)
    (payload : NewsPayload) : CommSt × Except Str (List Int) :=
  let chan := Chat.name cfg.tg_channel_id
  let full_text := format_news_text payload true true
  let chunks := chunk_news_text full_text 3500
  let all_images := payload.images
  let images :=
    if is_digest_news [] (some payload) then all_images.take 1 else all_images.take 10
  if ¬images.isEmpty then
    -- shared caption computation of both image branches
    let split := split_photo_caption_and_chunks chunks 1000 3500 true true
    let rendered0 := render_digest_more_links ((split.1).getD []) true
    let rendered : Option Str := if ¬rendered0.isEmpty then some rendered0 else none
    let tooLong : Bool :=
      match rendered with
      | some r => decide (1000 < r.length)
      | none => false
    let recut :=
      if tooLong then
        let first_parts := chunk_news_text ((split.1).getD []) 900
        let cap2 := first_parts.headD []
        let rend2 := render_digest_more_links cap2 true
        ((if ¬rend2.isEmpty then some rend2 else none),
         (first_parts.tail.filter (fun p => ¬p.isEmpty)) ++ split.2)
      else (rendered, split.2)
    let rendered_caption := recut.1
    let extra_chunks := recut.2
    if images.length = 1 then
      match tg_send_photo cfg env c chan (images.headD []) rendered_caption with
      | (c, .error e) => (c, .error e)
      | (c, .ok mid) =>
        let ids := if idTruthy mid then [mid.getD 0] else []
        extra_chunks.foldl
          (fun st extra =>
            match st with
            | (c, .error e) => (c, .error e)
            | (c, .ok ids) =>
              match tg_send_message cfg env c chan (render_digest_more_links extra true) none with
              | (c, .error e) => (c, .error e)
              | (c, .ok mid) =>
                (c, .ok (if idTruthy mid then ids ++ [mid.getD 0] else ids)))
          (c, .ok ids)
    else
      let group := images.enum.map
        (fun iv =>
          ({ ty := str "photo", media := iv.2,
             caption := if iv.1 = 0 ∧ optStrTruthy rendered_caption then rendered_caption else none }
            : MediaGroupItem))
      match send_media_group_safe cfg env c chan group with
      | (c, .error e) => (c, .error e)
      | (c, .ok mids) =>
        extra_chunks.foldl
          (fun st extra =>
            match st with
            | (c, .error e) => (c, .error e)
            | (c, .ok ids) =>
              match tg_send_message cfg env c chan (render_digest_more_links extra true) none with
              | (c, .error e) => (c, .error e)
              | (c, .ok mid) =>
                (c, .ok (if idTruthy mid then ids ++ [mid.getD 0] else ids)))
          (c, .ok mids)
  else
    chunks.foldl
      (fun st part =>
        match st with
        | (c, .error e) => (c, .error e)
        | (c, .ok ids) =>
          match tg_send_message cfg env c chan (render_digest_more_links part true) none with
          | (c, .error e) => (c, .error e)
          | (c, .ok mid) =>
            (c, .ok (if idTruthy mid then ids ++ [mid.getD 0] else ids)))
      (c, .ok [])

/-- `Pipeline._publish_news_vk(payload)` (communication-side only). -/
def publish_news_vk (cfg : Config) (env : Env) (c : CommSt)
    (payload : NewsPayload) : CommSt × Except Str (Option Int) :=
  let text := format_news_text payload false true
  let source_link := strip payload.url
  let text :=
    if ¬source_link.isEmpty ∧ ¬containsSub text source_link then
      (if ¬text.isEmpty then source_link ++ str "\n\n" ++ text else source_link)
    else text
  let text := if 6000 < text.length then truncate_text_without_word_cut text 6000 else text
  let is_digest := is_digest_news [] (some payload)
  let images := if is_digest then payload.images.take 1 else payload.images.take 10
  let up : CommSt × Except Str (List Str) :=
    if ¬images.isEmpty ∧ ¬cfg.dry_run then
      vk_upload_wall_photos env c images (if is_digest then 1 else 10)
    else (c, .ok [])
  match up with
  | (c, .error e) => (c, .error e)
  | (c, .ok attachments) =>
    if cfg.dry_run then (c, .ok none)
    else vk_wall_post env c text attachments

/-- `Pipeline._publish_news(url, payload, publish_vk, publish_tg,
notify_owner)`. -/
def publish_news (cfg : Config) (env : Env) (st : PipeState) (url : Str)
    (payload : NewsPayload) (publish_vk publish_tg notify_owner : Bool) :
    PipeState × Except Str (List Int × Option Int) :=
  let tgRes : CommSt × Except Str (Option (List Int)) :=
    if publish_tg then
      match publish_news_tg cfg env st.comm payload with
      | (c, .error e) => (c, .error e)
      | (c, .ok mids) =>
        if mids.isEmpty then
          (c, .error (str "Telegram news publish failed: no messages sent. Check TG_CHANNEL_ID and bot rights in target chat/channel."))
        else (c, .ok (some mids))
    else (st.comm, .ok none)
  match tgRes with
  | (c, .error e) => ({ st with comm := c }, .error e)
  | (c, .ok message_ids) =>
    let vkRes : CommSt × Except Str (Option Int) :=
      if publish_vk then publish_news_vk cfg env c payload
      else (c, .ok none)
    match vkRes with
    | (c, .error e) => ({ st with comm := c }, .error e)
    | (c, .ok vk_post_id) =>
      let published_to : Option Str :=
        if publish_vk ∧ publish_tg then some (str "both")
        else if publish_vk then some (str "vk")
        else if publish_tg then some (str "tg")
        else none
      let st := { st with comm := c, store := mark_news_published env.now st.store url message_ids vk_post_id published_to }
      let st :=
        if notify_owner ∧ ¬cfg.dry_run then
          let entity :=
            if is_digest_news url (some payload) then str "Дайджест" else str "Новость"
          let msg := entity ++ str " опубликован: " ++ url ++ str " (" ++ pyStrOpt published_to ++ str ")"
          { st with comm := (tg_notify_owner cfg env st.comm msg).1 }
        else st
      (st, .ok (message_ids.getD [], vk_post_id))

/-- The `try` body of `_send_news_for_moderation` for one moderator. -/
def send_news_preview_to (cfg : Config) (env : Env) (c : CommSt)
    (chat_id : Int) (first_text : Str) (kb : Keyboard) (extras : List Str)
    (images : List Str) : CommSt × Except Str (List Int) :=
  let chat := Chat.num chat_id
  match tg_send_message cfg env c chat first_text (some kb) with
  | (c, .error m) => (c, .error m)
  | (c, .ok first_id) =>
    let ids0 := if idTruthy first_id then [first_id.getD 0] else []
    let afterTexts : CommSt × Except Str (List Int) := extras.foldl
      (fun st extra =>
        match st with
        | (c, .error e) => (c, .error e)
        | (c, .ok ids) =>
          match tg_send_message cfg env c chat (render_digest_more_links extra true) none with
          | (c, .error e) => (c, .error e)
          | (c, .ok mid) =>
            (c, .ok (if idTruthy mid then ids ++ [mid.getD 0] else ids)))
      (c, .ok ids0)
    match afterTexts with
    | (c, .error e) => (c, .error e)
    | (c, .ok ids) =>
      if images.length = 1 then
        match tg_send_photo cfg env c chat (images.headD []) none with
        | (c, .error e) => (c, .error e)
        | (c, .ok mid) =>
          (c, .ok (if idTruthy mid then ids ++ [mid.getD 0] else ids))
      else if 1 < images.length then
        let media := images.map (fun img => ({ ty := str "photo", media := img, caption := none } : MediaGroupItem))
        match send_media_group_safe cfg env c chat media with
        | (c, .error e) => (c, .error e)
        | (c, .ok mids) => (c, .ok (ids ++ mids))
      else (c, .ok ids)

/-- `Pipeline._send_news_for_moderation(url, payload, token)`. -/
def send_news_for_moderation (cfg : Config) (env : Env) (st : PipeState)
    (url : Str) (payload : NewsPayload) (token : Option Str) : PipeState :=
  let text_body0 := escape_html payload.text
  let text_body := if ¬text_body0.isEmpty then text_body0 else str "(без текста)"
  let text_body :=
    if is_events_news url (some payload) then bold_event_fields_html text_body
    else text_body
  let is_digest := is_digest_news url (some payload)
  let header_prefix :=
    if is_digest then str "Новый дайджест на сайте" else str "Новая новость на сайте"
  let header := header_prefix ++ str ":\n" ++ format_news_text payload true false
  let chunks := chunk_news_text (header ++ str "\n\n" ++ text_body) 3500
  let kb := news_keyboard (pyStrOpt token)
  let first_text := render_digest_more_links (chunks.headD []) true
  let all_images := payload.images
  let images := if is_digest then all_images.take 1 else all_images.take 10
  let res := (moderation_target_ids cfg).foldl
    (fun (acc : CommSt × List (Int × List Int)) mid =>
      match send_news_preview_to cfg env acc.1 mid first_text kb chunks.tail images with
      | (c, .error _) => (c, acc.2)
      | (c, .ok ids) => (c, if ¬ids.isEmpty then aset acc.2 mid ids else acc.2))
    (st.comm, [])
  { st with comm := res.1, store := set_news_moderation_message_ids st.store url res.2 }

/-- `Pipeline._delete_news_moderation_messages(url, payload)`: collect
recorded prompt ids over every url alias, delete them (sorted, unique,
per chat), then clear the alias maps (the Python url-alias set is
modelled in insertion order). -/
def delete_news_moderation_messages (cfg : Config) (env : Env)
    (st : PipeState) (url : Str) (payload : Option NewsPayload) :
    PipeState × Except Str Unit :=
  let payload_url := match payload with | some p => p.url | none => []
  let aliases := dedupPreserve
    (news_url_variants url
      ++ (if ¬payload_url.isEmpty then news_url_variants payload_url else []))
  let collect := aliases.foldl
    (fun (acc : List (Int × List Int) × List Str) alia =>
      let m := get_news_moderation_message_id_map st.store alia
      if m.isEmpty then acc
      else
        let inner := m.foldl
          (fun (acc2 : List (Int × List Int) × Bool) kv =>
            if kv.2.isEmpty then acc2
            else
              let cur := (alookup acc2.1 kv.1).getD []
              (aset acc2.1 kv.1 (cur ++ kv.2), true))
          (acc.1, false)
        (inner.1, if inner.2 then acc.2 ++ [alia] else acc.2))
    ([], [])
  let ids_by_chat := collect.1
  let urls_with_ids := collect.2
  if ids_by_chat.isEmpty ∧ urls_with_ids.isEmpty then (st, .ok ())
  else
    let del := ids_by_chat.foldl
      (fun (acc : CommSt × Except Str Unit) kv =>
        match acc with
        | (c, .error e) => (c, .error e)
        | (c, .ok _) =>
          let unique := sortedUnique kv.2
          if unique.isEmpty then (c, .ok ())
          else
            match tg_delete_messages cfg env c (.num kv.1) unique with
            | (c, .error e) => (c, .error e)
            | (c, .ok _) => (c, .ok ()))
      (st.comm, .ok ())
    match del with
    | (c, .error e) => ({ st with comm := c }, .error e)
    | (c, .ok _) =>
      let store := urls_with_ids.foldl clear_news_moderation_message_ids st.store
      ({ st with comm := c, store := store }, .ok ())

/-- A site-feed item (`{"url": ..., "title": ..., "date": ...,
"is_digest": ...}`) as passed to `handle_news`. -/
structure NewsItem where
  url : Str
  title : Option Str
  date : Option Str
  is_digest : Bool
deriving DecidableEq, Repr

/-- `Pipeline.handle_news(news, force)`.  `site` states whether a site
client is configured (`self.site`); the scraper's detail fetch is
answered from the environment. -/
def handle_news (cfg : Config) (env : Env) (st : PipeState)
    (news : NewsItem) (force : Bool) (site : Bool) : PipeState × Except Str Unit :=
  let url := news.url
  let existing := get_news_record st.store url
  let del :=
    if force ∧ existing.isSome then
      delete_news_moderation_messages cfg env st url
        ((existing.map (·.payload)))
    else (st, .ok ())
  match del with
  | (st, .error e) => (st, .error e)
  | (st, .ok _) =>
    let skip : Bool :=
      match existing with
      | some ex =>
        ¬force && (ex.status = str "approved" || ex.status = str "pending"
          || ex.status = str "rejected" || startswith ex.status (str "published"))
      | none => false
    if skip then (st, .ok ())
    else
      let fetch : CommSt × Except Str NewsDetail :=
        if site then
          ({ st.comm with fetches := st.comm.fetches + 1 }, env.detail st.comm.fetches)
        else (st.comm, .ok defaultNewsDetail)
      match fetch with
      | (c, .error e) => ({ st with comm := c }, .error e)
      | (c, .ok detail) =>
        let st := { st with comm := c }
        let canonical_url :=
          if ¬detail.canonical_url.isEmpty then detail.canonical_url else url
        let title := pyOrStr2 news.title (some detail.title)
        let date := pyOrStr2 news.date (some detail.date)
        let date := sanitize_news_date date
        let payload : NewsPayload :=
          { url := canonical_url, title := title, date := date,
            text := detail.text, images := detail.images,
            is_event := detail.is_event
              || containsSub (lower canonical_url) (str "/events.")
              || containsSub (lower canonical_url) (str "/events/"),
            is_digest := false }
        let is_digest : Bool :=
          news.is_digest || detail.is_digest
            || containsSub (lower canonical_url) (str "/digest/")
            || is_digest_payload payload
        let payload :=
          if is_digest then
            { payload with text := trim_digest_footer_text payload.text, images := payload.images.take 1, is_digest := true }
          else { payload with is_digest := false }
        let content_hash := hash_news_payload payload
        if ¬force ∧ news_should_skip st.store url content_hash then (st, .ok ())
        else
          let tok :=
            if cfg.moderation_required then
              (some (env.uuid st.comm.uuids), { st.comm with uuids := st.comm.uuids + 1 })
            else (none, st.comm)
          let st := { st with comm := tok.2 }
          let st := { st with store := mark_news_pending env.now st.store url content_hash tok.1 payload }
          let st := { st with pending_news := aset st.pending_news url payload }
          if cfg.moderation_required then
            (send_news_for_moderation cfg env st url payload tok.1, .ok ())
          else
            match publish_news cfg env st url payload false true true with
            | (st, .error e) => (st, .error e)
            | (st, .ok _) => (st, .ok ())

/-- The canonical payload `handle_news` stores for a digest-classified
site item: the digest branch of the payload fix-up applied to the
freshly built payload. -/
def digestPayload (news : NewsItem) (detail : NewsDetail) : NewsPayload :=
  let canonical_url :=
    if ¬detail.canonical_url.isEmpty then detail.canonical_url else news.url
  { url := canonical_url, title := pyOrStr2 news.title (some detail.title), date := sanitize_news_date (pyOrStr2 news.date (some detail.date)), text := trim_digest_footer_text detail.text, images := detail.images.take 1, is_event := detail.is_event || containsSub (lower canonical_url) (str "/events.") || containsSub (lower canonical_url) (str "/events/"), is_digest := true }

/-! ### Moderation callbacks (`pipeline.handle_callback`) -/

/-- One Telegram callback query (`update["callback_query"]`). -/
structure CallbackQuery where
  data : Option Str
  cb_id : Option Str
  from_user : TgUser
deriving DecidableEq, Repr

/-- One Telegram update as consumed by `handle_callback`. -/
structure TgUpdate where
  callback_query : Option CallbackQuery
deriving DecidableEq, Repr

/-- `data.split(":", maxsplit)`. -/
def splitOnColonMax : Str → Nat → List Str
  | s, 0 => [s]
  | s, Nat.succ m =>
    match findSub (str ":") s with
    | none => [s]
    | some i => s.take i :: splitOnColonMax (s.drop (i + 1)) m

/-- `if cb_id: await self.tg.answer_callback_query(cb_id, text=...)`. -/
def answer_cb (cfg : Config) (env : Env) (c : CommSt) (cb_id : Option Str)
    (text : Str) : CommSt × Except Str Unit :=
  if optStrTruthy cb_id then tg_answer_callback cfg env c (cb_id.getD []) (some text)
  else (c, .ok ())

/-- The shared `except Exception` handler of the post publish paths:
delete the moderation prompts, answer the callback with an error text and
notify the owner about the failed publish. -/
def post_publish_error_tail (cfg : Config) (env : Env) (st : PipeState)
    (cb_id : Option Str) (actor_for_owner : Option Str) (post_id : Int)
    (e : Str) : PipeState × Except Str Unit :=
  let del := delete_post_moderation_messages cfg env st post_id
  let st := del.1
  let r := answer_cb cfg env st.comm cb_id (str "Ошибка публикации")
  let st := { st with comm := r.1 }
  match r.2 with
  | .error e2 => (st, .error e2)
  | .ok _ =>
    let comm := notify_publish_error cfg env st.comm
      (str "Ошибка публикации поста: " ++ e) actor_for_owner
    ({ st with comm := comm }, .ok ())

/-- The final `answer_callback_query` step of a successful post publish
(an exception raised by it still lands in the `except` handler). -/
def post_answer_finish (cfg : Config) (env : Env) (st : PipeState)
    (cb_id : Option Str) (actor_for_owner : Option Str) (post_id : Int)
    (text : Str) : PipeState × Except Str Unit :=
  let r := answer_cb cfg env st.comm cb_id text
  let st := { st with comm := r.1 }
  match r.2 with
  | .error e => post_publish_error_tail cfg env st cb_id actor_for_owner post_id e
  | .ok _ => (st, .ok ())

/-- The `post:`-branch approve path of `handle_callback` (the `try` body
plus its `except` handler), after the store updates. -/
def post_approve_after (cfg : Config) (env : Env) (st : PipeState)
    (cb_id : Option Str) (actor_for_owner : Option Str) (action : Str)
    (post_id : Int) (payload : PostPayload) : PipeState × Except Str Unit :=
  let pubRes : PipeState × Except Str (List Int) :=
    if action = str "tg" ∨ action = str "both" then
      publish cfg env st post_id payload false
    else (st, .ok [])
  match pubRes with
  | (st, .error e) => post_publish_error_tail cfg env st cb_id actor_for_owner post_id e
  | (st, .ok tg_message_ids) =>
    let publish_vk : Bool := action = str "vk" ∨ action = str "both"
    let vk_link := if publish_vk then some payload.vk_url else none
    match delete_post_moderation_messages cfg env st post_id with
    | (st, .error e) => post_publish_error_tail cfg env st cb_id actor_for_owner post_id e
    | (st, .ok _) =>
      let comm := notify_post_result cfg env st.comm true payload.vk_url
        (action = str "tg" ∨ action = str "both") tg_message_ids publish_vk
        vk_link actor_for_owner
      post_answer_finish cfg env { st with comm := comm } cb_id actor_for_owner post_id
        (str "Опубликовано")

/-- The `post:`-branch approve path of `handle_callback`. -/
def handle_post_approve (cfg : Config) (env : Env) (st : PipeState)
    (cb_id : Option Str) (actor_for_owner : Option Str) (action token : Str)
    (post_id : Int) (payload : PostPayload) : PipeState × Except Str Unit :=
  let st := { st with store := mark_approved env.now st.store post_id }
  let st := { st with store := invalidate_token st.store token }
  post_approve_after cfg env st cb_id actor_for_owner action post_id payload

/-- The shared reject path for wall posts, after the store updates. -/
def post_reject_after (cfg : Config) (env : Env) (st : PipeState)
    (cb_id : Option Str) (actor_for_owner : Option Str)
    (post_id : Int) (payload : PostPayload) : PipeState × Except Str Unit :=
  match delete_post_moderation_messages cfg env st post_id with
  | (st, .error e) => (st, .error e)
  | (st, .ok _) =>
    let comm := notify_post_result cfg env st.comm false payload.vk_url
      false [] false none actor_for_owner
    let st := { st with comm := comm }
    let r := answer_cb cfg env st.comm cb_id (str "Отклонено")
    ({ st with comm := r.1 }, r.2)

/-- The shared reject path for wall posts. -/
def handle_post_reject (cfg : Config) (env : Env) (st : PipeState)
    (cb_id : Option Str) (actor_for_owner : Option Str) (token : Str)
    (post_id : Int) (payload : PostPayload) : PipeState × Except Str Unit :=
  let st := { st with store := mark_rejected env.now st.store post_id }
  let st := { st with store := invalidate_token st.store token }
  post_reject_after cfg env st cb_id actor_for_owner post_id payload

/-- The `approve:`-branch publish path (`try` body plus `except`), after
the store updates. -/
def post_simple_approve_after (cfg : Config) (env : Env) (st : PipeState)
    (cb_id : Option Str) (actor_for_owner : Option Str)
    (post_id : Int) (payload : PostPayload) : PipeState × Except Str Unit :=
  match publish cfg env st post_id payload false with
  | (st, .error e) => post_publish_error_tail cfg env st cb_id actor_for_owner post_id e
  | (st, .ok tg_message_ids) =>
    match delete_post_moderation_messages cfg env st post_id with
    | (st, .error e) => post_publish_error_tail cfg env st cb_id actor_for_owner post_id e
    | (st, .ok _) =>
      let comm := notify_post_result cfg env st.comm true payload.vk_url
        true tg_message_ids false none actor_for_owner
      post_answer_finish cfg env { st with comm := comm } cb_id actor_for_owner post_id
        (str "Опубликовано в TG")

/-- The `approve:`-branch publish path (`try` body plus `except`). -/
def handle_post_simple_approve (cfg : Config) (env : Env) (st : PipeState)
    (cb_id : Option Str) (actor_for_owner : Option Str) (token : Str)
    (post_id : Int) (payload : PostPayload) : PipeState × Except Str Unit :=
  let st := { st with store := mark_approved env.now st.store post_id }
  let st := { st with store := invalidate_token st.store token }
  post_simple_approve_after cfg env st cb_id actor_for_owner post_id payload

/-- The news reject path. -/
def handle_news_reject (cfg : Config) (env : Env) (st : PipeState)
    (cb_id : Option Str) (actor_for_owner : Option Str) (token : Str)
    (url : Str) (payload : NewsPayload) : PipeState × Except Str Unit :=
  let st := { st with store := mark_news_rejected env.now st.store url }
  let st := { st with store := invalidate_news_token st.store token }
  match delete_news_moderation_messages cfg env st url (some payload) with
  | (st, .error e) => (st, .error e)
  | (st, .ok _) =>
    let comm := notify_news_result cfg env st.comm false url false [] false
      none (is_digest_payload payload) actor_for_owner
    let st := { st with comm := comm }
    let r := answer_cb cfg env st.comm cb_id (str "Отклонено")
    ({ st with comm := r.1 }, r.2)

/-- The news approve/publish path (`try` body plus `except`). -/
def handle_news_approve (cfg : Config) (env : Env) (st : PipeState)
    (cb_id : Option Str) (actor_for_owner : Option Str) (token : Str)
    (url : Str) (payload : NewsPayload) (publish_vk publish_tg : Bool) :
    PipeState × Except Str Unit :=
  let st := { st with store := mark_news_approved env.now st.store url }
  let st := { st with store := invalidate_news_token st.store token }
  let tryBody : PipeState × Except Str Unit :=
    match publish_news cfg env st url payload publish_vk publish_tg false with
    | (st, .error e) => (st, .error e)
    | (st, .ok res) =>
      match delete_news_moderation_messages cfg env st url (some payload) with
      | (st, .error e) => (st, .error e)
      | (st, .ok _) =>
        let comm := notify_news_result cfg env st.comm true url publish_tg
          res.1 publish_vk res.2 (is_digest_payload payload) actor_for_owner
        let st := { st with comm := comm }
        let r := answer_cb cfg env st.comm cb_id (str "Опубликовано")
        ({ st with comm := r.1 }, r.2)
  match tryBody with
  | (st, .ok _) => (st, .ok ())
  | (st, .error e) =>
    let del := delete_news_moderation_messages cfg env st url (some payload)
    let st := del.1
    let r := answer_cb cfg env st.comm cb_id (str "Ошибка публикации")
    let st := { st with comm := r.1 }
    match r.2 with
    | .error e2 => (st, .error e2)
    | .ok _ =>
      let comm := notify_publish_error cfg env st.comm
        (str "Ошибка публикации новости: " ++ e) actor_for_owner
      ({ st with comm := comm }, .ok ())

/-- `Pipeline.handle_callback(update)`. -/
def handle_callback (cfg : Config) (env : Env) (st : PipeState)
    (upd : TgUpdate) : PipeState × Except Str Unit :=
  match upd.callback_query with
  | none => (st, .ok ())
  | some cb =>
    let data := cb.data.getD []
    let cb_id := cb.cb_id
    let user_id := cb.from_user.id
    let actor := format_telegram_actor cb.from_user
    let actor_for_owner := if ¬cfg.is_owner user_id then some actor else none
    if startswith data (str "post:") then
      if ¬cfg.is_moderator user_id then
        let r := answer_cb cfg env st.comm cb_id (str "Нет доступа")
        ({ st with comm := r.1 }, r.2)
      else
        match splitOnColonMax data 2 with
        | [_, action, token] =>
          (match get_post_by_token st.store token with
           | none =>
             let r := answer_cb cfg env st.comm cb_id (str "Устарело")
             ({ st with comm := r.1 }, r.2)
           | some post_id =>
             let payloadOpt :=
               match alookup st.pending_cache post_id with
               | some p => some p
               | none => get_payload st.store post_id
             match payloadOpt with
             | none =>
               let r := answer_cb cfg env st.comm cb_id (str "Нет данных")
               ({ st with comm := r.1 }, r.2)
             | some payload =>
               if ¬(action = str "vk" ∨ action = str "tg" ∨ action = str "both"
                     ∨ action = str "reject") then
                 let r := answer_cb cfg env st.comm cb_id (str "Неизвестная команда")
                 ({ st with comm := r.1 }, r.2)
               else if action = str "reject" then
                 handle_post_reject cfg env st cb_id actor_for_owner token post_id payload
               else
                 handle_post_approve cfg env st cb_id actor_for_owner action token post_id payload)
        | _ =>
          let r := answer_cb cfg env st.comm cb_id (str "Неверная команда")
          ({ st with comm := r.1 }, r.2)
    else if startswith data (str "approve:") ∨ startswith data (str "reject:") then
      if ¬cfg.is_moderator user_id then
        let r := answer_cb cfg env st.comm cb_id (str "Нет доступа")
        ({ st with comm := r.1 }, r.2)
      else
        match splitOnColonMax data 1 with
        | [action, token] =>
          (match get_post_by_token st.store token with
           | none =>
             let r := answer_cb cfg env st.comm cb_id (str "Устарело")
             ({ st with comm := r.1 }, r.2)
           | some post_id =>
             let payloadOpt :=
               match alookup st.pending_cache post_id with
               | some p => some p
               | none => get_payload st.store post_id
             match payloadOpt with
             | none =>
               let r := answer_cb cfg env st.comm cb_id (str "Нет данных")
               ({ st with comm := r.1 }, r.2)
             | some payload =>
               if action = str "approve" then
                 handle_post_simple_approve cfg env st cb_id actor_for_owner token post_id payload
               else if action = str "reject" then
                 handle_post_reject cfg env st cb_id actor_for_owner token post_id payload
               else (st, .ok ()))
        | _ => (st, .error (str "ValueError: not enough values to unpack"))
    else if startswith data (str "approve_news:") ∨ startswith data (str "reject_news:")
        ∨ startswith data (str "news:") then
      if ¬cfg.is_moderator user_id then
        let r := answer_cb cfg env st.comm cb_id (str "Нет доступа")
        ({ st with comm := r.1 }, r.2)
      else
        let actTok : Str × Str :=
          if startswith data (str "news:") then
            match splitOnColonMax data 2 with
            | [_, action, token] => (action, token)
            | _ => ([], [])
          else
            match splitOnColonMax data 1 with
            | [action, token] => (action, token)
            | _ => ([], [])
        let action := actTok.1
        let token := actTok.2
        let urlOpt := get_news_by_token st.store token
        if ¬optStrTruthy urlOpt then
          let r := answer_cb cfg env st.comm cb_id (str "Устарело")
          ({ st with comm := r.1 }, r.2)
        else
          let url := urlOpt.getD []
          let payloadOpt :=
            match alookup st.pending_news url with
            | some p => some p
            | none => get_news_payload st.store url
          match payloadOpt with
          | none =>
            let r := answer_cb cfg env st.comm cb_id (str "Нет данных")
            ({ st with comm := r.1 }, r.2)
          | some payload =>
            if ¬(action = str "approve_news" ∨ action = str "reject_news"
                  ∨ action = str "reject" ∨ action = str "vk" ∨ action = str "tg"
                  ∨ action = str "both") then
              let r := answer_cb cfg env st.comm cb_id (str "Неизвестная команда")
              ({ st with comm := r.1 }, r.2)
            else if action = str "reject_news" ∨ action = str "reject" then
              handle_news_reject cfg env st cb_id actor_for_owner token url payload
            else
              let publish_vk : Bool := action = str "vk" ∨ action = str "both"
              let publish_tg : Bool :=
                action = str "tg" ∨ action = str "both" ∨ action = str "approve_news"
              handle_news_approve cfg env st cb_id actor_for_owner token url payload publish_vk publish_tg
    else (st, .ok ())

/-- The Telegram update carrying callback data `post:<action>:<token>`
(the button payloads `_send_for_moderation` attaches to a prompt). -/
def post_callback_update (action token cid : Str) (user : TgUser) : TgUpdate :=
  { callback_query := some { data := some (str "post:" ++ (action ++ (str ":" ++ token))), cb_id := some cid, from_user := user } }

/-! ### Worker loops (`bot/main.py`) -/

/-- The outcome of one loop cycle body (a successful fetch/process pass,
or a raised exception with its `str(exc)` signature). -/
inductive CycleResult where
  | ok
  | fail (msg : Str)
deriving DecidableEq, Repr

/-- The per-loop streak state (`same_error`, `error_count`). -/
structure LoopState where
  same_error : Option Str
  error_count : Nat
deriving DecidableEq, Repr

/-- One iteration of `main.vk_loop`'s error handling: the new streak
state, and whether the iteration escalates to a fatal stop (notify the
operator once, then `raise SystemExit`). -/
def vk_loop_step (st : LoopState) (c : CycleResult) : LoopState × Bool :=
  match c with
  | .ok => ({ same_error := none, error_count := 0 }, false)
  | .fail msg =>
    let st :=
      if st.same_error = some msg then { st with error_count := st.error_count + 1 }
      else { same_error := some msg, error_count := 1 }
    (st, 5 ≤ st.error_count)

/-- One iteration of `main.site_worker`'s error handling (same shape as
`vk_loop`). -/
def site_worker_step (st : LoopState) (c : CycleResult) : LoopState × Bool :=
  match c with
  | .ok => ({ same_error := none, error_count := 0 }, false)
  | .fail msg =>
    let st :=
      if st.same_error = some msg then { st with error_count := st.error_count + 1 }
      else { same_error := some msg, error_count := 1 }
    (st, 5 ≤ st.error_count)

/-- Run a worker loop over a finite trace of cycle outcomes: returns the
number of operator notifications sent, whether the process terminated
(`SystemExit` escalates out of the loop and `main.run` cancels all
sibling tasks), and the final streak state.  A fatal iteration notifies
exactly once and processes no further cycles. -/
def run_worker_loop (step : LoopState → CycleResult → LoopState × Bool) :
    LoopState → List CycleResult → Nat × Bool × LoopState
  | st, [] => (0, false, st)
  | st, c :: rest =>
    match step st c with
    | (st, true) => (1, true, st)
    | (st, false) => run_worker_loop step st rest

/-- The initial streak state of both loops. -/
def initLoopState : LoopState := { same_error := none, error_count := 0 }

/-! ### Concrete inputs for witnesses and counterexamples -/

/-- The skip predicate exactly as claim C7 words it (spec §4.2): same
hash, and a status among pending/approved/rejected or any of the four
published variants. -/
def spec_should_skip (s : StoreData) (post_id : Int) (content_hash : Str) : Bool :=
  match alookup s.posts (intStr post_id) with
  | none => false
  | some rec =>
    rec.hash = content_hash ∧
      (rec.status = str "pending" ∨ rec.status = str "approved" ∨
       rec.status = str "rejected" ∨ rec.status = str "published" ∨
       rec.status = str "published_vk" ∨ rec.status = str "published_tg" ∨
       rec.status = str "published_both")

/-- A store whose only post record is `published_vk` with hash `"h"`. -/
def c7_store : StoreData :=
  { emptyStore with posts :=
      [(str "5", { emptyPostRecord with hash := str "h", status := str "published_vk" })] }

/-- A small concrete raw post for the C6 witness. -/
def c6_raw_post : RawPost :=
  { id := some 3, post_id := none, owner_id := some (-10), text := some (str "hello"),
    post_type := some (str "post"), attachments := [], copy_history := [] }

/-- A minimal auto-mode configuration for witnesses. -/
def cfgW : Config :=
  { vk_group_id := 1, tg_channel_id := str "@chan", owner_id := 1,
    moderator_ids := [], moderation_mode := str "off", dry_run := false }

/-- An environment whose every collaborator call answers message id 5. -/
def envOkW : Env :=
  { resp := fun _ => .ids [5], uuid := fun _ => str "t",
    detail := fun _ => .ok defaultNewsDetail, now := 0 }

/-- An environment whose every collaborator call raises. -/
def envErrW : Env :=
  { resp := fun _ => .err (str "boom"), uuid := fun _ => str "t",
    detail := fun _ => .ok defaultNewsDetail, now := 0 }

/-- The fresh pipeline state. -/
def stW : PipeState :=
  { store := emptyStore, pending_cache := [], pending_news := [],
    comm := { calls := 0, uuids := 0, fetches := 0, out := [] } }

/-- A minimal post payload for witnesses. -/
def payloadW : PostPayload :=
  { post_id := 1, owner_id := 1, text := str "hi", media := [], poll := none,
    vk_url := str "v" }

/-- A minimal news payload for witnesses. -/
def npayloadW : NewsPayload :=
  { url := str "u", title := str "t", date := [], text := str "b", images := [],
    is_event := false, is_digest := false }

/-- A config whose owner (id 9) is the only moderator. -/
def cfgModW : Config :=
  { vk_group_id := 1, tg_channel_id := str "@chan", owner_id := 9,
    moderator_ids := [], moderation_mode := str "required", dry_run := false }

/-- The acting moderator of the C2 witness. -/
def c2userW : TgUser :=
  { id := some 9, username := none, first_name := none, last_name := none }

/-- A pipeline state holding one minted token `tk` for post 7 and its
cached payload. -/
def c2stW : PipeState :=
  { store := { emptyStore with moderation_tokens := [(str "tk", 7)] },
    pending_cache := [(7, payloadW)], pending_news := [],
    comm := { calls := 0, uuids := 0, fetches := 0, out := [] } }

/-- The fresh raw post of the C5 witness. -/
def c5postW : RawPost :=
  { id := some 3, post_id := none, owner_id := some (-1), text := some (str "hi"),
    post_type := none, attachments := [], copy_history := [] }

/-- The raw post of the C10 counterexample: its `id` key is absent but
`post_id` is 7. -/
def c10postW : RawPost :=
  { id := none, post_id := some 7, owner_id := some (-1), text := some (str "hi"),
    post_type := none, attachments := [], copy_history := [] }

/-- A suggested raw post (`post_type = "suggest"`). -/
def c10suggestW : RawPost :=
  { id := some 4, post_id := none, owner_id := some (-1), text := some (str "hi"),
    post_type := some (str "suggest"), attachments := [], copy_history := [] }

/-- The digest-flagged site item of the C4 theorems. -/
def c4newsW : NewsItem :=
  { url := str "u1", title := none, date := none, is_digest := true }

/-- A scraper detail with two images and a marker-free body. -/
def c4detailW : NewsDetail :=
  { text := str "body", images := [str "i1", str "i2"], is_digest := false,
    title := str "t", date := [], canonical_url := [], is_event := false }

/-- An environment whose scraper always answers `c4detailW`. -/
def envC4W : Env :=
  { resp := fun _ => .ids [5], uuid := fun _ => str "t",
    detail := fun _ => .ok c4detailW, now := 0 }

/-! ### Association-list lemmas -/

theorem alookup_aset_self {κ α : Type} [DecidableEq κ] (m : List (κ × α)) (k : κ) (v : α) :
    alookup (aset m k v) k = some v := by
  induction m with
  | nil => simp [aset, alookup]
  | cons kv rest ih =>
    obtain ⟨k', w⟩ := kv
    by_cases h : k' = k
    · subst h; simp [aset, alookup]
    · simp [aset, alookup, h, ih]

theorem alookup_aset_ne {κ α : Type} [DecidableEq κ] (m : List (κ × α))
    (k k' : κ) (v : α) (h : k' ≠ k) :
    alookup (aset m k v) k' = alookup m k' := by
  induction m with
  | nil => simp [aset, alookup, Ne.symm h]
  | cons kv rest ih =>
    obtain ⟨k'', w⟩ := kv
    by_cases hk : k'' = k
    · subst hk
      simp [aset, alookup, Ne.symm h]
    · by_cases hk2 : k'' = k'
      · subst hk2; simp [aset, alookup, hk]
      · simp [aset, alookup, hk, hk2, ih]

theorem alookup_aerase_self {κ α : Type} [DecidableEq κ] (m : List (κ × α)) (k : κ) :
    alookup (aerase m k) k = none := by
  induction m with
  | nil => simp [aerase, alookup]
  | cons kv rest ih =>
    obtain ⟨k', w⟩ := kv
    by_cases h : k' = k
    · subst h; simpa [aerase, alookup] using ih
    · simpa [aerase, alookup, h] using ih

theorem alookup_aerase_ne {κ α : Type} [DecidableEq κ] (m : List (κ × α))
    (k k' : κ) (h : k' ≠ k) :
    alookup (aerase m k) k' = alookup m k' := by
  unfold aerase
  simp only [ne_eq, decide_not]
  induction m with
  | nil => simp
  | cons kv rest ih =>
    obtain ⟨k'', w⟩ := kv
    by_cases hk : k'' = k
    · subst hk
      simpa [alookup, Ne.symm h] using ih
    · by_cases hk2 : k'' = k'
      · subst hk2; simp [alookup, hk, ih]
      · simp [alookup, hk, hk2, ih]

/-! ### C7 — `shouldSkip` characterization -/

/-- C7 counterexample: on a record whose status is the published variant
`published_vk` with a matching hash, `should_skip` returns `false`,
while the claim's condition (any published variant skips) holds — the
claimed equivalence fails at this store. -/
theorem c7_should_skip_counterexample :
    should_skip c7_store 5 (str "h") = false
      ∧ spec_should_skip c7_store 5 (str "h") = true := by
  constructor
  · decide
  · decide

/-- C7 (amended): for every store state, `should_skip(id, hash)` is true
iff a record exists with the same hash and status exactly in
{pending, approved, published, rejected} (the bare `published` only);
`news_should_skip(url, hash)` is true iff a record exists with the same
hash and status in {pending, approved, rejected} or any status that
starts with `published`. -/
theorem c7_should_skip_iff (s : StoreData) (post_id : Int) (url : Str)
    (content_hash : Str) :
    (should_skip s post_id content_hash = true ↔
      ∃ rec, alookup s.posts (intStr post_id) = some rec ∧
        rec.hash = content_hash ∧
        (rec.status = str "pending" ∨ rec.status = str "approved" ∨
         rec.status = str "published" ∨ rec.status = str "rejected"))
    ∧ (news_should_skip s url content_hash = true ↔
      ∃ rec, alookup s.news url = some rec ∧
        rec.hash = content_hash ∧
        (rec.status = str "pending" ∨ rec.status = str "approved" ∨
         rec.status = str "rejected" ∨ startswith rec.status (str "published"))) := by
  constructor
  · unfold should_skip
    cases h : alookup s.posts (intStr post_id) with
    | none => simp [h]
    | some rec => simp [h]
  · unfold news_should_skip
    cases h : alookup s.news url with
    | none => simp [h]
    | some rec => simp [h]

/-! ### C1 — moderation-message-id bookkeeping -/

/-- C1: the StateStore records the per-chat prompt-message mapping and
can clear it: after `set_moderation_message_ids(id, mapping)` the stored
map for `id` is `mapping`, after a subsequent
`clear_moderation_message_ids(id)` it is empty, and
`_send_for_moderation` persists exactly such a mapping on the store.
(The two StateStore methods are modelled from the spec,§4.2, because
`src/bot/state.py` does not define them although `pipeline.py` calls
them.) -/
theorem c1_moderation_message_ids (s : StoreData) (post_id : Int)
    (mapping : List (Int × List Int)) (rec : PostRecord)
    (hrec : alookup s.posts (intStr post_id) = some rec) :
    (get_moderation_message_id_map (set_moderation_message_ids s post_id mapping) post_id
        = mapping
      ∧ get_moderation_message_id_map
          (clear_moderation_message_ids (set_moderation_message_ids s post_id mapping) post_id)
          post_id = [])
    ∧ ∀ (cfg : Config) (env : Env) (st : PipeState) (payload : PostPayload)
        (token : Option Str) (ue wd : Bool),
        ∃ mm, (send_for_moderation cfg env st post_id payload token ue wd).store
          = set_moderation_message_ids st.store post_id mm := by
  constructor
  · constructor
    · unfold set_moderation_message_ids get_moderation_message_id_map
      rw [hrec]
      simp [alookup_aset_self]
    · unfold set_moderation_message_ids clear_moderation_message_ids
        get_moderation_message_id_map
      rw [hrec]
      simp [alookup_aset_self]
  · intro cfg env st payload token ue wd
    exact ⟨_, rfl⟩

/-- C1 witness: a concrete store with one record, a concrete mapping. -/
theorem c1_moderation_message_ids_witness :
    (get_moderation_message_id_map
        (set_moderation_message_ids c7_store 5 [(7, [1, 2])]) 5 = [(7, [1, 2])]
      ∧ get_moderation_message_id_map
          (clear_moderation_message_ids
            (set_moderation_message_ids c7_store 5 [(7, [1, 2])]) 5) 5 = [])
    ∧ ∀ (cfg : Config) (env : Env) (st : PipeState) (payload : PostPayload)
        (token : Option Str) (ue wd : Bool),
        ∃ mm, (send_for_moderation cfg env st 5 payload token ue wd).store
          = set_moderation_message_ids st.store 5 mm :=
  c1_moderation_message_ids c7_store 5 [(7, [1, 2])]
    { emptyPostRecord with hash := str "h", status := str "published_vk" } (by decide)

/-! ### C6 — normalization determinism -/

/-- C6: normalization is deterministic — byte-identical raw wall posts
yield the identical canonical payload under `_normalize_post`, and hence
the identical content hash (`_hash_payload` is SHA-256 over the payload
serialized with sorted keys, so it is a function of the payload alone). -/
theorem c6_normalize_deterministic (p q : RawPost) (h : p = q) :
    normalize_post p = normalize_post q
      ∧ hash_payload (normalize_post p) = hash_payload (normalize_post q) := by
  subst h
  exact ⟨rfl, rfl⟩

/-- C6 witness: the determinism theorem applied at a concrete raw post. -/
theorem c6_normalize_deterministic_witness :
    normalize_post c6_raw_post = normalize_post c6_raw_post
      ∧ hash_payload (normalize_post c6_raw_post)
        = hash_payload (normalize_post c6_raw_post) :=
  c6_normalize_deterministic c6_raw_post c6_raw_post rfl

/-! ### C9 — consecutive-identical-failure streaks -/

/-- C9: in both worker loops (`vk_loop` and `site_worker`), five
consecutive failures with identical messages starting from a fresh
streak notify the operator exactly once and terminate the process (any
remaining cycles are never run); a failure whose message differs from
the recorded one resets the streak to 1 (not fatal); a successful cycle
resets it to 0; and from a recorded streak of 4 on message `m`, one more
`m`-failure reaches the threshold 5 and is fatal. -/
theorem c9_worker_streak_fatal (m mdiff : Str) (rest : List CycleResult)
    (st1 st2 : LoopState) (hne : st1.same_error ≠ some mdiff)
    (h2a : st2.same_error = some m) (h2b : st2.error_count = 4) :
    run_worker_loop vk_loop_step initLoopState
        (List.replicate 5 (.fail m) ++ rest) = (1, true, ⟨some m, 5⟩)
    ∧ run_worker_loop site_worker_step initLoopState
        (List.replicate 5 (.fail m) ++ rest) = (1, true, ⟨some m, 5⟩)
    ∧ vk_loop_step st1 (.fail mdiff) = (⟨some mdiff, 1⟩, false)
    ∧ site_worker_step st1 (.fail mdiff) = (⟨some mdiff, 1⟩, false)
    ∧ vk_loop_step st1 .ok = (⟨none, 0⟩, false)
    ∧ site_worker_step st1 .ok = (⟨none, 0⟩, false)
    ∧ vk_loop_step st2 (.fail m) = (⟨some m, 5⟩, true)
    ∧ site_worker_step st2 (.fail m) = (⟨some m, 5⟩, true) := by
  refine ⟨?_, ?_, ?_, ?_, ?_, ?_, ?_, ?_⟩
  · show run_worker_loop vk_loop_step initLoopState
      (.fail m :: .fail m :: .fail m :: .fail m :: .fail m :: rest) = (1, true, ⟨some m, 5⟩)
    simp [run_worker_loop, vk_loop_step, initLoopState]
  · show run_worker_loop site_worker_step initLoopState
      (.fail m :: .fail m :: .fail m :: .fail m :: .fail m :: rest) = (1, true, ⟨some m, 5⟩)
    simp [run_worker_loop, site_worker_step, initLoopState]
  · simp [vk_loop_step, hne]
  · simp [site_worker_step, hne]
  · simp [vk_loop_step]
  · simp [site_worker_step]
  · simp [vk_loop_step, h2a, h2b]
  · simp [site_worker_step, h2a, h2b]

/-- C9 witness: a concrete pair of messages and streak states. -/
theorem c9_worker_streak_fatal_witness :
    run_worker_loop vk_loop_step initLoopState
        (List.replicate 5 (.fail (str "e")) ++ [CycleResult.ok]) = (1, true, ⟨some (str "e"), 5⟩)
    ∧ run_worker_loop site_worker_step initLoopState
        (List.replicate 5 (.fail (str "e")) ++ [CycleResult.ok]) = (1, true, ⟨some (str "e"), 5⟩)
    ∧ vk_loop_step ⟨some (str "e"), 3⟩ (.fail (str "f")) = (⟨some (str "f"), 1⟩, false)
    ∧ site_worker_step ⟨some (str "e"), 3⟩ (.fail (str "f")) = (⟨some (str "f"), 1⟩, false)
    ∧ vk_loop_step ⟨some (str "e"), 3⟩ .ok = (⟨none, 0⟩, false)
    ∧ site_worker_step ⟨some (str "e"), 3⟩ .ok = (⟨none, 0⟩, false)
    ∧ vk_loop_step ⟨some (str "e"), 4⟩ (.fail (str "e")) = (⟨some (str "e"), 5⟩, true)
    ∧ site_worker_step ⟨some (str "e"), 4⟩ (.fail (str "e")) = (⟨some (str "e"), 5⟩, true) :=
  c9_worker_streak_fatal (str "e") (str "f") [CycleResult.ok]
    ⟨some (str "e"), 3⟩ ⟨some (str "e"), 4⟩ (by decide) rfl rfl

/-! ### C3 — empty publish fails, record untouched -/

/-- `_publish` either raises without touching the store, or returns a
non-empty id list and marks the record published. -/
theorem publish_cases (cfg : Config) (env : Env) (st : PipeState)
    (post_id : Int) (payload : PostPayload) (notify : Bool) :
    (∃ c e, publish cfg env st post_id payload notify = ({ st with comm := c }, .error e))
    ∨ ∃ st' ids, publish cfg env st post_id payload notify = (st', .ok ids) ∧ ids ≠ []
        ∧ st'.store = mark_published env.now st.store post_id ids := by
  unfold publish
  rcases hps : publish_send_phase cfg env st.comm payload with ⟨c, r⟩
  cases r with
  | error e => exact Or.inl ⟨_, _, rfl⟩
  | ok message_ids =>
    dsimp only
    by_cases hemp : message_ids.isEmpty = true
    · rw [if_pos hemp]
      exact Or.inl ⟨_, _, rfl⟩
    · rw [if_neg hemp]
      refine Or.inr ⟨_, message_ids, rfl, ?_, ?_⟩
      · intro h
        rw [h] at hemp
        simp at hemp
      · by_cases hn : notify ∧ ¬cfg.dry_run = true
        · rw [if_pos hn]
        · rw [if_neg hn]

/-- `_publish_news` with a required Telegram target either raises
without touching the store, or returns a non-empty Telegram id list. -/
theorem publish_news_cases (cfg : Config) (env : Env) (st : PipeState)
    (url : Str) (payload : NewsPayload) (pv no : Bool) :
    (∃ c e, publish_news cfg env st url payload pv true no = ({ st with comm := c }, .error e))
    ∨ ∃ st' r, publish_news cfg env st url payload pv true no = (st', .ok r) ∧ r.1 ≠ [] := by
  unfold publish_news
  dsimp only
  rcases hps : publish_news_tg cfg env st.comm payload with ⟨c, r⟩
  cases r with
  | error e => exact Or.inl ⟨_, _, rfl⟩
  | ok mids =>
    dsimp only
    by_cases hemp : mids.isEmpty = true
    · rw [if_pos hemp]
      exact Or.inl ⟨_, _, rfl⟩
    · rw [if_neg hemp]
      rw [if_pos (rfl : true = true)]
      dsimp only
      rcases hvk : (if pv = true then publish_news_vk cfg env c payload
          else (c, (.ok none : Except Str (Option Int)))) with ⟨c2, r2⟩
      cases r2 with
      | error e => exact Or.inl ⟨_, _, rfl⟩
      | ok vpid =>
        refine Or.inr ⟨_, _, rfl, ?_⟩
        simp only [Option.getD_some]
        intro hnil
        rw [hnil] at hemp
        simp at hemp

/-- C3: if the publish to a target that was supposed to receive content
(the Telegram channel in `_publish`, or the required Telegram target in
`_publish_news`) produces zero outbound message ids, the publish raises
(`EmptyPublish`) and the persisted store — in particular the item's
record and status — is left exactly as before; a successful publish
always carries at least one message id. -/
theorem c3_publish_empty_fails (cfg : Config) (env : Env) (st : PipeState)
    (post_id : Int) (payload : PostPayload) (notify : Bool)
    (url : Str) (npayload : NewsPayload) (publish_vk notify2 : Bool) :
    ((∀ ids, (publish cfg env st post_id payload notify).2 = .ok ids → ids ≠ [])
      ∧ (∀ e, (publish cfg env st post_id payload notify).2 = .error e →
          (publish cfg env st post_id payload notify).1.store = st.store))
    ∧ ((∀ r, (publish_news cfg env st url npayload publish_vk true notify2).2 = .ok r →
          r.1 ≠ [])
      ∧ (∀ e, (publish_news cfg env st url npayload publish_vk true notify2).2 = .error e →
          (publish_news cfg env st url npayload publish_vk true notify2).1.store
            = st.store)) := by
  constructor
  · constructor
    · intro ids h
      rcases publish_cases cfg env st post_id payload notify with ⟨c, e, heq⟩ | ⟨st', ids', heq, hne, _⟩
      · rw [heq] at h; simp at h
      · rw [heq] at h
        simp only [Except.ok.injEq] at h
        subst h; exact hne
    · intro e h
      rcases publish_cases cfg env st post_id payload notify with ⟨c, e', heq⟩ | ⟨st', ids', heq, _, _⟩
      · rw [heq]
      · rw [heq] at h; simp at h
  · constructor
    · intro r h
      rcases publish_news_cases cfg env st url npayload publish_vk notify2 with ⟨c, e, heq⟩ | ⟨st', r', heq, hne⟩
      · rw [heq] at h; simp at h
      · rw [heq] at h
        simp only [Except.ok.injEq] at h
        subst h; exact hne
    · intro e h
      rcases publish_news_cases cfg env st url npayload publish_vk notify2 with ⟨c, e', heq⟩ | ⟨st', r', heq, _⟩
      · rw [heq]
      · rw [heq] at h; simp at h

/-- C3 witness: a successful publish carries the non-empty id list `[5]`;
a raising environment leaves the store untouched in both `_publish` and
`_publish_news`. -/
theorem c3_publish_empty_fails_witness :
    (([(5 : Int)] ≠ [])
      ∧ (publish cfgW envErrW stW 1 payloadW false).1.store = stW.store)
    ∧ ((([(5 : Int)], (none : Option Int)).1 ≠ [])
      ∧ (publish_news cfgW envErrW stW (str "u") npayloadW false true false).1.store
          = stW.store) := by
  refine ⟨⟨?_, ?_⟩, ?_, ?_⟩
  · exact (c3_publish_empty_fails cfgW envOkW stW 1 payloadW false
      (str "u") npayloadW false false).1.1 [5] rfl
  · exact (c3_publish_empty_fails cfgW envErrW stW 1 payloadW false
      (str "u") npayloadW false false).1.2 (str "boom") rfl
  · exact (c3_publish_empty_fails cfgW envOkW stW 1 payloadW false
      (str "u") npayloadW false false).2.1 ([5], none) rfl
  · exact (c3_publish_empty_fails cfgW envErrW stW 1 payloadW false
      (str "u") npayloadW false false).2.2 (str "boom") rfl

/-! ### C2 — token single-use -/

theorem append_processed_tokens (s : StoreData) (post_id : Int) :
    (append_processed s post_id).moderation_tokens = s.moderation_tokens := by
  unfold append_processed
  split <;> rfl

theorem mark_published_tokens (now : Nat) (s : StoreData) (post_id : Int)
    (ids : List Int) :
    (mark_published now s post_id ids).moderation_tokens = s.moderation_tokens := by
  unfold mark_published
  rw [append_processed_tokens]

theorem clear_moderation_message_ids_tokens (s : StoreData) (post_id : Int) :
    (clear_moderation_message_ids s post_id).moderation_tokens = s.moderation_tokens := by
  unfold clear_moderation_message_ids
  split <;> rfl

theorem publish_store_tokens (cfg : Config) (env : Env) (st : PipeState)
    (post_id : Int) (payload : PostPayload) (notify : Bool) :
    ((publish cfg env st post_id payload notify).1).store.moderation_tokens
      = st.store.moderation_tokens := by
  rcases publish_cases cfg env st post_id payload notify with ⟨c, e, heq⟩ | ⟨st', ids, heq, _, hstore⟩
  · rw [heq]
  · rw [heq]
    show st'.store.moderation_tokens = _
    rw [hstore, mark_published_tokens]

theorem delete_post_moderation_messages_store_tokens (cfg : Config) (env : Env)
    (st : PipeState) (post_id : Int) :
    ((delete_post_moderation_messages cfg env st post_id).1).store.moderation_tokens
      = st.store.moderation_tokens := by
  unfold delete_post_moderation_messages
  dsimp only
  split
  · rfl
  · split
    · rfl
    · exact clear_moderation_message_ids_tokens _ _


theorem take_length_append (pre rest : Str) : (pre ++ rest).take pre.length = pre := by
  induction pre with
  | nil => rfl
  | cons a as ih => exact congrArg (a :: ·) ih

theorem drop_length_succ_append (pre : Str) (c : Char) (rest : Str) :
    (pre ++ c :: rest).drop (pre.length + 1) = rest := by
  induction pre with
  | nil => rfl
  | cons a as ih => exact ih

theorem isPrefixOf_append (pre rest : Str) : pre.isPrefixOf (pre ++ rest) = true := by
  induction pre with
  | nil => simp [List.isPrefixOf]
  | cons a as ih => simp [List.isPrefixOf, ih]

theorem startswith_append (pre rest : Str) : startswith (pre ++ rest) pre = true :=
  isPrefixOf_append pre rest

theorem findSub_colon_append (pre post : Str) (h : ':' ∉ pre) :
    findSub [':'] (pre ++ ':' :: post) = some pre.length := by
  induction pre with
  | nil =>
    show findSub [':'] (':' :: post) = some 0
    simp [findSub, List.isPrefixOf]
  | cons c rest ih =>
    have hc : c ≠ ':' := fun he => h (he ▸ List.mem_cons_self c rest)
    have hr : ':' ∉ rest := fun hm => h (List.mem_cons_of_mem c hm)
    have hne : ¬([':'].isPrefixOf (c :: (rest ++ ':' :: post)) = true) := by
      simp [List.isPrefixOf]
      exact fun he => hc he.symm
    show findSub [':'] (c :: (rest ++ ':' :: post)) = some (rest.length + 1)
    simp only [findSub]
    rw [if_neg hne, ih hr]
    rfl

theorem splitOnColonMax_cons (pre rest : Str) (m : Nat) (h : ':' ∉ pre) :
    splitOnColonMax (pre ++ ':' :: rest) (m + 1) = pre :: splitOnColonMax rest m := by
  show splitOnColonMax (pre ++ ':' :: rest) (Nat.succ m) = _
  simp only [splitOnColonMax]
  rw [show str ":" = [':'] from rfl, findSub_colon_append pre rest h]
  dsimp only
  rw [take_length_append, drop_length_succ_append]

theorem splitColon2_post (action token : Str) (h : ':' ∉ action) :
    splitOnColonMax (str "post:" ++ (action ++ (str ":" ++ token))) 2
      = [str "post", action, token] := by
  have hdata : str "post:" ++ (action ++ (str ":" ++ token))
      = str "post" ++ ':' :: (action ++ ':' :: token) := rfl
  rw [hdata, show (2 : Nat) = 1 + 1 from rfl,
    splitOnColonMax_cons (str "post") (action ++ ':' :: token) 1 (by decide),
    show (1 : Nat) = 0 + 1 from rfl, splitOnColonMax_cons action token 0 h]
  rfl

theorem post_publish_error_tail_tokens (cfg : Config) (env : Env) (st : PipeState)
    (cb_id afo : Option Str) (post_id : Int) (e : Str) :
    ((post_publish_error_tail cfg env st cb_id afo post_id e).1).store.moderation_tokens
      = st.store.moderation_tokens := by
  unfold post_publish_error_tail
  dsimp only
  rcases hdel : delete_post_moderation_messages cfg env st post_id with ⟨st2, rd⟩
  have ht : st2.store.moderation_tokens = st.store.moderation_tokens := by
    have h := delete_post_moderation_messages_store_tokens cfg env st post_id
    rw [hdel] at h
    exact h
  cases h2 : (answer_cb cfg env st2.comm cb_id (str "Ошибка публикации")).2 with
  | error e2 => exact ht
  | ok _ => exact ht

theorem post_answer_finish_tokens (cfg : Config) (env : Env) (st : PipeState)
    (cb_id afo : Option Str) (post_id : Int) (text : Str) :
    ((post_answer_finish cfg env st cb_id afo post_id text).1).store.moderation_tokens
      = st.store.moderation_tokens := by
  unfold post_answer_finish
  dsimp only
  cases h2 : (answer_cb cfg env st.comm cb_id text).2 with
  | error e => rw [post_publish_error_tail_tokens]
  | ok _ => rfl

theorem post_reject_after_tokens (cfg : Config) (env : Env) (st : PipeState)
    (cb_id afo : Option Str) (post_id : Int) (payload : PostPayload) :
    ((post_reject_after cfg env st cb_id afo post_id payload).1).store.moderation_tokens
      = st.store.moderation_tokens := by
  unfold post_reject_after
  rcases hdel : delete_post_moderation_messages cfg env st post_id with ⟨st2, rd⟩
  have ht : st2.store.moderation_tokens = st.store.moderation_tokens := by
    have h := delete_post_moderation_messages_store_tokens cfg env st post_id
    rw [hdel] at h
    exact h
  cases rd with
  | error e => exact ht
  | ok _ => exact ht

theorem post_approve_after_tokens (cfg : Config) (env : Env) (st : PipeState)
    (cb_id afo : Option Str) (action : Str) (post_id : Int) (payload : PostPayload) :
    ((post_approve_after cfg env st cb_id afo action post_id payload).1).store.moderation_tokens
      = st.store.moderation_tokens := by
  unfold post_approve_after
  dsimp only
  rcases hpub : (if action = str "tg" ∨ action = str "both" then
      publish cfg env st post_id payload false else (st, Except.ok [])) with ⟨stp, rp⟩
  have hpt : stp.store.moderation_tokens = st.store.moderation_tokens := by
    split at hpub
    · have h := publish_store_tokens cfg env st post_id payload false
      rw [hpub] at h
      exact h
    · rw [Prod.mk.injEq] at hpub
      rw [← hpub.1]
  cases rp with
  | error e =>
    rw [post_publish_error_tail_tokens]
    exact hpt
  | ok ids =>
    dsimp only
    rcases hdel : delete_post_moderation_messages cfg env stp post_id with ⟨std, rd⟩
    have hdt : std.store.moderation_tokens = stp.store.moderation_tokens := by
      have h := delete_post_moderation_messages_store_tokens cfg env stp post_id
      rw [hdel] at h
      exact h
    cases rd with
    | error e =>
      rw [post_publish_error_tail_tokens]
      exact hdt.trans hpt
    | ok _ =>
      dsimp only
      rw [post_answer_finish_tokens]
      exact hdt.trans hpt

theorem handle_post_reject_token_gone (cfg : Config) (env : Env) (st : PipeState)
    (cb_id afo : Option Str) (token : Str) (post_id : Int) (payload : PostPayload) :
    get_post_by_token
      ((handle_post_reject cfg env st cb_id afo token post_id payload).1).store token
      = none := by
  unfold handle_post_reject get_post_by_token
  dsimp only
  rw [post_reject_after_tokens]
  dsimp only [invalidate_token]
  exact alookup_aerase_self _ _

theorem handle_post_approve_token_gone (cfg : Config) (env : Env) (st : PipeState)
    (cb_id afo : Option Str) (action token : Str) (post_id : Int) (payload : PostPayload) :
    get_post_by_token
      ((handle_post_approve cfg env st cb_id afo action token post_id payload).1).store token
      = none := by
  unfold handle_post_approve get_post_by_token
  dsimp only
  rw [post_approve_after_tokens]
  dsimp only [invalidate_token]
  exact alookup_aerase_self _ _

theorem handle_callback_stale (cfg : Config) (env : Env) (st : PipeState)
    (user : TgUser) (cid action token : Str)
    (hmod : cfg.is_moderator user.id = true) (hnc : ':' ∉ action)
    (hgone : get_post_by_token st.store token = none) :
    handle_callback cfg env st (post_callback_update action token cid user)
      = ({ st with comm := (answer_cb cfg env st.comm (some cid) (str "Устарело")).1 },
         (answer_cb cfg env st.comm (some cid) (str "Устарело")).2) := by
  unfold handle_callback post_callback_update
  dsimp only [Option.getD]
  rw [if_pos (startswith_append (str "post:") (action ++ (str ":" ++ token))),
    hmod, if_neg (not_not_intro rfl), splitColon2_post action token hnc]
  dsimp only
  rw [hgone]

theorem handle_callback_decision (cfg : Config) (env : Env) (st : PipeState)
    (user : TgUser) (cid action token : Str) (post_id : Int) (payload : PostPayload)
    (hmod : cfg.is_moderator user.id = true) (hnc : ':' ∉ action)
    (hact : action = str "vk" ∨ action = str "tg" ∨ action = str "both"
      ∨ action = str "reject")
    (htok : get_post_by_token st.store token = some post_id)
    (hpay : alookup st.pending_cache post_id = some payload) :
    handle_callback cfg env st (post_callback_update action token cid user)
      = if action = str "reject" then
          handle_post_reject cfg env st (some cid)
            (if ¬cfg.is_owner user.id then some (format_telegram_actor user) else none)
            token post_id payload
        else
          handle_post_approve cfg env st (some cid)
            (if ¬cfg.is_owner user.id then some (format_telegram_actor user) else none)
            action token post_id payload := by
  unfold handle_callback post_callback_update
  dsimp only [Option.getD]
  rw [if_pos (startswith_append (str "post:") (action ++ (str ":" ++ token))),
    hmod, if_neg (not_not_intro rfl), splitColon2_post action token hnc]
  dsimp only
  rw [htok]
  dsimp only
  rw [hpay]
  dsimp only
  rw [if_neg (not_not_intro hact)]

/-- C2: token single-use. A `post:<action>:<token>` moderation callback
from a moderator whose token is currently in the token index is consumed
by the first valid decision (`vk`/`tg`/`both`/`reject`): afterwards the
token is absent from the index, whatever the publish outcome was; and the
second callback carrying the same token is answered `Устарело` and
returns the state otherwise unchanged — same store, same pending caches,
only the callback answer appended to the outbound log. -/
theorem c2_token_single_use (cfg : Config) (env1 env2 : Env) (st : PipeState)
    (user : TgUser) (cid1 cid2 action token : Str) (post_id : Int) (payload : PostPayload)
    (hmod : cfg.is_moderator user.id = true)
    (hact : action = str "vk" ∨ action = str "tg" ∨ action = str "both"
      ∨ action = str "reject")
    (htok : get_post_by_token st.store token = some post_id)
    (hpay : alookup st.pending_cache post_id = some payload) :
    get_post_by_token ((handle_callback cfg env1 st (post_callback_update action token cid1 user)).1).store token = none ∧
    handle_callback cfg env2 ((handle_callback cfg env1 st (post_callback_update action token cid1 user)).1) (post_callback_update action token cid2 user) = ({ (handle_callback cfg env1 st (post_callback_update action token cid1 user)).1 with comm := (answer_cb cfg env2 ((handle_callback cfg env1 st (post_callback_update action token cid1 user)).1).comm (some cid2) (str "Устарело")).1 }, (answer_cb cfg env2 ((handle_callback cfg env1 st (post_callback_update action token cid1 user)).1).comm (some cid2) (str "Устарело")).2) := by
  have hnc : ':' ∉ action := by
    rcases hact with h | h | h | h <;> subst h <;> decide
  have h1 : get_post_by_token ((handle_callback cfg env1 st (post_callback_update action token cid1 user)).1).store token = none := by
    rw [handle_callback_decision cfg env1 st user cid1 action token post_id payload
      hmod hnc hact htok hpay]
    by_cases hr : action = str "reject"
    · rw [if_pos hr]
      exact handle_post_reject_token_gone cfg env1 st (some cid1) _ token post_id payload
    · rw [if_neg hr]
      exact handle_post_approve_token_gone cfg env1 st (some cid1) _ action token post_id payload
  exact ⟨h1, handle_callback_stale cfg env2 _ user cid2 action token hmod hnc h1⟩

/-- C2 witness: the reject decision on token `tk` for post 7 at a
concrete state, followed by a second callback with the same token. -/
theorem c2_token_single_use_witness :
    cfgModW.is_moderator c2userW.id = true ∧
    get_post_by_token c2stW.store (str "tk") = some 7 ∧
    alookup c2stW.pending_cache 7 = some payloadW ∧
    (get_post_by_token ((handle_callback cfgModW envOkW c2stW (post_callback_update (str "reject") (str "tk") (str "c1") c2userW)).1).store (str "tk") = none ∧
     handle_callback cfgModW envOkW ((handle_callback cfgModW envOkW c2stW (post_callback_update (str "reject") (str "tk") (str "c1") c2userW)).1) (post_callback_update (str "reject") (str "tk") (str "c2") c2userW) = ({ (handle_callback cfgModW envOkW c2stW (post_callback_update (str "reject") (str "tk") (str "c1") c2userW)).1 with comm := (answer_cb cfgModW envOkW ((handle_callback cfgModW envOkW c2stW (post_callback_update (str "reject") (str "tk") (str "c1") c2userW)).1).comm (some (str "c2")) (str "Устарело")).1 }, (answer_cb cfgModW envOkW ((handle_callback cfgModW envOkW c2stW (post_callback_update (str "reject") (str "tk") (str "c1") c2userW)).1).comm (some (str "c2")) (str "Устарело")).2)) :=
  ⟨by decide, by decide, rfl,
   c2_token_single_use cfgModW envOkW envOkW c2stW c2userW (str "c1") (str "c2")
     (str "reject") (str "tk") 7 payloadW (by decide)
     (Or.inr (Or.inr (Or.inr rfl))) (by decide) rfl⟩

theorem append_processed_posts (s : StoreData) (post_id : Int) :
    (append_processed s post_id).posts = s.posts := by
  unfold append_processed
  split <;> rfl

theorem get_post_record_set_mmi (s : StoreData) (post_id : Int)
    (mm : List (Int × List Int)) :
    get_post_record (set_moderation_message_ids s post_id mm) post_id
      = (alookup s.posts (intStr post_id)).map
          (fun r => { r with moderation_message_ids := mm }) := by
  unfold set_moderation_message_ids get_post_record
  cases h : alookup s.posts (intStr post_id) with
  | none => simp [h]
  | some post => simp [h, alookup_aset_self]

theorem get_post_record_mark_pending_fresh (now : Nat) (s : StoreData)
    (post_id : Int) (ch : Str) (u : Str) (payload : PostPayload)
    (halk : alookup s.posts (intStr post_id) = none)
    (hu : u.isEmpty = false) :
    get_post_record (mark_pending now s post_id ch (some u) payload) post_id
      = some { hash := ch, status := str "pending", token := some u,
               tg_message_ids := [], updated_at := now, payload := payload,
               moderation_message_ids := [] } := by
  unfold mark_pending get_post_record
  dsimp only
  rw [halk]
  dsimp only
  rw [append_processed_posts]
  simp only [optStrTruthy, hu]
  rw [if_pos (by decide : ¬(false = true))]
  simp [alookup_aset_self]

theorem send_for_moderation_store_mmi (cfg : Config) (env : Env) (st : PipeState)
    (post_id : Int) (payload : PostPayload) (token : Option Str) (ue wd : Bool) :
    ∃ mm, (send_for_moderation cfg env st post_id payload token ue wd).store
      = set_moderation_message_ids st.store post_id mm :=
  ⟨_, rfl⟩

theorem handle_post_fresh (cfg : Config) (env : Env) (st : PipeState)
    (post : RawPost) (source : Str) (post_id : Int)
    (hmr : cfg.moderation_required = true)
    (hid : post_effective_id post = some post_id)
    (htype : ¬(post.post_type.getD (str "post") = str "suggest"
      ∨ post.post_type.getD (str "post") = str "postpone"))
    (hrec : get_post_record st.store post_id = none) :
    handle_post cfg env st post source false
      = (send_for_moderation cfg env { st with comm := { st.comm with uuids := st.comm.uuids + 1 }, store := mark_pending env.now st.store post_id (hash_payload (normalize_post post)) (some (env.uuid st.comm.uuids)) (normalize_post post), pending_cache := aset st.pending_cache post_id (normalize_post post) } post_id (normalize_post post) (some (env.uuid st.comm.uuids)) true false, Except.ok ()) := by
  have hss : should_skip st.store post_id (hash_payload (normalize_post post)) = false := by
    unfold should_skip
    unfold get_post_record at hrec
    rw [hrec]
  unfold handle_post
  rw [hid]
  dsimp only
  rw [if_neg htype, hrec]
  dsimp only [Option.map]
  rw [if_neg Bool.false_ne_true]
  dsimp only
  rw [if_neg (by simp)]
  rw [if_neg (by simp)]
  rw [if_neg (by simp [hss])]
  rw [hmr, if_pos (rfl : true = true), if_pos (rfl : true = true)]
  rfl

theorem handle_post_skip_same_hash (cfg : Config) (env : Env) (st : PipeState)
    (post : RawPost) (source : Str) (post_id : Int) (rec : PostRecord)
    (hid : post_effective_id post = some post_id)
    (htype : ¬(post.post_type.getD (str "post") = str "suggest"
      ∨ post.post_type.getD (str "post") = str "postpone"))
    (hrec : get_post_record st.store post_id = some rec)
    (hhash : rec.hash = hash_payload (normalize_post post)) :
    handle_post cfg env st post source false = (st, Except.ok ()) := by
  unfold handle_post
  rw [hid]
  dsimp only
  rw [if_neg htype, hrec]
  dsimp only [Option.map]
  rw [if_neg Bool.false_ne_true]
  dsimp only
  rw [if_pos ⟨Bool.false_ne_true, congrArg some hhash⟩]

theorem get_post_record_after_send (cfg : Config) (env : Env) (stM : PipeState)
    (post_id : Int) (payload : PostPayload) (token : Option Str) (ue wd : Bool)
    (rec : PostRecord)
    (h : get_post_record stM.store post_id = some rec) :
    ∃ mm, get_post_record
        ((send_for_moderation cfg env stM post_id payload token ue wd)).store post_id
      = some { rec with moderation_message_ids := mm } := by
  obtain ⟨mm, hstore⟩ := send_for_moderation_store_mmi cfg env stM post_id payload token ue wd
  refine ⟨mm, ?_⟩
  rw [hstore, get_post_record_set_mmi]
  unfold get_post_record at h
  rw [h]
  rfl

/-- C5: idempotence of the pending-item entry point. With moderation
required, a fresh post delivered to `handle_post` (force = false) mints a
token, stores exactly one `pending` record carrying the canonical hash,
and sends the moderation prompt; delivering the byte-identical raw post a
second time returns the state completely unchanged with `ok` — a silent
skip that stores nothing and sends nothing. -/
theorem c5_handle_post_idempotent (cfg : Config) (env1 env2 : Env) (st : PipeState)
    (post : RawPost) (source1 source2 : Str) (post_id : Int)
    (hmr : cfg.moderation_required = true)
    (hid : post_effective_id post = some post_id)
    (htype : ¬(post.post_type.getD (str "post") = str "suggest"
      ∨ post.post_type.getD (str "post") = str "postpone"))
    (hrec : get_post_record st.store post_id = none)
    (huuid : (env1.uuid st.comm.uuids).isEmpty = false) :
    ∃ st1 rec,
      handle_post cfg env1 st post source1 false = (st1, Except.ok ())
      ∧ get_post_record st1.store post_id = some rec
      ∧ rec.status = str "pending"
      ∧ rec.hash = hash_payload (normalize_post post)
      ∧ handle_post cfg env2 st1 post source2 false = (st1, Except.ok ()) := by
  have hfirst := handle_post_fresh cfg env1 st post source1 post_id hmr hid htype hrec
  have hrec0 := get_post_record_mark_pending_fresh env1.now st.store post_id
    (hash_payload (normalize_post post)) (env1.uuid st.comm.uuids)
    (normalize_post post) hrec huuid
  obtain ⟨mm, hrc⟩ := get_post_record_after_send cfg env1 { st with comm := { st.comm with uuids := st.comm.uuids + 1 }, store := mark_pending env1.now st.store post_id (hash_payload (normalize_post post)) (some (env1.uuid st.comm.uuids)) (normalize_post post), pending_cache := aset st.pending_cache post_id (normalize_post post) } post_id (normalize_post post) (some (env1.uuid st.comm.uuids)) true false _ hrec0
  refine ⟨_, _, hfirst, hrc, rfl, rfl, ?_⟩
  exact handle_post_skip_same_hash cfg env2 _ post source2 post_id _ hid htype hrc rfl

/-- C5 witness: the fresh post 3 delivered twice to the empty state under
the uuid-minting environment. -/
theorem c5_handle_post_idempotent_witness :
    cfgModW.moderation_required = true ∧
    post_effective_id c5postW = some 3 ∧
    get_post_record stW.store 3 = none ∧
    (envOkW.uuid stW.comm.uuids).isEmpty = false ∧
    (∃ st1 rec,
      handle_post cfgModW envOkW stW c5postW (str "vk") false = (st1, Except.ok ())
      ∧ get_post_record st1.store 3 = some rec
      ∧ rec.status = str "pending"
      ∧ rec.hash = hash_payload (normalize_post c5postW)
      ∧ handle_post cfgModW envOkW st1 c5postW (str "poll") false = (st1, Except.ok ())) :=
  ⟨by decide, by decide, rfl, rfl,
   c5_handle_post_idempotent cfgModW envOkW envOkW stW c5postW (str "vk") (str "poll") 3
     (by decide) (by decide) (by decide) rfl rfl⟩

/-- C10 (amended): `handle_post` returns immediately with the state
untouched and nothing sent when the effective id — `post.get("id") or
post.get("post_id")` — is absent, or when the post type is `suggest` or
`postpone`, for every `source` and `force`. A missing `id` key alone
does not suffice: `post_id` is used as a fallback. -/
theorem c10_handle_post_early_return (cfg : Config) (env : Env) (st : PipeState)
    (post : RawPost) (source : Str) (force : Bool)
    (h : post_effective_id post = none
      ∨ post.post_type.getD (str "post") = str "suggest"
      ∨ post.post_type.getD (str "post") = str "postpone") :
    handle_post cfg env st post source force = (st, Except.ok ()) := by
  unfold handle_post
  rcases h with h | h
  · rw [h]
  · cases hid : post_effective_id post with
    | none => rfl
    | some pid =>
      dsimp only
      rw [if_pos h]

/-- C10 counterexample: a raw post whose `id` field is absent is claimed
to return immediately without mutating the StateStore — but with
`post_id` present the fallback id is used and `handle_post` stores a
record for post 7 in the previously empty store. -/
theorem c10_handle_post_early_return_counterexample :
    c10postW.id = none
    ∧ get_post_record stW.store 7 = none
    ∧ get_post_record
        ((handle_post cfgModW envOkW stW c10postW (str "vk") false).1).store 7 ≠ none := by
  refine ⟨rfl, rfl, ?_⟩
  have hfirst := handle_post_fresh cfgModW envOkW stW c10postW (str "vk") 7
    (by decide) (by decide) (by decide) rfl
  rw [hfirst]
  have hrec0 := get_post_record_mark_pending_fresh envOkW.now stW.store 7
    (hash_payload (normalize_post c10postW)) (envOkW.uuid stW.comm.uuids)
    (normalize_post c10postW) rfl rfl
  obtain ⟨mm, hrc⟩ := get_post_record_after_send cfgModW envOkW { stW with comm := { stW.comm with uuids := stW.comm.uuids + 1 }, store := mark_pending envOkW.now stW.store 7 (hash_payload (normalize_post c10postW)) (some (envOkW.uuid stW.comm.uuids)) (normalize_post c10postW), pending_cache := aset stW.pending_cache 7 (normalize_post c10postW) } 7 (normalize_post c10postW) (some (envOkW.uuid stW.comm.uuids)) true false _ hrec0
  rw [hrc]
  exact Option.some_ne_none _

/-- C10 witness: the amended early return at a concrete suggested post,
with force true. -/
theorem c10_handle_post_early_return_witness :
    (post_effective_id c10suggestW = none
      ∨ c10suggestW.post_type.getD (str "post") = str "suggest"
      ∨ c10suggestW.post_type.getD (str "post") = str "postpone")
    ∧ handle_post cfgModW envOkW stW c10suggestW (str "vk") true = (stW, Except.ok ()) :=
  ⟨Or.inr (Or.inl rfl),
   c10_handle_post_early_return cfgModW envOkW stW c10suggestW (str "vk") true
     (Or.inr (Or.inl rfl))⟩

theorem append_news_seen_news (s : StoreData) (url : Str) :
    (append_news_seen s url).news = s.news := by
  unfold append_news_seen
  split <;> rfl

theorem get_news_record_mark_news_pending_fresh (now : Nat) (s : StoreData)
    (url : Str) (ch : Str) (token : Option Str) (payload : NewsPayload)
    (halk : alookup s.news url = none) :
    get_news_record (mark_news_pending now s url ch token payload) url
      = some { hash := ch, status := if optStrTruthy token then str "pending" else str "auto", token := token, tg_message_ids := [], updated_at := now, payload := payload, published_to := none, vk_post_id := none, moderation_message_ids := [] } := by
  unfold mark_news_pending get_news_record
  dsimp only
  rw [halk]
  dsimp only
  rw [append_news_seen_news]
  cases token with
  | none => simp [alookup_aset_self]
  | some t =>
    by_cases ht : t.isEmpty
    · simp [ht, alookup_aset_self]
    · simp [ht, alookup_aset_self]

theorem send_news_for_moderation_store_mmi (cfg : Config) (env : Env)
    (st : PipeState) (url : Str) (payload : NewsPayload) (token : Option Str) :
    ∃ mm, (send_news_for_moderation cfg env st url payload token).store
      = set_news_moderation_message_ids st.store url mm :=
  ⟨_, rfl⟩

theorem get_news_record_set_news_mmi (s : StoreData) (url : Str)
    (mm : List (Int × List Int)) (rec : NewsRecord)
    (h : alookup s.news url = some rec) :
    get_news_record (set_news_moderation_message_ids s url mm) url
      = some { rec with moderation_message_ids := mm } := by
  unfold set_news_moderation_message_ids get_news_record
  rw [h]
  simp [alookup_aset_self]

theorem trim_digest_footer_text_found (t : Str) (i : Nat)
    (h : findSub (str "юбилейные встречи") (lower t) = some i) :
    trim_digest_footer_text t = rstrip (t.take i) := by
  unfold trim_digest_footer_text
  cases t with
  | nil =>
    have hn : findSub (str "юбилейные встречи") (lower []) = none := by decide
    rw [hn] at h
    exact Option.noConfusion h
  | cons a as =>
    rw [if_neg (by exact Bool.false_ne_true : ¬((a :: as).isEmpty = true)), h]

theorem handle_news_digest_fresh (cfg : Config) (env : Env) (st : PipeState)
    (news : NewsItem) (detail : NewsDetail)
    (hex : get_news_record st.store news.url = none)
    (hmr : cfg.moderation_required = true)
    (hdet : env.detail st.comm.fetches = Except.ok detail)
    (hdig : news.is_digest = true) :
    ∃ st1 mm, handle_news cfg env st news false true = (st1, Except.ok ())
      ∧ get_news_record st1.store news.url
        = some { hash := hash_news_payload (digestPayload news detail), status := if optStrTruthy (some (env.uuid st.comm.uuids)) then str "pending" else str "auto", token := some (env.uuid st.comm.uuids), tg_message_ids := [], updated_at := env.now, payload := digestPayload news detail, published_to := none, vk_post_id := none, moderation_message_ids := mm } := by
  have hnss : ∀ ch, news_should_skip st.store news.url ch = false := by
    intro ch
    unfold news_should_skip
    unfold get_news_record at hex
    rw [hex]
  have h0 := get_news_record_mark_news_pending_fresh env.now st.store news.url
    (hash_news_payload (digestPayload news detail)) (some (env.uuid st.comm.uuids))
    (digestPayload news detail) hex
  obtain ⟨mm, hstore⟩ := send_news_for_moderation_store_mmi cfg env { st with comm := { st.comm with uuids := st.comm.uuids + 1, fetches := st.comm.fetches + 1 }, store := mark_news_pending env.now st.store news.url (hash_news_payload (digestPayload news detail)) (some (env.uuid st.comm.uuids)) (digestPayload news detail), pending_news := aset st.pending_news news.url (digestPayload news detail) } news.url (digestPayload news detail) (some (env.uuid st.comm.uuids))
  refine ⟨send_news_for_moderation cfg env { st with comm := { st.comm with uuids := st.comm.uuids + 1, fetches := st.comm.fetches + 1 }, store := mark_news_pending env.now st.store news.url (hash_news_payload (digestPayload news detail)) (some (env.uuid st.comm.uuids)) (digestPayload news detail), pending_news := aset st.pending_news news.url (digestPayload news detail) } news.url (digestPayload news detail) (some (env.uuid st.comm.uuids)), mm, ?_, ?_⟩
  · unfold handle_news
    dsimp only
    rw [if_neg (fun hcc => Bool.false_ne_true hcc.1)]
    dsimp only
    rw [hex]
    dsimp only
    rw [if_neg Bool.false_ne_true, if_pos (rfl : true = true), hdet]
    dsimp only
    rw [hdig]
    simp only [Bool.true_or]
    rw [if_pos trivial, hnss]
    rw [if_neg (fun hcc => Bool.false_ne_true hcc.2)]
    rw [hmr, if_pos (rfl : true = true), if_pos (rfl : true = true)]
    rfl
  · rw [hstore]
    exact get_news_record_set_news_mmi _ news.url mm _ h0

/-- C4 (amended): for a digest-classified site item freshly delivered
with moderation required, the stored canonical payload keeps at most one
image — exactly one precisely when the scraper returned at least one —
and its body text is the digest-footer trim of the scraped text: when
the footer marker occurs (case-insensitively) at index `i`, the stored
text is the text up to `i` with trailing whitespace stripped. The
claimed "exactly one image" fails when the scraper returned none. -/
theorem c4_digest_payload (cfg : Config) (env : Env) (st : PipeState)
    (news : NewsItem) (detail : NewsDetail)
    (hex : get_news_record st.store news.url = none)
    (hmr : cfg.moderation_required = true)
    (hdet : env.detail st.comm.fetches = Except.ok detail)
    (hdig : news.is_digest = true) :
    ∃ st1 rec, handle_news cfg env st news false true = (st1, Except.ok ())
      ∧ get_news_record st1.store news.url = some rec
      ∧ rec.payload.is_digest = true
      ∧ rec.payload.images = detail.images.take 1
      ∧ rec.payload.images.length ≤ 1
      ∧ (detail.images ≠ [] → rec.payload.images.length = 1)
      ∧ rec.payload.text = trim_digest_footer_text detail.text
      ∧ (∀ i, findSub (str "юбилейные встречи") (lower detail.text) = some i →
          rec.payload.text = rstrip (detail.text.take i)) := by
  obtain ⟨st1, mm, heq, hrc⟩ := handle_news_digest_fresh cfg env st news detail hex hmr hdet hdig
  refine ⟨st1, _, heq, hrc, rfl, rfl, ?_, ?_, rfl, ?_⟩
  · show (detail.images.take 1).length ≤ 1
    rw [List.length_take]
    omega
  · intro hne
    show (detail.images.take 1).length = 1
    rw [List.length_take]
    have := List.length_pos.mpr hne
    omega
  · intro i hi
    exact trim_digest_footer_text_found detail.text i hi

/-- C4 counterexample: the scraper returned no images for a
digest-classified item, so the stored canonical payload has zero images
— not exactly one. -/
theorem c4_digest_payload_counterexample :
    ∃ st1 rec, handle_news cfgModW envOkW stW c4newsW false true = (st1, Except.ok ())
      ∧ get_news_record st1.store c4newsW.url = some rec
      ∧ rec.payload.is_digest = true
      ∧ rec.payload.images.length = 0 := by
  obtain ⟨st1, mm, heq, hrc⟩ := handle_news_digest_fresh cfgModW envOkW stW c4newsW
    defaultNewsDetail rfl (by decide) rfl rfl
  exact ⟨st1, _, heq, hrc, rfl, rfl⟩

/-- C4 witness: the digest item fetched with two scraped images. -/
theorem c4_digest_payload_witness :
    get_news_record stW.store c4newsW.url = none ∧
    cfgModW.moderation_required = true ∧
    envC4W.detail stW.comm.fetches = Except.ok c4detailW ∧
    c4newsW.is_digest = true ∧
    (∃ st1 rec, handle_news cfgModW envC4W stW c4newsW false true = (st1, Except.ok ())
      ∧ get_news_record st1.store c4newsW.url = some rec
      ∧ rec.payload.is_digest = true
      ∧ rec.payload.images = c4detailW.images.take 1
      ∧ rec.payload.images.length ≤ 1
      ∧ (c4detailW.images ≠ [] → rec.payload.images.length = 1)
      ∧ rec.payload.text = trim_digest_footer_text c4detailW.text
      ∧ (∀ i, findSub (str "юбилейные встречи") (lower c4detailW.text) = some i →
          rec.payload.text = rstrip (c4detailW.text.take i))) :=
  ⟨rfl, by decide, rfl, rfl,
   c4_digest_payload cfgModW envC4W stW c4newsW c4detailW rfl (by decide) rfl rfl⟩

theorem foldl_preserve {α β : Type} (P : β → Prop) (f : β → α → β) (l : List α) :
    ∀ (init : β), P init → (∀ b a, a ∈ l → P b → P (f b a)) → P (l.foldl f init) := by
  induction l with
  | nil => intro init h0 _; exact h0
  | cons x xs ih =>
    intro init h0 hstep
    exact ih (f init x) (hstep init x (List.mem_cons_self x xs) h0)
      (fun b a ha hb => hstep b a (List.mem_cons_of_mem x ha) hb)

theorem lstrip_length_le (s : Str) : (lstrip s).length ≤ s.length := by
  unfold lstrip
  exact (List.dropWhile_sublist _).length_le

theorem rstrip_length_le (s : Str) : (rstrip s).length ≤ s.length := by
  unfold rstrip
  rw [List.length_reverse]
  calc (s.reverse.dropWhile pyIsSpace).length
      ≤ s.reverse.length := (List.dropWhile_sublist _).length_le
    _ = s.length := List.length_reverse s

theorem strip_length_le (s : Str) : (strip s).length ≤ s.length := by
  unfold strip
  exact (rstrip_length_le _).trans (lstrip_length_le s)

theorem dropWhile_head_false {α : Type} (p : α → Bool) (l : List α) (x : α) (xs : List α)
    (h : l.dropWhile p = x :: xs) : p x = false := by
  induction l with
  | nil => exact absurd h (by simp)
  | cons a as ih =>
    rw [List.dropWhile_cons] at h
    split at h
    · exact ih h
    · cases h
      simpa using ‹¬p x = true›

theorem dropWhile_subset {α : Type} (p : α → Bool) (l : List α) :
    ∀ c ∈ l.dropWhile p, c ∈ l :=
  fun c hc => (List.dropWhile_sublist _).subset hc

theorem mem_dropWhile_of_not {α : Type} (p : α → Bool) (l : List α) (c : α)
    (hc : c ∈ l) (hp : p c = false) : c ∈ l.dropWhile p := by
  induction l with
  | nil => exact absurd hc (List.not_mem_nil c)
  | cons a as ih =>
    rw [List.dropWhile_cons]
    by_cases hpa : p a = true
    · rw [if_pos hpa]
      rcases List.mem_cons.mp hc with rfl | hmem
      · rw [hp] at hpa
        exact absurd hpa (by simp)
      · exact ih hmem
    · rw [if_neg hpa]
      exact hc

theorem rstrip_ne_nil_of_mem (s : Str) (c : Char) (hc : c ∈ s)
    (hp : pyIsSpace c = false) : rstrip s ≠ [] := by
  intro h
  unfold rstrip at h
  have h0 : s.reverse.dropWhile pyIsSpace = [] := by
    have := congrArg List.reverse h
    simpa using this
  have hcm : c ∈ s.reverse.dropWhile pyIsSpace :=
    mem_dropWhile_of_not _ _ c (List.mem_reverse.mpr hc) hp
  rw [h0] at hcm
  exact absurd hcm (List.not_mem_nil c)

theorem strip_ne_nil_of_mem (s : Str) (c : Char) (hc : c ∈ s)
    (hp : pyIsSpace c = false) : strip s ≠ [] := by
  unfold strip
  exact rstrip_ne_nil_of_mem (lstrip s) c (mem_dropWhile_of_not _ _ c hc hp) hp

theorem rstrip_prefix (s : Str) : List.IsPrefix (rstrip s) s := by
  unfold rstrip
  have hsuf : List.IsSuffix (s.reverse.dropWhile pyIsSpace) s.reverse :=
    List.dropWhile_suffix _
  have := List.reverse_prefix.mpr hsuf
  simpa using this

theorem strip_head_nonspace (s : Str) (c : Char) (cs : Str)
    (h : strip s = c :: cs) : pyIsSpace c = false := by
  have hpre : List.IsPrefix (strip s) (lstrip s) := rstrip_prefix (lstrip s)
  rw [h] at hpre
  obtain ⟨t, ht⟩ := hpre
  exact dropWhile_head_false pyIsSpace s c (cs ++ t) (by simpa [lstrip] using ht.symm)

theorem strip_last_nonspace (s : Str) (l : Str) (x : Char)
    (h : strip s = l ++ [x]) : pyIsSpace x = false := by
  have h2 : (lstrip s).reverse.dropWhile pyIsSpace = x :: l.reverse := by
    have := congrArg List.reverse h
    simpa [strip, rstrip] using this
  exact dropWhile_head_false _ _ _ _ h2

theorem strip_subset (s : Str) (c : Char) (hc : c ∈ strip s) : c ∈ s := by
  unfold strip rstrip lstrip at hc
  rw [List.mem_reverse] at hc
  have h1 := (List.dropWhile_sublist _).subset hc
  rw [List.mem_reverse] at h1
  exact (List.dropWhile_sublist _).subset h1

theorem rstrip_ne_nil_of_strip_ne_nil (s : Str) (h : strip s ≠ []) : rstrip s ≠ [] := by
  cases hs : strip s with
  | nil => exact absurd hs h
  | cons c cs =>
    have hcns : pyIsSpace c = false := strip_head_nonspace s c cs hs
    have hcm : c ∈ s := strip_subset s c (by rw [hs]; exact List.mem_cons_self c cs)
    exact rstrip_ne_nil_of_mem s c hcm hcns

theorem sliceChunks_props (limit : Nat) :
    ∀ (n : Nat) (t : Str), t.length ≤ n →
      ∀ p ∈ sliceChunks t limit, p.length ≤ limit ∧ p ≠ [] ∧ ∀ c ∈ p, c ∈ t := by
  intro n
  induction n with
  | zero =>
    intro t ht p hp
    have h0 : t = [] := List.length_eq_zero.mp (Nat.le_zero.mp ht)
    subst h0
    rw [sliceChunks, dif_pos (Or.inl rfl : ([] : Str).isEmpty = true ∨ limit = 0)] at hp
    exact absurd hp (List.not_mem_nil p)
  | succ n ih =>
    intro t ht p hp
    rw [sliceChunks] at hp
    by_cases hg : t.isEmpty = true ∨ limit = 0
    · rw [dif_pos hg] at hp
      exact absurd hp (List.not_mem_nil p)
    · rw [dif_neg hg] at hp
      push_neg at hg
      obtain ⟨hne, hl0⟩ := hg
      have htne : t ≠ [] := by simpa [List.isEmpty_iff] using hne
      rcases List.mem_cons.mp hp with rfl | hp2
      · refine ⟨by rw [List.length_take]; omega, ?_, ?_⟩
        · intro h0
          rcases List.take_eq_nil_iff.mp h0 with h | h
          · exact hl0 h
          · exact htne h
        · intro c hc
          exact List.mem_of_mem_take hc
      · have hdrop : (t.drop limit).length ≤ n := by
          rw [List.length_drop]
          have : 0 < t.length := List.length_pos.mpr htne
          omega
        obtain ⟨h1, h2, h3⟩ := ih (t.drop limit) hdrop p hp2
        exact ⟨h1, h2, fun c hc => List.mem_of_mem_drop (h3 c hc)⟩

theorem splitStep_bound (limit : Nat) (st : List Str × Str) (token : Str)
    (h1 : ∀ p ∈ st.1, p.length ≤ limit) (h2 : st.2.length ≤ limit) :
    (∀ p ∈ (splitStep limit st token).1, p.length ≤ limit)
      ∧ (splitStep limit st token).2.length ≤ limit := by
  unfold splitStep
  dsimp only
  by_cases hov : limit < token.length
  · rw [if_pos hov]
    exact foldl_preserve
      (fun b : List Str × Str => (∀ p ∈ b.1, p.length ≤ limit) ∧ b.2.length ≤ limit)
      _ _ _
      (by
        by_cases hstrip : (strip st.2).isEmpty = true
        · rw [if_pos hstrip]
          exact ⟨h1, h2⟩
        · rw [if_neg hstrip]
          refine ⟨?_, by simp⟩
          intro p hp
          rcases List.mem_append.mp hp with hp | hp
          · exact h1 p hp
          · rw [List.mem_singleton] at hp
            subst hp
            exact (rstrip_length_le _).trans h2)
      (by
        intro b a ha hb
        have hale : a.length ≤ limit :=
          (sliceChunks_props limit token.length token le_rfl a ha).1
        by_cases hfull : a.length = limit
        · rw [if_pos hfull]
          refine ⟨?_, hb.2⟩
          intro p hp
          rcases List.mem_append.mp hp with hp | hp
          · exact hb.1 p hp
          · rw [List.mem_singleton] at hp
            subst hp
            exact (rstrip_length_le _).trans hale
        · rw [if_neg hfull]
          exact ⟨hb.1, hale⟩)
  · rw [if_neg hov]
    by_cases hfit : st.2.length + token.length ≤ limit
    · rw [if_pos hfit]
      refine ⟨h1, ?_⟩
      rw [List.length_append]
      exact hfit
    · rw [if_neg hfit]
      refine ⟨?_, ?_⟩
      · by_cases hstrip : (strip st.2).isEmpty = true
        · rw [if_pos hstrip]
          exact h1
        · rw [if_neg hstrip]
          intro p hp
          rcases List.mem_append.mp hp with hp | hp
          · exact h1 p hp
          · rw [List.mem_singleton] at hp
            subst hp
            exact (rstrip_length_le _).trans h2
      · have htl : token.length ≤ limit := Nat.le_of_not_lt hov
        by_cases hsp : token.all pyIsSpace = true
        · rw [if_pos hsp]
          exact (lstrip_length_le _).trans htl
        · rw [if_neg hsp]
          exact htl

theorem split_block_by_words_bound (text : Str) (limit : Nat) :
    ∀ p ∈ split_block_by_words text limit, p.length ≤ limit := by
  unfold split_block_by_words
  by_cases he : text.isEmpty = true
  · rw [if_pos he]
    intro p hp
    exact absurd hp (List.not_mem_nil p)
  · rw [if_neg he]
    by_cases hle : text.length ≤ limit
    · rw [if_pos hle]
      intro p hp
      rw [List.mem_singleton] at hp
      subst hp
      exact hle
    · rw [if_neg hle]
      dsimp only
      have hfin := foldl_preserve
        (fun b : List Str × Str => (∀ p ∈ b.1, p.length ≤ limit) ∧ b.2.length ≤ limit)
        (splitStep limit) (tokenize text) ([], [])
        ⟨fun p hp => absurd hp (List.not_mem_nil p), by simp⟩
        (fun b a _ hb => splitStep_bound limit b a hb.1 hb.2)
      split
      · exact hfin.1
      · intro p hp
        rcases List.mem_append.mp hp with hp | hp
        · exact hfin.1 p hp
        · rw [List.mem_singleton] at hp
          subst hp
          exact (rstrip_length_le _).trans hfin.2

theorem tokenize_last :
    ∀ (n : Nat) (s : Str), s.length ≤ n → ∀ c, s.getLast? = some c →
      ∃ ts t, tokenize s = ts ++ [t] ∧ t ≠ [] ∧ ∀ d ∈ t, pyIsSpace d = pyIsSpace c := by
  intro n
  induction n with
  | zero =>
    intro s hs c hc
    have h0 : s = [] := List.length_eq_zero.mp (Nat.le_zero.mp hs)
    subst h0
    simp at hc
  | succ n ih =>
    intro s hs c hc
    cases s with
    | nil => simp at hc
    | cons a rest =>
      cases hrest : rest.dropWhile (fun d => pyIsSpace d = pyIsSpace a) with
      | nil =>
        have htw : rest.takeWhile (fun d => pyIsSpace d = pyIsSpace a) = rest := by
          have hglue := List.takeWhile_append_dropWhile
            (fun d => (pyIsSpace d = pyIsSpace a : Bool)) rest
          rw [hrest] at hglue
          simpa using hglue
        have hall : ∀ d ∈ a :: rest, pyIsSpace d = pyIsSpace a := by
          intro d hd
          rcases List.mem_cons.mp hd with rfl | hd2
          · rfl
          · have : d ∈ rest.takeWhile (fun d => pyIsSpace d = pyIsSpace a) := by
              rw [htw]; exact hd2
            have := List.mem_takeWhile_imp this
            simpa using this
        have hcc : pyIsSpace c = pyIsSpace a := by
          obtain ⟨hne2, hceq⟩ :=
            List.mem_getLast?_eq_getLast (show c ∈ (a :: rest).getLast? from hc)
          have hcm : c ∈ a :: rest := by
            rw [hceq]
            exact List.getLast_mem hne2
          exact hall c hcm
        refine ⟨[], a :: rest, ?_, by simp, ?_⟩
        · rw [tokenize, htw, hrest]
          rw [show tokenize ([] : Str) = [] from by rw [tokenize]]
          rfl
        · intro d hd
          rw [hall d hd, hcc]
      | cons b bs =>
        have hglue := List.takeWhile_append_dropWhile
          (fun d => (pyIsSpace d = pyIsSpace a : Bool)) rest
        have hlast : (rest.dropWhile (fun d => pyIsSpace d = pyIsSpace a)).getLast? = some c := by
          have hsplit : a :: rest
              = (a :: rest.takeWhile (fun d => pyIsSpace d = pyIsSpace a))
                ++ rest.dropWhile (fun d => pyIsSpace d = pyIsSpace a) := by
            rw [List.cons_append, hglue]
          rw [hsplit] at hc
          rwa [List.getLast?_append_of_ne_nil _ (by rw [hrest]; simp)] at hc
        have hlen : (rest.dropWhile (fun d => pyIsSpace d = pyIsSpace a)).length ≤ n := by
          have h1 : (rest.dropWhile (fun d => pyIsSpace d = pyIsSpace a)).length ≤ rest.length :=
            (List.dropWhile_sublist _).length_le
          have h2 : rest.length + 1 ≤ n + 1 := by simpa using hs
          omega
        obtain ⟨ts, t, h1, h2, h3⟩ :=
          ih (rest.dropWhile (fun d => pyIsSpace d = pyIsSpace a)) hlen c hlast
        refine ⟨(a :: rest.takeWhile (fun d => pyIsSpace d = pyIsSpace a)) :: ts, t, ?_, h2, h3⟩
        rw [tokenize, h1]
        rfl

theorem splitStep_last_nonspace (limit : Nat) (hl : 0 < limit)
    (st : List Str × Str) (t : Str) (ht : t ≠ [])
    (hns : ∀ ch ∈ t, pyIsSpace ch = false) :
    strip (splitStep limit st t).2 ≠ []
      ∨ ∃ l x, (splitStep limit st t).1 = l ++ [x] ∧ x ≠ ([] : Str) := by
  unfold splitStep
  dsimp only
  by_cases hov : limit < t.length
  · rw [if_pos hov]
    have hguard : ¬(t.isEmpty = true ∨ limit = 0) := by
      push_neg
      refine ⟨?_, by omega⟩
      simpa [List.isEmpty_iff] using ht
    have hpsne : sliceChunks t limit ≠ [] := by
      rw [sliceChunks, dif_neg hguard]
      simp
    obtain ⟨ps0, pl, hps⟩ : ∃ ps0 pl, sliceChunks t limit = ps0 ++ [pl] :=
      ⟨_, _, (List.dropLast_append_getLast hpsne).symm⟩
    have hplmem : pl ∈ sliceChunks t limit := by
      rw [hps]
      exact List.mem_append_right _ (List.mem_singleton_self pl)
    obtain ⟨hple, hplne, hplsub⟩ := sliceChunks_props limit t.length t le_rfl pl hplmem
    have hplns : ∀ ch ∈ pl, pyIsSpace ch = false := fun ch hch => hns ch (hplsub ch hch)
    obtain ⟨ch, hch⟩ := List.exists_mem_of_ne_nil pl hplne
    rw [hps, List.foldl_append]
    simp only [List.foldl_cons, List.foldl_nil]
    by_cases hfull : pl.length = limit
    · rw [if_pos hfull]
      right
      exact ⟨_, rstrip pl, rfl, rstrip_ne_nil_of_mem pl ch hch (hplns ch hch)⟩
    · rw [if_neg hfull]
      left
      exact strip_ne_nil_of_mem pl ch hch (hplns ch hch)
  · rw [if_neg hov]
    obtain ⟨ch, hch⟩ := List.exists_mem_of_ne_nil t ht
    by_cases hfit : st.2.length + t.length ≤ limit
    · rw [if_pos hfit]
      left
      exact strip_ne_nil_of_mem _ ch (List.mem_append_right _ hch) (hns ch hch)
    · rw [if_neg hfit]
      dsimp only
      left
      have hnall : t.all pyIsSpace = false := by
        rw [List.all_eq_false]
        exact ⟨ch, hch, by simp [hns ch hch]⟩
      rw [hnall, if_neg Bool.false_ne_true]
      exact strip_ne_nil_of_mem t ch hch (hns ch hch)

theorem split_block_by_words_end (text : Str) (limit : Nat) (hl : 0 < limit)
    (hne : text ≠ []) (c : Char) (hlastc : text.getLast? = some c)
    (hcns : pyIsSpace c = false) :
    ∃ l x, split_block_by_words text limit = l ++ [x] ∧ x ≠ ([] : Str) := by
  unfold split_block_by_words
  rw [if_neg (show ¬(text.isEmpty = true) by simpa [List.isEmpty_iff] using hne)]
  by_cases hle : text.length ≤ limit
  · rw [if_pos hle]
    exact ⟨[], text, rfl, hne⟩
  · rw [if_neg hle]
    dsimp only
    obtain ⟨ts, t, htok, htne, hclass⟩ := tokenize_last text.length text le_rfl c hlastc
    have htns : ∀ d ∈ t, pyIsSpace d = false := fun d hd => by
      rw [hclass d hd]
      exact hcns
    rw [htok, List.foldl_append]
    simp only [List.foldl_cons, List.foldl_nil]
    rcases splitStep_last_nonspace limit hl (List.foldl (splitStep limit) ([], []) ts) t
        htne htns with hgood | ⟨l, x, hx, hxne⟩
    · rw [if_neg (by simpa [List.isEmpty_iff] using hgood)]
      exact ⟨_, rstrip (splitStep limit (List.foldl (splitStep limit) ([], []) ts) t).2,
        rfl, rstrip_ne_nil_of_strip_ne_nil _ hgood⟩
    · by_cases hstrip :
          (strip (splitStep limit (List.foldl (splitStep limit) ([], []) ts) t).2).isEmpty = true
      · rw [if_pos hstrip]
        exact ⟨l, x, hx, hxne⟩
      · rw [if_neg hstrip]
        exact ⟨_, rstrip (splitStep limit (List.foldl (splitStep limit) ([], []) ts) t).2,
          rfl, rstrip_ne_nil_of_strip_ne_nil _ (by simpa [List.isEmpty_iff] using hstrip)⟩

theorem chunkStep_bound (limit : Nat) (st : List Str × Str) (para : Str)
    (h1 : ∀ p ∈ st.1, p.length ≤ limit) (h2 : st.2.length ≤ limit) :
    (∀ p ∈ (chunkStep limit st para).1, p.length ≤ limit)
      ∧ (chunkStep limit st para).2.length ≤ limit := by
  unfold chunkStep
  dsimp only
  by_cases hcand :
      (if st.2.isEmpty = true then para else st.2 ++ str "\n\n" ++ para).length ≤ limit
  · rw [if_pos hcand]
    exact ⟨h1, hcand⟩
  · rw [if_neg hcand]
    have hch : ∀ p ∈ (if st.2.isEmpty = true then st.1 else st.1 ++ [st.2]),
        p.length ≤ limit := by
      split
      · exact h1
      · intro p hp
        rcases List.mem_append.mp hp with hp | hp
        · exact h1 p hp
        · rw [List.mem_singleton] at hp
          subst hp
          exact h2
    by_cases hpl : para.length ≤ limit
    · rw [if_pos hpl]
      exact ⟨hch, hpl⟩
    · rw [if_neg hpl]
      have hsb := split_block_by_words_bound para limit
      cases hsplit : split_block_by_words para limit with
      | nil => exact ⟨hch, by simp⟩
      | cons p ps =>
        rw [hsplit] at hsb
        dsimp only
        constructor
        · intro q hq
          rcases List.mem_append.mp hq with hq | hq
          · exact hch q hq
          · exact hsb q ((List.dropLast_sublist (p :: ps)).subset hq)
        · exact hsb _ (List.getLast_mem _)

theorem chunkStep_last (limit : Nat) (hl : 0 < limit) (st : List Str × Str)
    (para : Str) (hne : para ≠ []) (c : Char) (hlastc : para.getLast? = some c)
    (hcns : pyIsSpace c = false) :
    (chunkStep limit st para).2 ≠ [] := by
  unfold chunkStep
  dsimp only
  by_cases hcand :
      (if st.2.isEmpty = true then para else st.2 ++ str "\n\n" ++ para).length ≤ limit
  · rw [if_pos hcand]
    split
    · exact hne
    · simp [hne]
  · rw [if_neg hcand]
    by_cases hpl : para.length ≤ limit
    · rw [if_pos hpl]
      exact hne
    · rw [if_neg hpl]
      obtain ⟨l, x, hx, hxne⟩ := split_block_by_words_end para limit hl hne c hlastc hcns
      rw [hx]
      cases l with
      | nil =>
        simp only [List.nil_append]
        exact hxne
      | cons l0 ls =>
        simp only [List.cons_append]
        have hsome : (l0 :: (ls ++ [x])).getLast? = some x := by
          rw [show l0 :: (ls ++ [x]) = (l0 :: ls) ++ [x] from rfl]
          exact List.getLast?_concat _
        intro h0
        have hgl : (l0 :: (ls ++ [x])).getLast (by simp) = x := by
          have hg : (l0 :: (ls ++ [x])).getLast?
              = some ((l0 :: (ls ++ [x])).getLast (by simp)) :=
            List.getLast?_eq_getLast_of_ne_nil _
          rw [hsome] at hg
          exact (Option.some.inj hg).symm
        exact hxne (hgl.symm.trans h0)

theorem chunk_fold_bound (limit : Nat) (paragraphs : List Str) :
    (∀ p ∈ (paragraphs.foldl (chunkStep limit) ([], [])).1, p.length ≤ limit)
      ∧ (paragraphs.foldl (chunkStep limit) ([], [])).2.length ≤ limit :=
  foldl_preserve
    (fun b : List Str × Str => (∀ p ∈ b.1, p.length ≤ limit) ∧ b.2.length ≤ limit)
    _ _ _ ⟨fun p hp => absurd hp (List.not_mem_nil p), by simp⟩
    (fun b a _ hb => chunkStep_bound limit b a hb.1 hb.2)

theorem chunk_fold_last_ne_nil (limit : Nat) (hl : 0 < limit) (ps0 : List Str)
    (pl : Str) (hne : pl ≠ []) (c : Char) (hlastc : pl.getLast? = some c)
    (hcns : pyIsSpace c = false) :
    ((ps0 ++ [pl]).foldl (chunkStep limit) ([], [])).2 ≠ [] := by
  rw [List.foldl_append]
  simp only [List.foldl_cons, List.foldl_nil]
  exact chunkStep_last limit hl _ pl hne c hlastc hcns

theorem chunk_text_bound (text : Str) (limit : Nat) (hl : 0 < limit) :
    ∀ p ∈ chunk_text text limit, p.length ≤ limit := by
  unfold chunk_text
  dsimp only
  by_cases hce : (strip text).isEmpty = true
  · rw [if_pos hce]
    intro p hp
    rw [List.mem_singleton] at hp
    subst hp
    simp
  · rw [if_neg hce]
    by_cases hle : (strip text).length ≤ limit
    · rw [if_pos hle]
      intro p hp
      rw [List.mem_singleton] at hp
      subst hp
      exact hle
    · rw [if_neg hle]
      by_cases hpe : (((splitOnSep (str "\n\n") (strip text)).map strip).filter
          (fun p => ¬p.isEmpty)).isEmpty = true
      · rw [if_pos hpe]
        exact split_block_by_words_bound _ _
      · rw [if_neg hpe]
        have hPne : ((splitOnSep (str "\n\n") (strip text)).map strip).filter
            (fun p => ¬p.isEmpty) ≠ [] := by
          simpa [List.isEmpty_iff] using hpe
        obtain ⟨ps0, pl, hP⟩ :
            ∃ ps0 pl, ((splitOnSep (str "\n\n") (strip text)).map strip).filter
              (fun p => ¬p.isEmpty) = ps0 ++ [pl] :=
          ⟨_, _, (List.dropLast_append_getLast hPne).symm⟩
        have hplmem : pl ∈ ((splitOnSep (str "\n\n") (strip text)).map strip).filter
            (fun p => ¬p.isEmpty) := by
          rw [hP]
          exact List.mem_append_right _ (List.mem_singleton_self pl)
        obtain ⟨hmm, hpred⟩ := List.mem_filter.mp hplmem
        have hplne : pl ≠ [] := by
          simpa [List.isEmpty_iff] using hpred
        obtain ⟨r, hrmem, hr⟩ := List.mem_map.mp hmm
        obtain ⟨l2, x, hlx⟩ : ∃ l2 x, pl = l2 ++ [x] :=
          ⟨_, _, (List.dropLast_append_getLast hplne).symm⟩
        have hxns : pyIsSpace x = false := strip_last_nonspace r l2 x (by rw [hr]; exact hlx)
        have hlast : pl.getLast? = some x := by
          rw [hlx]
          exact List.getLast?_concat _
        rw [hP]
        have hfne := chunk_fold_last_ne_nil limit hl ps0 pl hplne x hlast hxns
        rw [if_neg (show ¬(((ps0 ++ [pl]).foldl (chunkStep limit) ([], [])).2.isEmpty = true) by simpa [List.isEmpty_iff] using hfne)]
        rw [if_neg (show ¬((((ps0 ++ [pl]).foldl (chunkStep limit) ([], [])).1 ++ [((ps0 ++ [pl]).foldl (chunkStep limit) ([], [])).2]).isEmpty = true) by simp)]
        intro p hp
        obtain ⟨hb1, hb2⟩ := chunk_fold_bound limit (ps0 ++ [pl])
        rcases List.mem_append.mp hp with hp | hp
        · exact hb1 p hp
        · rw [List.mem_singleton] at hp
          subst hp
          exact hb2

/-- C8: for every text and limit L > 0, every chunk `chunk_text` returns
has length at most L — the implementation hard-splits over-long tokens
into L-sized slices, so not even a single over-long token survives — and
empty input yields exactly one empty chunk. -/
theorem c8_chunk_text_bound (text : Str) (limit : Nat) (hl : 0 < limit) :
    (∀ p ∈ chunk_text text limit, p.length ≤ limit)
      ∧ chunk_text [] limit = [[]] := by
  refine ⟨chunk_text_bound text limit hl, ?_⟩
  rfl

/-- C8 witness: the bound at text `"hello world"` and limit 3. -/
theorem c8_chunk_text_bound_witness :
    0 < 3 ∧ ((∀ p ∈ chunk_text (str "hello world") 3, p.length ≤ 3)
      ∧ chunk_text [] 3 = [[]]) :=
  ⟨by decide, c8_chunk_text_bound (str "hello world") 3 (by decide)⟩
